import Mathlib

/-! Real-time engine of the game backend.

A shallow embedding of `internal/websocket` (`hub.go`, `client.go`: frame codec, round
state machine, connection registry, session handlers, write loop), of the settlement
code of `internal/service/game.go` and of `config/config.go`, and the properties of their
specification.

Conventions of the embedding:

* a Go `[]byte` is a `List Byte`, a byte being a `Fin 256`;
* `uint32` values are naturals reduced modulo `2^32`, `int32` values are integers
  wrapped into `[-2^31, 2^31)`; Go's `int` is the 64-bit `int` of the usual server
  targets (amd64, arm64), so `int(x)` of a `uint32` is the value itself;
* a finite `float64` is held as the rational it denotes; `updateGameState` adds the
  increment exactly, which is enough for what is said of a single tick, and
  `updateGameState64` adds it as binary64 arithmetic does, for what is said of sums over
  many ticks; amounts of the ledger are exact rationals; configuration amounts are
  `Float64` values, NaN and infinities included;
* `time.Now().Unix()` readings are inputs of the functions that take them.
-/

namespace GameBackend

/-! ## Machine integers -/

/-- A byte of a Go byte slice. -/
abbrev Byte := Fin 256

/-- Conversion `byte(n)`: the low eight bits. -/
def toByte (n : Nat) : Byte := ⟨n % 256, Nat.mod_lt n (by decide)⟩

/-- Conversion `uint32(n)` of a non-negative length: reduction modulo `2^32`. -/
def toUint32 (n : Nat) : Nat := n % 2 ^ 32

/-- Subtraction of `uint32` values, wrapping around below zero. -/
def uint32Sub (a b : Nat) : Nat := (a % 2 ^ 32 + 2 ^ 32 - b % 2 ^ 32) % 2 ^ 32

/-- Wrapping of an integer into the `int32` range. -/
def wrapInt32 (x : Int) : Int := (x + 2 ^ 31) % 2 ^ 32 - 2 ^ 31

/-- Library function `binary.BigEndian.PutUint32`: the four bytes of a `uint32`, most
significant first. -/
def putUint32 (v : Nat) : List Byte :=
  [toByte (v / 2 ^ 24), toByte (v / 2 ^ 16), toByte (v / 2 ^ 8), toByte v]

/-- Library function `binary.BigEndian.Uint32`: the value of the first four bytes, most
significant first (a slice shorter than four bytes is never passed). -/
def beUint32 : List Byte → Nat
  | b0 :: b1 :: b2 :: b3 :: _ => b0.val * 2 ^ 24 + b1.val * 2 ^ 16 + b2.val * 2 ^ 8 + b3.val
  | _ => 0

/-! ## Frame codec (`hub.go`, `encodeMessage` and `decodeMessage`) -/

/-- Type `MessageType`, a byte. -/
abbrev MessageType := Byte

def GameStatusUpdate : MessageType := 0x01
def PlayerBet : MessageType := 0x02
def GameStart : MessageType := 0x03
def GameEnd : MessageType := 0x04
def PlayerCashout : MessageType := 0x05
def LeaderboardUpdate : MessageType := 0x06
def SystemNotification : MessageType := 0x07
def HandshakeRequest : MessageType := 0x08
def HandshakeResponse : MessageType := 0x09

/-- Error of `encodeMessage`: the payload could not be serialised. -/
inductive EncodeError where
  | marshal
deriving DecidableEq, Repr

/-- Errors of `decodeMessage`: fewer than five bytes, or a declared length that does
not match the payload. -/
inductive DecodeError where
  | tooShort
  | lengthMismatch
deriving DecidableEq, Repr

/-- The frame that `encodeMessage` builds around serialised payload bytes: a buffer of
`5 + len` bytes, `uint32(len + 1)` big-endian in bytes 0 to 3, the type in byte 4 and the
payload copied from offset 5. -/
def frame (msgType : MessageType) (protoData : List Byte) : List Byte :=
  putUint32 (toUint32 (protoData.length + 1)) ++ msgType :: protoData

/-- Function `Hub.encodeMessage`; `marshal` stands for `json.Marshal` on the type of
`data`. -/
def encodeMessage {α : Type} (marshal : α → Except EncodeError (List Byte))
    (msgType : MessageType) (data : α) : Except EncodeError (List Byte) :=
  match marshal data with
  | .error e => .error e
  | .ok protoData => .ok (frame msgType protoData)

/-- Function `Hub.decodeMessage`. -/
def decodeMessage (data : List Byte) : Except DecodeError (MessageType × List Byte) :=
  if data.length < 5 then .error .tooShort
  else
    let length := beUint32 (data.take 4)
    let msgType := data.getD 4 0
    let payload := data.drop 5
    if payload.length ≠ uint32Sub length 1 then .error .lengthMismatch
    else .ok (msgType, payload)

/-- The read limit of a session, `c.conn.SetReadLimit(512)` in `readPump`: no inbound
message handed to `handleMessage` is longer. -/
def readLimit : Nat := 512

/-! ## Round state machine (`hub.go`, `updateGameState` and its broadcasts) -/

/-- Structure `GameState`: the singleton round state of the hub. `Status` is a Go `int`
(0 waiting, 1 running, 2 ended), `PlayersCount` and `NextRoundIn` are `int32`,
`LastUpdate` is an `int64` Unix time. -/
structure GameState where
  GameID : String
  Status : Int
  CurrentMultiplier : ℚ
  PlayersCount : Int
  NextRoundIn : Int
  LastUpdate : Int
deriving DecidableEq, Repr

/-- The state built by `NewHub`; `now` is the reading of `time.Now().Unix()`. -/
def NewHub (now : Int) : GameState :=
  { GameID := "crash_001", Status := 0, CurrentMultiplier := 1, PlayersCount := 0,
    NextRoundIn := 10, LastUpdate := now }

namespace proto

/-- Payload `proto.GameStatusUpdate`, with the fields the hub fills in. -/
structure GameStatusUpdate where
  GameId : String
  State : Int
  CurrentMultiplier : ℚ
  PlayersCount : Int
  NextRoundIn : Int
  ServerTime : Int
deriving DecidableEq, Repr

/-- Payload `proto.GameStart`, with the fields the hub fills in. -/
structure GameStart where
  RoundId : String
  PlayersCount : Int
  TotalBetAmount : ℚ
  StartTime : Int
deriving DecidableEq, Repr

/-- Payload `proto.GameEnd`, with the fields the hub fills in. -/
structure GameEnd where
  RoundId : String
  FinalMultiplier : ℚ
  WinnersCount : Int
  TotalPayout : ℚ
  EndTime : Int
deriving DecidableEq, Repr

/-- Payload `proto.PlayerBet`, with the fields `handlePlayerBet` fills in. -/
structure PlayerBet where
  BetId : String
  UserId : Int
  Amount : ℚ
  AutoCashout : ℚ
  Timestamp : Int
deriving DecidableEq, Repr

/-- Payload `proto.PlayerCashout`, with the fields `handlePlayerCashout` fills in. -/
structure PlayerCashout where
  BetId : String
  UserId : Int
  Multiplier : ℚ
  Payout : ℚ
  Timestamp : Int
deriving DecidableEq, Repr

/-- Payload `proto.HandshakeResponse`, with the fields `sendHandshakeResponse` fills
in. -/
structure HandshakeResponse where
  Status : String
  UserId : Int
  ServerTime : Int
  Message : String
deriving DecidableEq, Repr

/-- Payload `proto.SystemNotification`, with the fields `sendErrorMessage` and
`sendInfoMessage` fill in (`Type_` is the field `Type`). -/
structure SystemNotification where
  Type_ : String
  Message : String
  Timestamp : Int
deriving DecidableEq, Repr

end proto

/-- The request a `HandshakeRequest` payload is unmarshalled into (`handleHandshake`). -/
structure HandshakeReq where
  Token : String
  Version : String
deriving DecidableEq, Repr

/-- The request a `PlayerBet` payload is unmarshalled into (`handlePlayerBet`). -/
structure BetReq where
  Amount : ℚ
  AutoCashout : ℚ
deriving DecidableEq, Repr

/-- The request a `PlayerCashout` payload is unmarshalled into
(`handlePlayerCashout`). -/
structure CashoutReq where
  BetID : String
deriving DecidableEq, Repr

/-- The values the hub and the client sessions pass to `encodeMessage` as
`data interface{}`. -/
inductive Payload where
  | statusUpdate (m : proto.GameStatusUpdate)
  | gameStart (m : proto.GameStart)
  | gameEnd (m : proto.GameEnd)
  | playerBet (m : proto.PlayerBet)
  | playerCashout (m : proto.PlayerCashout)
  | handshakeResponse (m : proto.HandshakeResponse)
  | systemNotification (m : proto.SystemNotification)
deriving DecidableEq, Repr

/-- The parts of the program that lie outside `src/`: package `proto` declares the
payload types and the enumeration `proto.GameState`, and `encoding/json` serialises them.
`marshal` is `json.Marshal` on the hub's payloads, which are plain structs of strings,
integers and finite numbers and therefore always serialise; `protoGameState` is the
conversion `proto.GameState(status)`; the three parsers are `json.Unmarshal` into the
request structs of `client.go`, `none` standing for an error. -/
structure Env where
  marshal : Payload → List Byte
  protoGameState : Int → Int
  parseHandshake : List Byte → Option HandshakeReq
  parseBet : List Byte → Option BetReq
  parseCashout : List Byte → Option CashoutReq

/-- Serialisation of a hub payload, in the shape `encodeMessage` expects. -/
def Env.jsonMarshal (E : Env) (data : Payload) : Except EncodeError (List Byte) :=
  .ok (E.marshal data)

/-- A call that leaves the hub during a tick: `Hub.broadcastMessage` with an encoded
frame, or one of the two settlement entry points of `GameService`
(`service/game.go`). -/
inductive Effect where
  | broadcast (message : List Byte)
  | processAutoCashouts (currentMultiplier : ℚ)
  | processCrashedBets
deriving DecidableEq, Repr

/-- The status payload that `broadcastGameStatusUpdate` and `sendGameStatusToClient`
build from the round state. -/
def statusUpdateOf (E : Env) (g : GameState) : proto.GameStatusUpdate :=
  { GameId := g.GameID, State := E.protoGameState g.Status,
    CurrentMultiplier := g.CurrentMultiplier, PlayersCount := g.PlayersCount,
    NextRoundIn := g.NextRoundIn, ServerTime := g.LastUpdate }

/-- Function `Hub.broadcastGameStatusUpdate`: the calls it makes. -/
def broadcastGameStatusUpdate (E : Env) (g : GameState) : List Effect :=
  match encodeMessage E.jsonMarshal GameStatusUpdate (.statusUpdate (statusUpdateOf E g)) with
  | .error _ => []
  | .ok message => [.broadcast message]

/-- Function `Hub.broadcastGameStart`; `clock` is its own reading of
`time.Now().Unix()`. -/
def broadcastGameStart (E : Env) (clock : Int) (g : GameState) : List Effect :=
  let gameStart : proto.GameStart :=
    { RoundId := "round_" ++ toString clock, PlayersCount := g.PlayersCount,
      TotalBetAmount := 0, StartTime := g.LastUpdate }
  match encodeMessage E.jsonMarshal GameStart (.gameStart gameStart) with
  | .error _ => []
  | .ok message => [.broadcast message]

/-- Function `Hub.broadcastGameEnd`; `clock` is its own reading of
`time.Now().Unix()`. -/
def broadcastGameEnd (E : Env) (clock : Int) (g : GameState) : List Effect :=
  let gameEnd : proto.GameEnd :=
    { RoundId := "round_" ++ toString clock, FinalMultiplier := g.CurrentMultiplier,
      WinnersCount := 0, TotalPayout := 0, EndTime := g.LastUpdate }
  match encodeMessage E.jsonMarshal GameEnd (.gameEnd gameEnd) with
  | .error _ => []
  | .ok message => [.broadcast message]

/-- Function `Hub.updateGameState`: one tick. `now` is the reading of
`time.Now().Unix()` at the top of the function, `clock` the later reading taken by
`broadcastGameStart` or `broadcastGameEnd`. The result is the round state the tick
leaves and the calls it made, in order. -/
def updateGameState (E : Env) (now clock : Int) (g : GameState) : GameState × List Effect :=
  let g := { g with LastUpdate := now }
  let r : GameState × List Effect :=
    if g.Status = 0 then
      let g := { g with NextRoundIn := wrapInt32 (g.NextRoundIn - 1) }
      if g.NextRoundIn ≤ 0 then
        let g := { g with Status := 1, CurrentMultiplier := 1, NextRoundIn := 30 }
        (g, broadcastGameStart E clock g)
      else (g, [])
    else if g.Status = 1 then
      let g := { g with CurrentMultiplier := g.CurrentMultiplier + 1 / 100,
                        NextRoundIn := wrapInt32 (g.NextRoundIn - 1) }
      if g.NextRoundIn ≤ 0 then
        let g := { g with Status := 2 }
        (g, broadcastGameEnd E clock g)
      else (g, [])
    else if g.Status = 2 then
      ({ g with Status := 0, CurrentMultiplier := 1, NextRoundIn := 10 }, [])
    else (g, [])
  (r.1, r.2 ++ broadcastGameStatusUpdate E r.1)

/-- The round state left by the first `n` ticks of `Hub.gameLoop`, started in `g`;
`clk i` holds the two clock readings of tick `i + 1`. -/
def stateAfter (E : Env) (clk : Nat → Int × Int) (g : GameState) : Nat → GameState
  | 0 => g
  | n + 1 => (updateGameState E (clk n).1 (clk n).2 (stateAfter E clk g n)).1

/-- The frame of the status payload of a round state. -/
def statusFrame (E : Env) (g : GameState) : List Byte :=
  frame GameStatusUpdate (E.marshal (.statusUpdate (statusUpdateOf E g)))

/-- The frame of the `GameStart` payload built from a round state. -/
def gameStartFrame (E : Env) (clock : Int) (g : GameState) : List Byte :=
  frame GameStart (E.marshal (.gameStart
    { RoundId := "round_" ++ toString clock, PlayersCount := g.PlayersCount,
      TotalBetAmount := 0, StartTime := g.LastUpdate }))

/-- The frame of the `GameEnd` payload built from a round state. -/
def gameEndFrame (E : Env) (clock : Int) (g : GameState) : List Byte :=
  frame GameEnd (E.marshal (.gameEnd
    { RoundId := "round_" ++ toString clock, FinalMultiplier := g.CurrentMultiplier,
      WinnersCount := 0, TotalPayout := 0, EndTime := g.LastUpdate }))

/-- The type tag of a broadcast frame (its fifth byte); no tag for other calls. -/
def Effect.tag : Effect → Option MessageType
  | .broadcast message => message.get? 4
  | _ => none

/-- Whether a call is one of the two settlement entry points. -/
def Effect.isSettlement : Effect → Bool
  | .broadcast _ => false
  | .processAutoCashouts _ => true
  | .processCrashedBets => true

/-! ## Connection registry and client sessions (`hub.go`, `client.go`, `handler.go`) -/

/-- A Go run-time panic raised by a channel operation. -/
inductive Panic where
  | sendOnClosedChannel
  | closeOfClosedChannel
deriving DecidableEq, Repr

/-- Capacity of a session's outbound channel: `make(chan []byte, 256)` in `ServeWS`. -/
def sendCapacity : Nat := 256

/-- The outbound channel `send` of a client: the frames buffered and not yet taken by
the write loop, oldest first, and whether the channel has been closed. -/
structure Chan where
  buf : List (List Byte)
  closed : Bool
deriving DecidableEq, Repr

/-- Statement `close(ch)`: closing a closed channel panics. -/
def Chan.close (ch : Chan) : Except Panic Chan :=
  if ch.closed then .error .closeOfClosedChannel else .ok { ch with closed := true }

/-- The send case of `select { case ch <- m: ... default: ... }`: a send on a closed
channel panics; with room in the buffer the frame is appended; on a full buffer the
result is `none` and the default case runs. -/
def Chan.trySend (ch : Chan) (m : List Byte) : Except Panic (Option Chan) :=
  if ch.closed then .error .sendOnClosedChannel
  else if ch.buf.length < sendCapacity then .ok (some { ch with buf := ch.buf ++ [m] })
  else .ok none

/-- Structure `Client`: the outbound channel and the user bound by the handshake
(`userID` is a `uint`). The connection and the two timestamps play no part here. -/
structure Client where
  send : Chan
  userID : Nat
  username : String
deriving DecidableEq, Repr

/-- The client that `ServeWS` creates: an open empty channel, no user bound. -/
def newClient : Client :=
  { send := { buf := [], closed := false }, userID := 0, username := "" }

/-- Structure `Hub` with the objects it points to: `clients` holds the keys of the map
`h.clients` (sessions are named by numbers, which stand for the `*Client` pointers),
`client` gives the `Client` object behind each pointer, `gameState` is the round
state. -/
structure Hub where
  clients : Finset Nat
  client : Nat → Client
  gameState : GameState

/-- The hub that `NewHub` builds, all sessions being as `ServeWS` creates them. -/
def initialHub (now : Int) : Hub :=
  { clients := ∅, client := fun _ => newClient, gameState := NewHub now }

/-- Function `Hub.GetClientsCount`. -/
def GetClientsCount (h : Hub) : Nat := h.clients.card

/-- Function `Hub.GetGameState`: a copy of the round state. -/
def GetGameState (h : Hub) : GameState := h.gameState

/-- Assignment to the channel of session `c`. -/
def Hub.setSend (h : Hub) (c : Nat) (ch : Chan) : Hub :=
  { h with client := Function.update h.client c { h.client c with send := ch } }

/-- Assignment to the user fields of session `c`. -/
def Hub.bindUser (h : Hub) (c : Nat) (userID : Nat) (username : String) : Hub :=
  { h with client :=
      Function.update h.client c { h.client c with userID := userID, username := username } }

/-- The statement `select { case client.send <- message: default: close(client.send);
delete(h.clients, client) }` of `broadcastMessage` and `sendGameStatusToClient`. -/
def Hub.sendOrEvict (h : Hub) (c : Nat) (message : List Byte) : Except Panic Hub :=
  match (h.client c).send.trySend message with
  | .error p => .error p
  | .ok (some ch) => .ok (h.setSend c ch)
  | .ok none =>
    match (h.client c).send.close with
    | .error p => .error p
    | .ok ch => .ok { h.setSend c ch with clients := h.clients.erase c }

/-- The statement `select { case c.send <- msg: default: close(c.send) }` of the
reply functions of `client.go`. -/
def Hub.sendOrClose (h : Hub) (c : Nat) (msg : List Byte) : Except Panic Hub :=
  match (h.client c).send.trySend msg with
  | .error p => .error p
  | .ok (some ch) => .ok (h.setSend c ch)
  | .ok none =>
    match (h.client c).send.close with
    | .error p => .error p
    | .ok ch => .ok (h.setSend c ch)

/-- Function `Hub.broadcastMessage`: the loop over the map `h.clients`. Go leaves the
order of the loop open; each round touches only its own session, so the sessions are
taken in increasing order. -/
def broadcastMessage (h : Hub) (message : List Byte) : Except Panic Hub :=
  (h.clients.sort (· ≤ ·)).foldlM (fun h c => h.sendOrEvict c message) h

/-- Function `Hub.sendGameStatusToClient`. -/
def sendGameStatusToClient (E : Env) (h : Hub) (c : Nat) : Except Panic Hub :=
  match encodeMessage E.jsonMarshal GameStatusUpdate
      (.statusUpdate (statusUpdateOf E h.gameState)) with
  | .error _ => .ok h
  | .ok message => h.sendOrEvict c message

/-- Function `Hub.registerClient`. -/
def registerClient (E : Env) (h : Hub) (c : Nat) : Except Panic Hub :=
  let h := { h with clients := insert c h.clients }
  let h := { h with gameState :=
    { h.gameState with PlayersCount := wrapInt32 (h.gameState.PlayersCount + 1) } }
  sendGameStatusToClient E h c

/-- Function `Hub.unregisterClient`. -/
def unregisterClient (h : Hub) (c : Nat) : Except Panic Hub :=
  if c ∈ h.clients then
    let h := { h with clients := h.clients.erase c }
    match (h.client c).send.close with
    | .error p => .error p
    | .ok ch =>
      let h := h.setSend c ch
      .ok { h with gameState :=
        { h.gameState with PlayersCount := wrapInt32 (h.gameState.PlayersCount - 1) } }
  else .ok h

/-- The calls of a tick carried out on the hub: each broadcast goes through
`broadcastMessage`. -/
def applyEffects : List Effect → Hub → Except Panic Hub
  | [], h => .ok h
  | .broadcast message :: rest, h =>
    match broadcastMessage h message with
    | .error p => .error p
    | .ok h => applyEffects rest h
  | _ :: rest, h => applyEffects rest h

/-- One round of `Hub.gameLoop`: `updateGameState` on the hub, its broadcasts reaching
the sessions. -/
def gameLoopTick (E : Env) (now clock : Int) (h : Hub) : Except Panic Hub :=
  applyEffects (updateGameState E now clock h.gameState).2
    { h with gameState := (updateGameState E now clock h.gameState).1 }

/-- Conversion `int64(n)` of a `uint`. -/
def uintToInt64 (n : Nat) : Int := ((n : Int) + 2 ^ 63) % 2 ^ 64 - 2 ^ 63

/-- Function `Client.sendHandshakeResponse`; `clock` is its reading of
`time.Now().Unix()`. -/
def sendHandshakeResponse (E : Env) (clock : Int) (h : Hub) (c : Nat) (status : String)
    (userID : Nat) (message : String) : Except Panic Hub :=
  let response : proto.HandshakeResponse :=
    { Status := status, UserId := uintToInt64 userID, ServerTime := clock,
      Message := message }
  match encodeMessage E.jsonMarshal HandshakeResponse (.handshakeResponse response) with
  | .error _ => .ok h
  | .ok msg => h.sendOrClose c msg

/-- Function `Client.sendErrorMessage`; `clock` is its reading of `time.Now().Unix()`. -/
def sendErrorMessage (E : Env) (clock : Int) (h : Hub) (c : Nat) (message : String) :
    Except Panic Hub :=
  let notification : proto.SystemNotification :=
    { Type_ := "error", Message := message, Timestamp := clock }
  match encodeMessage E.jsonMarshal SystemNotification (.systemNotification notification) with
  | .error _ => .ok h
  | .ok msg => h.sendOrClose c msg

/-- Function `Client.sendInfoMessage`; `clock` is its reading of `time.Now().Unix()`. -/
def sendInfoMessage (E : Env) (clock : Int) (h : Hub) (c : Nat) (message : String) :
    Except Panic Hub :=
  let notification : proto.SystemNotification :=
    { Type_ := "info", Message := message, Timestamp := clock }
  match encodeMessage E.jsonMarshal SystemNotification (.systemNotification notification) with
  | .error _ => .ok h
  | .ok msg => h.sendOrClose c msg

/-- Function `Client.handleHandshake`. -/
def handleHandshake (E : Env) (clock : Int) (h : Hub) (c : Nat) (payload : List Byte) :
    Except Panic Hub :=
  match E.parseHandshake payload with
  | none => sendHandshakeResponse E clock h c "error" 0 "握手请求格式错误"
  | some handshakeReq =>
    if handshakeReq.Token = "" then
      sendHandshakeResponse E clock h c "error" 0 "Token不能为空"
    else
      let h := h.bindUser c 12345 "player1"
      sendHandshakeResponse E clock h c "success" (h.client c).userID ""

/-- The event that `handlePlayerBet` builds; `t1` and `t2` are its two readings of
`time.Now().Unix()`. -/
def playerBetEvent (t1 t2 : Int) (cl : Client) (betReq : BetReq) : proto.PlayerBet :=
  { BetId := "bet_" ++ toString cl.userID ++ "_" ++ toString t1,
    UserId := uintToInt64 cl.userID, Amount := betReq.Amount,
    AutoCashout := betReq.AutoCashout, Timestamp := t2 }

/-- Function `Client.handlePlayerBet`; on the paths that reply with an error, `t1` is
the reading of `time.Now().Unix()` taken by `sendErrorMessage`. -/
def handlePlayerBet (E : Env) (t1 t2 : Int) (h : Hub) (c : Nat) (payload : List Byte) :
    Except Panic Hub :=
  match E.parseBet payload with
  | none => sendErrorMessage E t1 h c "下注请求格式错误"
  | some betReq =>
    if betReq.Amount ≤ 0 then sendErrorMessage E t1 h c "下注金额必须大于0"
    else
      match encodeMessage E.jsonMarshal PlayerBet
          (.playerBet (playerBetEvent t1 t2 (h.client c) betReq)) with
      | .error _ => sendErrorMessage E t2 h c "下注失败"
      | .ok message => broadcastMessage h message

/-- The event that `handlePlayerCashout` builds; `t1` is its reading of
`time.Now().Unix()`. -/
def playerCashoutEvent (t1 : Int) (cl : Client) (cashoutReq : CashoutReq) :
    proto.PlayerCashout :=
  { BetId := cashoutReq.BetID, UserId := uintToInt64 cl.userID, Multiplier := 25 / 10,
    Payout := 25, Timestamp := t1 }

/-- Function `Client.handlePlayerCashout`; on the paths that reply with an error, `t1`
is the reading of `time.Now().Unix()` taken by `sendErrorMessage`. -/
def handlePlayerCashout (E : Env) (t1 t2 : Int) (h : Hub) (c : Nat) (payload : List Byte) :
    Except Panic Hub :=
  match E.parseCashout payload with
  | none => sendErrorMessage E t1 h c "止盈请求格式错误"
  | some cashoutReq =>
    if cashoutReq.BetID = "" then sendErrorMessage E t1 h c "下注ID不能为空"
    else
      match encodeMessage E.jsonMarshal PlayerCashout
          (.playerCashout (playerCashoutEvent t1 (h.client c) cashoutReq)) with
      | .error _ => sendErrorMessage E t2 h c "止盈失败"
      | .ok message => broadcastMessage h message

/-- Function `Client.handleMessage` of session `c`; `t1` and `t2` are the readings of
`time.Now().Unix()` taken while the message is handled. -/
def handleMessage (E : Env) (t1 t2 : Int) (h : Hub) (c : Nat) (data : List Byte) :
    Except Panic Hub :=
  match decodeMessage data with
  | .error _ => sendErrorMessage E t1 h c "消息格式错误"
  | .ok (msgType, payload) =>
    if msgType = HandshakeRequest then handleHandshake E t1 h c payload
    else if msgType = PlayerBet then handlePlayerBet E t1 t2 h c payload
    else if msgType = PlayerCashout then handlePlayerCashout E t1 t2 h c payload
    else sendErrorMessage E t1 h c "未知消息类型"

/-- What a broadcast of `message` does to one live session whose channel is open: the
frame is appended when the buffer has room, the channel is closed when it is full. -/
def Client.afterBroadcast (cl : Client) (message : List Byte) : Client :=
  if cl.send.buf.length < sendCapacity then
    { cl with send := { cl.send with buf := cl.send.buf ++ [message] } }
  else { cl with send := { cl.send with closed := true } }

/-- The hub once the loop of `broadcastMessage` has visited the sessions of `l`, all of
them having open channels. -/
def Hub.afterVisits (h : Hub) (l : List Nat) (message : List Byte) : Hub :=
  { clients := h.clients.filter
      (fun c => c ∉ l ∨ (h.client c).send.buf.length < sendCapacity),
    client := fun c => if c ∈ l then (h.client c).afterBroadcast message else h.client c,
    gameState := h.gameState }

/-- The hub after `broadcastMessage`, all live sessions having open channels: sessions
with a full buffer are closed and removed, the others receive the frame. -/
def Hub.afterBroadcast (h : Hub) (message : List Byte) : Hub :=
  { clients := h.clients.filter (fun c => (h.client c).send.buf.length < sendCapacity),
    client := fun c =>
      if c ∈ h.clients then (h.client c).afterBroadcast message else h.client c,
    gameState := h.gameState }

/-- An operation on the hub: the three requests served by `Hub.Run`, a round of the
game loop, or a message handled by the read loop of session `c`. -/
inductive Op where
  | register (c : Nat)
  | unregister (c : Nat)
  | broadcast (message : List Byte)
  | tick (now clock : Int)
  | handle (c : Nat) (t1 t2 : Int) (data : List Byte)
deriving DecidableEq, Repr

/-- The effect of one operation. -/
def step (E : Env) (h : Hub) : Op → Except Panic Hub
  | .register c => registerClient E h c
  | .unregister c => unregisterClient h c
  | .broadcast message => broadcastMessage h message
  | .tick now clock => gameLoopTick E now clock h
  | .handle c t1 t2 data => handleMessage E t1 t2 h c data

/-- The effect of a sequence of operations, oldest first; a panic ends the run. -/
def run (E : Env) : List Op → Hub → Except Panic Hub
  | [], h => .ok h
  | op :: rest, h =>
    match step E h op with
    | .error p => .error p
    | .ok h => run E rest h

/-- Whether an operation is one of the three requests served by `Hub.Run`. -/
def Op.isHubRequest : Op → Bool
  | .register _ => true
  | .unregister _ => true
  | .broadcast _ => true
  | _ => false

/-- The bookkeeping of one operation on the set of sessions that have been registered
and for which `unregister` has not been called since. -/
def noteOp (S : Finset Nat) : Op → Finset Nat
  | .register c => insert c S
  | .unregister c => S.erase c
  | _ => S

/-- The sessions that have been registered and for which `unregister` has not been
called since, after a sequence of operations (oldest first). -/
def registeredNotUnregistered (ops : List Op) : Finset Nat :=
  ops.foldl noteOp ∅

/-- The sessions registered by a sequence of operations, with repetitions. -/
def registrations : List Op → List Nat
  | [] => []
  | .register c :: rest => c :: registrations rest
  | _ :: rest => registrations rest

/-- The hub when `registerClient` has entered the session in the map and counted it,
before the status frame is sent. -/
def Hub.entered (h : Hub) (c : Nat) : Hub :=
  { h with
    clients := insert c h.clients,
    gameState :=
      { h.gameState with PlayersCount := wrapInt32 (h.gameState.PlayersCount + 1) } }

/-- The frame of the error notification that `sendErrorMessage` builds. -/
def errorFrame (E : Env) (clock : Int) (message : String) : List Byte :=
  frame SystemNotification (E.marshal (.systemNotification
    { Type_ := "error", Message := message, Timestamp := clock }))

/-- The frame of the response that `sendHandshakeResponse` builds. -/
def handshakeFrame (E : Env) (clock : Int) (status : String) (userID : Nat)
    (message : String) : List Byte :=
  frame HandshakeResponse (E.marshal (.handshakeResponse
    { Status := status, UserId := uintToInt64 userID, ServerTime := clock,
      Message := message }))

/-- Registration of session 0 followed by 255 broadcasts of `m`: 256 frames for a
session that takes none from its channel. -/
def fillOps (m : List Byte) : List Op :=
  .register 0 :: List.replicate 255 (.broadcast m)

/-- The round state of a new hub with one player counted. -/
def onePlayerState (now : Int) : GameState := { NewHub now with PlayersCount := 1 }

/-- The hub in which session 0 is registered and holds the status frame of its
registration and `k` broadcast frames; `closed` tells whether its channel has been
closed. -/
def backlogHub (E : Env) (now : Int) (m : List Byte) (k : Nat) (closed : Bool) : Hub :=
  { clients := {0},
    client := fun c =>
      if c = 0 then
        { newClient with
          send := { buf := statusFrame E (onePlayerState now) :: List.replicate k m,
                    closed := closed } }
      else newClient,
    gameState := onePlayerState now }

/-- The hub in which session 0 is registered and its buffer is full: the status frame of
its registration and 255 broadcast frames. -/
def filledHub (E : Env) (now : Int) (m : List Byte) (closed : Bool) : Hub :=
  backlogHub E now m 255 closed

/-- Scenario A: three sessions register, then the second one is unregistered. -/
def scenarioAOps : List Op := [.register 0, .register 1, .register 2, .unregister 1]

/-- An environment used for concrete evaluations: every payload becomes `{}`; a
request parses when its text is not empty, its first byte giving the token (byte 0 for
the empty token), the amount or the bet id (byte 0 for the empty id). -/
def sampleEnv : Env :=
  { marshal := fun _ => [123, 125],
    protoGameState := fun s => s,
    parseHandshake := fun p =>
      match p with
      | [] => none
      | b :: _ => some { Token := if b = 0 then "" else "token", Version := "1" },
    parseBet := fun p =>
      match p with
      | [] => none
      | b :: _ => some { Amount := (b.val : ℚ), AutoCashout := 2 },
    parseCashout := fun p =>
      match p with
      | [] => none
      | b :: _ => some { BetID := if b = 0 then "" else "bet_1" } }

/-! ## Goroutines (`hub.go`, `handler.go`) -/

/-- The goroutines of the server that act on the hub: the loop `Hub.Run`, the loop
`Hub.gameLoop` started by `go h.gameLoop()`, and the read loop of a session started by
`go client.readPump(hub)`. -/
inductive Flow where
  | hubRun
  | gameLoop
  | readPump (c : Nat)
deriving DecidableEq, Repr

/-- The goroutine that carries out an operation: `Hub.Run` serves the three channels
`register`, `unregister` and `broadcast`; `updateGameState` is called by `gameLoop`;
`handleMessage` is called by `readPump` of the session. -/
def Op.flow : Op → Flow
  | .register _ => .hubRun
  | .unregister _ => .hubRun
  | .broadcast _ => .hubRun
  | .tick _ _ => .gameLoop
  | .handle c _ _ _ => .readPump c

/-! ## Values of type `float64` read from outside -/

/-- A `float64` as a configuration file can supply it: a finite number, held exactly, an
infinity, or NaN. The two zeros compare equal and are not told apart. -/
inductive Float64 where
  | finite (q : ℚ)
  | posInf
  | negInf
  | nan
deriving DecidableEq, Repr

/-- The comparison `x <= y` of Go on `float64`: false as soon as one side is NaN. -/
def Float64.le : Float64 → Float64 → Bool
  | .nan, _ => false
  | _, .nan => false
  | .negInf, _ => true
  | .finite _, .negInf => false
  | .finite a, .finite b => decide (a ≤ b)
  | .finite _, .posInf => true
  | .posInf, .posInf => true
  | .posInf, .finite _ => false
  | .posInf, .negInf => false

/-! ## Configuration (`config/config.go`) -/

namespace config

/-- Structure `ServerConfig`. -/
structure ServerConfig where
  Host : String
  Port : Int
  Mode : String
  ReadTimeout : Int
  WriteTimeout : Int
deriving DecidableEq, Repr

/-- Structure `DatabaseConfig`. -/
structure DatabaseConfig where
  Host : String
  Port : Int
  Username : String
  Password : String
  Database : String
  Charset : String
  MaxIdle : Int
  MaxOpen : Int
deriving DecidableEq, Repr

/-- Structure `RedisConfig`. -/
structure RedisConfig where
  Host : String
  Port : Int
  Password : String
  DB : Int
  PoolSize : Int
deriving DecidableEq, Repr

/-- Structure `JWTConfig`. -/
structure JWTConfig where
  Secret : String
  ExpireTime : Int
  Issuer : String
deriving DecidableEq, Repr

/-- Structure `GameConfig`: amounts and multipliers are `float64` (NaN and the
infinities included), durations are Go `int` seconds, `UpdateInterval` is a Go `int` of
milliseconds. -/
structure GameConfig where
  MinBetAmount : Float64
  MaxBetAmount : Float64
  MinMultiplier : Float64
  MaxMultiplier : Float64
  RoundDuration : Int
  BettingDuration : Int
  WaitingDuration : Int
  UpdateInterval : Int
  MaxPlayersPerGame : Int
deriving DecidableEq, Repr

/-- Structure `LogConfig`. -/
structure LogConfig where
  Level : String
  Format : String
  Output : String
  MaxSize : Int
  MaxBackups : Int
  MaxAge : Int
deriving DecidableEq, Repr

/-- Structure `Config`. -/
structure Config where
  Server : ServerConfig
  Database : DatabaseConfig
  Redis : RedisConfig
  JWT : JWTConfig
  Game : GameConfig
  Log : LogConfig
deriving DecidableEq, Repr

/-- The errors that `validateConfig` builds with `fmt.Errorf`; the port errors carry the
port they print. -/
inductive ConfigError where
  | serverPort (port : Int)
  | databasePort (port : Int)
  | redisPort (port : Int)
  | minBetAmount
  | maxBetAmount
  | jwtSecret
deriving DecidableEq, Repr

/-- Function `validateConfig`, on the configuration held by `AppConfig`. -/
def validateConfig (AppConfig : Config) : Except ConfigError Unit :=
  if AppConfig.Server.Port ≤ 0 ∨ AppConfig.Server.Port > 65535 then
    .error (.serverPort AppConfig.Server.Port)
  else if AppConfig.Database.Port ≤ 0 ∨ AppConfig.Database.Port > 65535 then
    .error (.databasePort AppConfig.Database.Port)
  else if AppConfig.Redis.Port ≤ 0 ∨ AppConfig.Redis.Port > 65535 then
    .error (.redisPort AppConfig.Redis.Port)
  else if AppConfig.Game.MinBetAmount.le (.finite 0) then
    .error .minBetAmount
  else if AppConfig.Game.MaxBetAmount.le AppConfig.Game.MinBetAmount then
    .error .maxBetAmount
  else if AppConfig.JWT.Secret = "" then
    .error .jwtSecret
  else .ok ()

/-- The configuration with new values in the four timing fields of `Game`. -/
def Config.withTiming (c : Config) (round betting waiting interval : Int) : Config :=
  { c with Game := { c.Game with RoundDuration := round, BettingDuration := betting,
                                 WaitingDuration := waiting, UpdateInterval := interval } }

/-- The configuration made of the values of `setDefaults`. -/
def defaults : Config :=
  { Server := { Host := "0.0.0.0", Port := 8080, Mode := "debug", ReadTimeout := 30,
                WriteTimeout := 30 },
    Database := { Host := "localhost", Port := 3306, Username := "root", Password := "",
                  Database := "crash_game", Charset := "utf8mb4", MaxIdle := 10,
                  MaxOpen := 100 },
    Redis := { Host := "localhost", Port := 6379, Password := "", DB := 0, PoolSize := 10 },
    JWT := { Secret := "crash-game-secret-key", ExpireTime := 24, Issuer := "crash-game" },
    Game := { MinBetAmount := .finite 1, MaxBetAmount := .finite 1000,
              MinMultiplier := .finite (101 / 100), MaxMultiplier := .finite 1000,
              RoundDuration := 30, BettingDuration := 15,
              WaitingDuration := 10, UpdateInterval := 100, MaxPlayersPerGame := 1000 },
    Log := { Level := "info", Format := "json", Output := "stdout", MaxSize := 100,
             MaxBackups := 3, MaxAge := 7 } }

end config

/-! ## The write loop of a session (`client.go`, `writePump`) -/

/-- A message handed to the WebSocket connection. -/
inductive WsMessage where
  | text (data : List Byte)
  | close
  | ping
deriving DecidableEq, Repr

/-- What the connection does during one round of the write loop: whether
`conn.NextWriter` returns an error, whether `w.Close` returns an error, and whether
`conn.WriteMessage` returns an error. -/
structure Transport where
  nextWriterFails : Bool
  closeFails : Bool
  writeMessageFails : Bool
deriving DecidableEq, Repr

/-- The loop `for i := 0; i < n; i++ { w.Write([]byte{'\n'}); w.Write(<-c.send) }`: `w`
holds the bytes written so far. A receive on an empty closed channel yields `nil`; on
an empty open channel it does not return (`none`). -/
def drainQueued : Nat → Chan → List Byte → Option (Chan × List Byte)
  | 0, ch, w => some (ch, w)
  | n + 1, ch, w =>
    match ch.buf with
    | m :: rest => drainQueued n { ch with buf := rest } (w ++ [10] ++ m)
    | [] => if ch.closed then drainQueued n ch (w ++ [10]) else none

/-- One round of the loop of `writePump` in which the case `message, ok := <-c.send` is
taken: `ch` is the channel `c.send`, `out` the messages written to the connection so
far. The result is the channel, the messages written, and whether the loop goes on
(`false`: `writePump` returns and closes the connection); `none` when the receive does
not return. -/
def writePumpSend (T : Transport) (ch : Chan) (out : List WsMessage) :
    Option (Chan × List WsMessage × Bool) :=
  match ch.buf with
  | [] =>
    if ch.closed then
      some (ch, if T.writeMessageFails then out else out ++ [.close], false)
    else none
  | message :: rest =>
    let ch := { ch with buf := rest }
    if T.nextWriterFails then some (ch, out, false)
    else
      match drainQueued ch.buf.length ch message with
      | none => none
      | some (ch, w) =>
        if T.closeFails then some (ch, out, false)
        else some (ch, out ++ [.text w], true)

/-- One round of the loop of `writePump` in which the case `<-ticker.C` is taken. -/
def writePumpPing (T : Transport) (out : List WsMessage) : List WsMessage × Bool :=
  if T.writeMessageFails then (out, false) else (out ++ [.ping], true)

/-- The frames of a list joined by single newline bytes. -/
def joinWithNewlines : List (List Byte) → List Byte
  | [] => []
  | [m] => m
  | m :: a :: rest => m ++ [10] ++ joinWithNewlines (a :: rest)

/-- A connection on which every call succeeds. -/
def healthyTransport : Transport :=
  { nextWriterFails := false, closeFails := false, writeMessageFails := false }

/-- A connection on which `Close` of the writer returns an error. -/
def closeFailingTransport : Transport :=
  { nextWriterFails := false, closeFails := true, writeMessageFails := false }

/-- A connection on which `NextWriter` returns an error. -/
def brokenTransport : Transport :=
  { nextWriterFails := true, closeFails := false, writeMessageFails := false }

/-! ## Settlement (`internal/service/game.go`, `internal/model`)

The tables `bets`, `users` and `user_stats` are held as a `Ledger`. Amounts are exact
rationals, like the multipliers; the rounding of the `decimal` columns is left out. The
bookkeeping columns `ID`, `CreatedAt`, `UpdatedAt` and `DeletedAt` are left out: rows
that are soft-deleted are seen by none of the statements below. No code of the
repository deletes a user, and `PlaceBet` creates a bet only for a user it has found, so
every user id has a balance. -/

namespace model

/-- Structure `model.Bet`. `Status` is 0 (open), 1 (cashed out) or 2 (crashed);
`CashoutTime` is a pointer, `none` for `nil`. -/
structure Bet where
  BetID : String
  UserID : Nat
  GameID : String
  RoundID : String
  Amount : ℚ
  AutoCashout : ℚ
  Multiplier : ℚ
  Payout : ℚ
  Status : Int
  CashoutTime : Option Int
deriving DecidableEq, Repr

/-- Structure `model.UserStats`, without its key `UserID`. -/
structure UserStats where
  TotalBets : Int
  TotalWinnings : ℚ
  BiggestMultiplier : ℚ
  GamesPlayed : Int
deriving DecidableEq, Repr

end model

/-- The tables read and written by the settlement code: the rows of `bets` in table
order, the column `balance` of `users` by user id, and the row of `user_stats` of each
user id. -/
structure Ledger where
  bets : List model.Bet
  balance : Nat → ℚ
  stats : Nat → Option model.UserStats

/-- The unique index on `bets.bet_id`. -/
def Ledger.uniqueBetIDs (L : Ledger) : Prop := (L.bets.map (fun b => b.BetID)).Nodup

/-- An error returned by a database statement. -/
inductive DbError where
  | failed
deriving DecidableEq, Repr

/-- A statement issued by the settlement code, with its arguments. -/
inductive DbCall where
  | updateBetCashout (betID : String) (multiplier payout : ℚ)
  | addUserBalance (userID : Nat) (amount : ℚ)
  | updateUserStats (userID : Nat) (payout multiplier : ℚ)
deriving DecidableEq, Repr

/-- What the database does during one call of `ProcessAutoCashouts`: whether the query
fails, and for the statements issued for the bet with a given `BetID`, whether
`UpdateBetCashout`, `AddUserBalance` and `UpdateUserStats` fail and what `time.Now()`
reads in `UpdateBetCashout`. A statement that fails changes nothing. -/
structure DbRun where
  findFails : Bool
  updateFails : String → Bool
  creditFails : String → Bool
  statsFails : String → Bool
  clock : String → Int

/-- Assignment to the table `bets`. -/
def Ledger.setBets (L : Ledger) (bets : List model.Bet) : Ledger := { L with bets := bets }

/-- Assignment to the balance of a user. -/
def Ledger.setBalance (L : Ledger) (userID : Nat) (balance : ℚ) : Ledger :=
  { L with balance := Function.update L.balance userID balance }

/-- Assignment to the row of `user_stats` of a user. -/
def Ledger.setStats (L : Ledger) (userID : Nat) (stats : model.UserStats) : Ledger :=
  { L with stats := Function.update L.stats userID (some stats) }

/-- The rows of `bets` after the update `SET multiplier, payout, status = 1,
cashout_time WHERE bet_id = betID`. -/
def markRows (betID : String) (multiplier payout : ℚ) (now : Int)
    (rows : List model.Bet) : List model.Bet :=
  rows.map (fun b =>
    if b.BetID = betID then
      { b with Multiplier := multiplier, Payout := payout, Status := 1,
               CashoutTime := some now }
    else b)

/-- Function `GameService.UpdateBetCashout`: the update of the rows whose `bet_id` is
`betID`; `fails` tells whether the statement returns an error, `now` is the reading of
`time.Now()`. -/
def UpdateBetCashout (fails : Bool) (now : Int) (L : Ledger) (betID : String)
    (multiplier payout : ℚ) : Except DbError Ledger :=
  if fails then .error .failed
  else
    .ok (L.setBets (markRows betID multiplier payout now L.bets))

/-- Function `GameService.AddUserBalance`. -/
def AddUserBalance (fails : Bool) (L : Ledger) (userID : Nat) (amount : ℚ) :
    Except DbError Ledger :=
  if fails then .error .failed
  else .ok (L.setBalance userID (L.balance userID + amount))

/-- Function `GameService.UpdateUserStats`: the row of the user is created when there is
none and updated otherwise; the argument `betAmount` is not used by the function. -/
def UpdateUserStats (fails : Bool) (L : Ledger) (userID : Nat)
    (_betAmount payout multiplier : ℚ) : Except DbError Ledger :=
  if fails then .error .failed
  else
    match L.stats userID with
    | none =>
      .ok (L.setStats userID
        { TotalBets := 1, TotalWinnings := payout, BiggestMultiplier := multiplier,
          GamesPlayed := 1 })
    | some stats =>
      .ok (L.setStats userID
        { TotalBets := stats.TotalBets + 1,
          TotalWinnings := stats.TotalWinnings + payout,
          BiggestMultiplier :=
            if multiplier > stats.BiggestMultiplier then multiplier
            else stats.BiggestMultiplier,
          GamesPlayed := stats.GamesPlayed + 1 })

/-- The condition `status = 0 AND auto_cashout > 0 AND auto_cashout <= ?` of the query of
`ProcessAutoCashouts`. -/
def autoCashoutDue (currentMultiplier : ℚ) (b : model.Bet) : Bool :=
  decide (b.Status = 0 ∧ b.AutoCashout > 0 ∧ b.AutoCashout ≤ currentMultiplier)

/-- The state of a call of `ProcessAutoCashouts`: the ledger and the statements issued
so far, oldest first. -/
structure Settlement where
  ledger : Ledger
  calls : List DbCall

/-- The body of the loop `for _, bet := range bets` of `ProcessAutoCashouts`, for one
row returned by the query; `continue` ends the body. -/
def settleOne (D : DbRun) (currentMultiplier : ℚ) (bet : model.Bet) (S : Settlement) :
    Settlement :=
  let payout := bet.Amount * currentMultiplier
  let S1 : Settlement :=
    { S with calls := S.calls ++ [.updateBetCashout bet.BetID currentMultiplier payout] }
  match UpdateBetCashout (D.updateFails bet.BetID) (D.clock bet.BetID) S1.ledger bet.BetID
      currentMultiplier payout with
  | .error _ => S1
  | .ok L1 =>
    let S2 : Settlement :=
      { ledger := L1, calls := S1.calls ++ [.addUserBalance bet.UserID payout] }
    match AddUserBalance (D.creditFails bet.BetID) S2.ledger bet.UserID payout with
    | .error _ => S2
    | .ok L2 =>
      let S3 : Settlement :=
        { ledger := L2,
          calls := S2.calls ++ [.updateUserStats bet.UserID payout currentMultiplier] }
      match UpdateUserStats (D.statsFails bet.BetID) S3.ledger bet.UserID bet.Amount payout
          currentMultiplier with
      | .error _ => S3
      | .ok L3 => { S3 with ledger := L3 }

/-- The loop `for _, bet := range bets` of `ProcessAutoCashouts`, over the rows that the
query has returned. -/
def settleBets (D : DbRun) (currentMultiplier : ℚ) : List model.Bet → Settlement → Settlement
  | [], S => S
  | bet :: rest, S => settleBets D currentMultiplier rest (settleOne D currentMultiplier bet S)

/-- Function `GameService.ProcessAutoCashouts`: the error it returns (`none` for `nil`),
and the ledger and the statements issued when it returns. -/
def ProcessAutoCashouts (D : DbRun) (currentMultiplier : ℚ) (L : Ledger) :
    Option DbError × Settlement :=
  if D.findFails then (some .failed, { ledger := L, calls := [] })
  else
    (none, settleBets D currentMultiplier (L.bets.filter (autoCashoutDue currentMultiplier))
      { ledger := L, calls := [] })

/-- Function `GameService.ProcessCrashedBets`: every open bet is marked crashed. -/
def ProcessCrashedBets (fails : Bool) (L : Ledger) : Except DbError Ledger :=
  if fails then .error .failed
  else .ok (L.setBets (L.bets.map (fun b => if b.Status = 0 then { b with Status := 2 } else b)))

/-- The row of a bet once `UpdateBetCashout` has recorded the multiplier, the payout
`Amount × multiplier` and the time of its cash-out. -/
def model.Bet.cashedOut (b : model.Bet) (multiplier : ℚ) (now : Int) : model.Bet :=
  { b with Multiplier := multiplier, Payout := b.Amount * multiplier, Status := 1,
           CashoutTime := some now }

/-- The bet id of a call of `UpdateBetCashout`. -/
def DbCall.cashoutTarget : DbCall → Option String
  | .updateBetCashout betID _ _ => some betID
  | _ => none

/-- The user and the amount of a call of `AddUserBalance`. -/
def DbCall.credit : DbCall → Option (Nat × ℚ)
  | .addUserBalance userID amount => some (userID, amount)
  | _ => none

/-- The sum of `Amount × multiplier` over the bets of a list that belong to a user. -/
def payoutsOf (multiplier : ℚ) (userID : Nat) (bets : List model.Bet) : ℚ :=
  ((bets.filter (fun b => decide (b.UserID = userID))).map
    (fun b => b.Amount * multiplier)).sum

/-- The statements that one round of the loop issues for a bet. -/
def callsFor (D : DbRun) (currentMultiplier : ℚ) (bet : model.Bet) : List DbCall :=
  .updateBetCashout bet.BetID currentMultiplier (bet.Amount * currentMultiplier) ::
    (if D.updateFails bet.BetID then []
     else .addUserBalance bet.UserID (bet.Amount * currentMultiplier) ::
       (if D.creditFails bet.BetID then []
        else [.updateUserStats bet.UserID (bet.Amount * currentMultiplier)
                currentMultiplier]))

/-- Whether the round of the loop for a bet both marks it and credits its owner. -/
def DbRun.credits (D : DbRun) (bet : model.Bet) : Bool :=
  !D.updateFails bet.BetID && !D.creditFails bet.BetID

/-- Whether the round of the loop for a bet marks it cashed out. -/
def DbRun.marks (D : DbRun) (bet : model.Bet) : Bool := !D.updateFails bet.BetID

/-- What the rounds of the loop for the bets `bs` leave of a row of `bets`: the row is
rewritten by the round of the first bet of `bs` with its `BetID`, when the update of
that round does not fail. -/
def rowAfter (D : DbRun) (currentMultiplier : ℚ) (bs : List model.Bet) (row : model.Bet) :
    model.Bet :=
  match bs.find? (fun b => decide (b.BetID = row.BetID)) with
  | some b =>
    if D.updateFails b.BetID then row
    else
      { row with Multiplier := currentMultiplier, Payout := b.Amount * currentMultiplier,
                 Status := 1, CashoutTime := some (D.clock b.BetID) }
  | none => row

/-- A database on which no statement fails. -/
def reliableDb (clock : String → Int) : DbRun :=
  { findFails := false, updateFails := fun _ => false, creditFails := fun _ => false,
    statsFails := fun _ => false, clock := clock }

/-- A database on which `AddUserBalance` fails and every other statement succeeds. -/
def creditFailingDb (clock : String → Int) : DbRun :=
  { findFails := false, updateFails := fun _ => false, creditFails := fun _ => true,
    statsFails := fun _ => false, clock := clock }

/-! ## Hubs with a single session, for runs of ticks -/

/-- The hub has session 0 as its only live session, with an open queue of `n` frames, in
a waiting round with countdown `cd`. -/
def Hub.soleSession (h : Hub) (n : Nat) (cd : Int) : Prop :=
  h.clients = {0} ∧ (h.client 0).send.closed = false ∧
    (h.client 0).send.buf.length = n ∧ h.gameState.Status = 0 ∧ h.gameState.NextRoundIn = cd

/-- Session 0 registers, 246 broadcasts of `m` follow, then 9 ticks: 256 frames for a
session that takes none from its channel, in a waiting round that has reached
countdown 1. -/
def waitingFillOps (m : List Byte) (now clock : Int) : List Op :=
  .register 0 :: List.replicate 246 (.broadcast m) ++ List.replicate 9 (.tick now clock)

/-! ## The multiplier in `float64` arithmetic (`hub.go`, `CurrentMultiplier += 0.01`)

A finite `float64` is held as the rational it denotes. The multiplier of the hub starts
at 1.0, is only ever raised by 0.01 and is set back to 1.0 in every round, so it stays
finite; infinities and NaN do not occur. -/

/-- Rounding of a rational to the nearest integer, ties to the even one. -/
def roundHalfEven (q : ℚ) : Int :=
  if q - ⌊q⌋ < 1 / 2 then ⌊q⌋
  else if 1 / 2 < q - ⌊q⌋ then ⌊q⌋ + 1
  else if ⌊q⌋ % 2 = 0 then ⌊q⌋ else ⌊q⌋ + 1

/-- The binary64 number nearest to a rational, ties to even (IEEE 754 round to nearest):
the rational is scaled by the unit in the last place of its binade (53 significant bits,
least exponent −1022) and rounded there. A rational of magnitude `2^1024` or more would
round to an infinity, which this function does not produce. -/
def roundFloat64 (x : ℚ) : ℚ :=
  if x = 0 then 0
  else
    let e : Int := max (Int.log 2 |x|) (-1022)
    let ulp : ℚ := (2 : ℚ) ^ (e - 52)
    (if x < 0 then -1 else 1) * (roundHalfEven (|x| / ulp) : ℚ) * ulp

/-- The sum of two finite `float64` values, as Go computes `x + y`. -/
def float64Add (x y : ℚ) : ℚ := roundFloat64 (x + y)

/-- The constant `0.01` of `updateGameState` as a `float64`. -/
def float64Cent : ℚ := roundFloat64 (1 / 100)

/-- The amount by which the `float64` addition of `0.01` raises a value between 1 and 2:
45035996273705 units in the last place, a little more than 1/100. -/
def centStep : ℚ := 45035996273705 / 2 ^ 52

/-- Function `Hub.updateGameState` with the multiplier held in `float64`: the same
function as `updateGameState`, the addition `CurrentMultiplier += 0.01` being the
`float64` sum. -/
def updateGameState64 (E : Env) (now clock : Int) (g : GameState) :
    GameState × List Effect :=
  let g := { g with LastUpdate := now }
  let r : GameState × List Effect :=
    if g.Status = 0 then
      let g := { g with NextRoundIn := wrapInt32 (g.NextRoundIn - 1) }
      if g.NextRoundIn ≤ 0 then
        let g := { g with Status := 1, CurrentMultiplier := 1, NextRoundIn := 30 }
        (g, broadcastGameStart E clock g)
      else (g, [])
    else if g.Status = 1 then
      let g := { g with CurrentMultiplier := float64Add g.CurrentMultiplier float64Cent,
                        NextRoundIn := wrapInt32 (g.NextRoundIn - 1) }
      if g.NextRoundIn ≤ 0 then
        let g := { g with Status := 2 }
        (g, broadcastGameEnd E clock g)
      else (g, [])
    else if g.Status = 2 then
      ({ g with Status := 0, CurrentMultiplier := 1, NextRoundIn := 10 }, [])
    else (g, [])
  (r.1, r.2 ++ broadcastGameStatusUpdate E r.1)

/-- The round state left by the first `n` ticks of `Hub.gameLoop`, started in `g`, the
multiplier held in `float64`; `clk i` holds the two clock readings of tick `i + 1`. -/
def stateAfter64 (E : Env) (clk : Nat → Int × Int) (g : GameState) : Nat → GameState
  | 0 => g
  | n + 1 => (updateGameState64 E (clk n).1 (clk n).2 (stateAfter64 E clk g n)).1

/-- Status, multiplier and countdown at position `r` of the cycle of 41 ticks that
starts with the state of `NewHub`: ten waiting positions with countdown 10 down to 1,
thirty running positions with countdown 30 down to 1 and the multiplier raised by
`centStep` at each, one ended position. -/
def roundPhase64 (r : Nat) : Int × ℚ × Int :=
  if r < 10 then (0, 1, 10 - (r : Int))
  else if r < 40 then (1, 1 + ((r : ℚ) - 10) * centStep, 40 - (r : Int))
  else (2, 1 + 30 * centStep, 0)

/-- The round state is at position `r` of the cycle; `w` is the multiplier it holds while
waiting. -/
def GameState.atPhase64 (g : GameState) (r : Nat) (w : ℚ) : Prop :=
  g.Status = (roundPhase64 r).1 ∧ g.NextRoundIn = (roundPhase64 r).2.2 ∧
    g.CurrentMultiplier = if r < 10 then w else (roundPhase64 r).2.1

/-! ## Concrete inputs -/

/-- A serialiser for data that is its own JSON text. -/
def rawMarshal (data : List Byte) : Except EncodeError (List Byte) := .ok data

/-- The start of Scenario B: waiting, countdown 2. -/
def scenarioBStart : GameState := { NewHub 0 with NextRoundIn := 2 }

/-- Clock readings of a run in which tick `i + 1` happens at second `i`. -/
def sampleClock (i : Nat) : Int × Int := (i, i)

/-- A running round in its last second: countdown 1, multiplier 1.29. -/
def runningLastTick : GameState :=
  { NewHub 0 with Status := 1, CurrentMultiplier := 129 / 100, NextRoundIn := 1 }

/-- A running round in mid-flight: countdown 5, multiplier 1.25. -/
def runningMidRound : GameState :=
  { NewHub 0 with Status := 1, CurrentMultiplier := 125 / 100, NextRoundIn := 5 }

/-- A round that has just ended: status 2, countdown 0, multiplier 1.30. -/
def endedRound : GameState :=
  { NewHub 0 with Status := 2, CurrentMultiplier := 130 / 100, NextRoundIn := 0 }

/-- Scenario D: an open bet of user 7 with stake 10 and auto cash-out at 2.00. -/
def scenarioDBet : model.Bet :=
  { BetID := "bet_7_100", UserID := 7, GameID := "crash_001", RoundID := "", Amount := 10,
    AutoCashout := 2, Multiplier := 0, Payout := 0, Status := 0, CashoutTime := none }

/-- The ledger of Scenario D: the one bet, every balance 100, no statistics. -/
def scenarioDLedger : Ledger :=
  { bets := [scenarioDBet], balance := fun _ => 100, stats := fun _ => none }

/-- A ledger with two open bets due at 2.01: the bet of Scenario D and a bet of user 9
with stake 4 and auto cash-out at 1.50. -/
def twoBetsLedger : Ledger :=
  { bets := [scenarioDBet,
      { BetID := "bet_9_100", UserID := 9, GameID := "crash_001", RoundID := "", Amount := 4,
        AutoCashout := 3 / 2, Multiplier := 0, Payout := 0, Status := 0,
        CashoutTime := none }],
    balance := fun _ => 100, stats := fun _ => none }

/-- A database on which the update of the bet of Scenario D fails and every other
statement succeeds. -/
def firstUpdateFailingDb : DbRun :=
  { findFails := false, updateFails := fun betID => decide (betID = "bet_7_100"),
    creditFails := fun _ => false, statsFails := fun _ => false, clock := fun _ => 1000 }

/-- A database on which the query of `ProcessAutoCashouts` fails. -/
def queryFailingDb : DbRun :=
  { findFails := true, updateFails := fun _ => false, creditFails := fun _ => false,
    statsFails := fun _ => false, clock := fun _ => 1000 }

/-- A clock that reads 1000 at every call. -/
def sampleTimes (_ : String) : Int := 1000

/-! ## Codec lemmas -/

theorem beUint32_putUint32 (v : Nat) : beUint32 (putUint32 v) = v % 2 ^ 32 := by
  simp only [putUint32, beUint32, toByte]
  omega

theorem beUint32_lt (bs : List Byte) : beUint32 bs < 2 ^ 32 := by
  unfold beUint32
  split
  · rename_i b0 b1 b2 b3 _
    have h0 := b0.isLt
    have h1 := b1.isLt
    have h2 := b2.isLt
    have h3 := b3.isLt
    omega
  · decide

theorem length_putUint32 (v : Nat) : (putUint32 v).length = 4 := rfl

theorem length_frame (t : MessageType) (p : List Byte) : (frame t p).length = 5 + p.length := by
  simp [frame, length_putUint32]
  omega

theorem take_frame (t : MessageType) (p : List Byte) :
    (frame t p).take 4 = putUint32 (toUint32 (p.length + 1)) := by
  simp [frame, putUint32]

theorem getD_frame (t : MessageType) (p : List Byte) : (frame t p).getD 4 0 = t := by
  simp [frame, putUint32]

theorem drop_frame (t : MessageType) (p : List Byte) : (frame t p).drop 5 = p := by
  simp [frame, putUint32]

/-- Decoding a frame compares the payload length with the wrapped declared length. -/
theorem decodeMessage_frame (t : MessageType) (p : List Byte) :
    decodeMessage (frame t p) =
      if p.length ≠ uint32Sub (toUint32 (p.length + 1)) 1 then .error .lengthMismatch
      else .ok (t, p) := by
  have hlen : ¬ (frame t p).length < 5 := by rw [length_frame]; omega
  simp only [decodeMessage, hlen, if_false, take_frame, getD_frame, drop_frame,
    beUint32_putUint32]
  have : toUint32 (p.length + 1) % 2 ^ 32 = toUint32 (p.length + 1) := by
    unfold toUint32; omega
  rw [this]

/-- The whole behaviour of `decodeMessage` in one equation. -/
theorem decodeMessage_eq (data : List Byte) :
    decodeMessage data =
      if data.length < 5 then .error .tooShort
      else if data.length - 5 ≠ uint32Sub (beUint32 (data.take 4)) 1 then
        .error .lengthMismatch
      else .ok (data.getD 4 0, data.drop 5) := by
  simp [decodeMessage, List.length_drop]

/-! ## Frame codec: the claims -/

/-- C1: for every type tag and every payload that serialises to bytes `p` whose frame
length `|p| + 1` fits the 32-bit length field, `encodeMessage` succeeds and
`decodeMessage` of its result succeeds and returns exactly the tag and `p`. -/
theorem decode_encode_roundtrip {α : Type} (marshal : α → Except EncodeError (List Byte))
    (t : MessageType) (data : α) (p : List Byte) (hp : marshal data = .ok p)
    (hlen : p.length + 1 < 2 ^ 32) :
    ∃ buf, encodeMessage marshal t data = .ok buf ∧ decodeMessage buf = .ok (t, p) := by
  refine ⟨frame t p, ?_, ?_⟩
  · simp [encodeMessage, hp]
  · rw [decodeMessage_frame]
    have h : p.length = uint32Sub (toUint32 (p.length + 1)) 1 := by
      unfold uint32Sub toUint32
      omega
    simp [← h]

/-- Witness of C1: the two-byte payload `{}` sent as a bet makes the round trip. -/
theorem decode_encode_roundtrip_witness :
    ∃ buf, encodeMessage rawMarshal PlayerBet [123, 125] = .ok buf ∧
      decodeMessage buf = .ok (PlayerBet, [123, 125]) :=
  decode_encode_roundtrip rawMarshal PlayerBet [123, 125] [123, 125] rfl (by decide)

/-- C2: for every tag `t` and serialised payload `p` whose frame length `L = |p| + 1`
fits the 32-bit length field, `encodeMessage` returns a buffer of `5 + |p|` bytes; its
first four bytes are the big-endian unsigned 32-bit encoding of `L`; its fifth byte is
`t`; the remaining `L − 1` bytes are `p` unchanged. -/
theorem encodeMessage_wire_format {α : Type} (marshal : α → Except EncodeError (List Byte))
    (t : MessageType) (data : α) (p : List Byte) (hp : marshal data = .ok p)
    (hlen : p.length + 1 < 2 ^ 32) :
    ∃ buf, encodeMessage marshal t data = .ok buf ∧
      buf.length = 5 + p.length ∧
      buf.take 4 = [toByte ((p.length + 1) / 2 ^ 24), toByte ((p.length + 1) / 2 ^ 16),
                    toByte ((p.length + 1) / 2 ^ 8), toByte (p.length + 1)] ∧
      beUint32 (buf.take 4) = p.length + 1 ∧
      buf.get? 4 = some t ∧
      buf.drop 5 = p ∧
      (buf.drop 5).length = (p.length + 1) - 1 := by
  have hL : toUint32 (p.length + 1) = p.length + 1 := by
    unfold toUint32
    omega
  refine ⟨frame t p, ?_, length_frame t p, ?_, ?_, ?_, drop_frame t p, ?_⟩
  · simp [encodeMessage, hp]
  · rw [take_frame, hL]; rfl
  · rw [take_frame, beUint32_putUint32, hL]; omega
  · simp [frame, putUint32]
  · rw [drop_frame]; omega

/-- Witness of C2: the frame of the two-byte payload `{}` is
`00 00 00 03`, the tag, `7B 7D`. -/
theorem encodeMessage_wire_format_witness :
    ∃ buf, encodeMessage rawMarshal GameStart [123, 125] = .ok buf ∧
      buf = [0, 0, 0, 3, GameStart, 123, 125] := by
  obtain ⟨buf, h1, -⟩ :=
    encodeMessage_wire_format rawMarshal GameStart [123, 125] [123, 125] rfl (by decide)
  refine ⟨buf, h1, ?_⟩
  have h2 : encodeMessage rawMarshal GameStart [123, 125]
      = .ok [0, 0, 0, 3, GameStart, 123, 125] := rfl
  rw [h1] at h2
  exact Except.ok.inj h2

/-- C3: on every buffer that a session can receive (at most `readLimit` = 512 bytes),
`decodeMessage` returns an error when the buffer is shorter than 5 bytes, and when it
has at least 5 bytes and the number of bytes after the tag byte differs from `L − 1`,
`L` being the big-endian value of the first four bytes and `L − 1` the integer
difference (−1 for `L = 0`, which no byte count equals); on every other buffer it
succeeds and returns byte 4 as the tag and the bytes from offset 5 as the payload. -/
theorem decodeMessage_rejects_malformed (data : List Byte) (hlim : data.length ≤ readLimit) :
    (data.length < 5 → decodeMessage data = .error .tooShort) ∧
      (5 ≤ data.length →
        ((data.length : Int) - 5 ≠ (beUint32 (data.take 4) : Int) - 1) →
        decodeMessage data = .error .lengthMismatch) ∧
      (5 ≤ data.length →
        ((data.length : Int) - 5 = (beUint32 (data.take 4) : Int) - 1) →
        decodeMessage data = .ok (data.getD 4 0, data.drop 5)) := by
  have hL := beUint32_lt (data.take 4)
  have hlim2 : data.length ≤ 512 := hlim
  refine ⟨fun h => ?_, fun h5 hne => ?_, fun h5 heq => ?_⟩
  · rw [decodeMessage_eq, if_pos h]
  · have h1 : ¬ data.length < 5 := by omega
    have h2 : data.length - 5 ≠ uint32Sub (beUint32 (data.take 4)) 1 := by
      unfold uint32Sub
      omega
    rw [decodeMessage_eq, if_neg h1, if_pos h2]
  · have h1 : ¬ data.length < 5 := by omega
    have h2 : ¬ data.length - 5 ≠ uint32Sub (beUint32 (data.take 4)) 1 := by
      unfold uint32Sub
      omega
    rw [decodeMessage_eq, if_neg h1, if_neg h2]

/-- Witness of C3: a buffer of 4 bytes, a buffer of 6 bytes that declares length 9, a
buffer of 5 bytes that declares length 0, and a frame of 7 bytes that decodes. -/
theorem decodeMessage_rejects_malformed_witness :
    decodeMessage [0, 0, 0, 1] = .error .tooShort ∧
      decodeMessage [0, 0, 0, 9, PlayerBet, 123] = .error .lengthMismatch ∧
      decodeMessage [0, 0, 0, 0, PlayerBet] = .error .lengthMismatch ∧
      decodeMessage [0, 0, 0, 3, PlayerBet, 123, 125] = .ok (PlayerBet, [123, 125]) :=
  ⟨(decodeMessage_rejects_malformed [0, 0, 0, 1] (by decide)).1 (by decide),
   (decodeMessage_rejects_malformed [0, 0, 0, 9, PlayerBet, 123] (by decide)).2.1
     (by decide) (by decide),
   (decodeMessage_rejects_malformed [0, 0, 0, 0, PlayerBet] (by decide)).2.1
     (by decide) (by decide),
   (decodeMessage_rejects_malformed [0, 0, 0, 3, PlayerBet, 123, 125] (by decide)).2.2
     (by decide) (by decide)⟩

/-! ## Round state machine: one tick, case by case -/

theorem wrapInt32_pred (x : Int) (h1 : -2 ^ 31 < x) (h2 : x < 2 ^ 31) :
    wrapInt32 (x - 1) = x - 1 := by
  unfold wrapInt32
  omega

theorem wrapInt32_pred_min : wrapInt32 (-2 ^ 31 - 1) = 2 ^ 31 - 1 := by
  decide

theorem broadcastGameStatusUpdate_eq (E : Env) (g : GameState) :
    broadcastGameStatusUpdate E g = [.broadcast (statusFrame E g)] := rfl

theorem broadcastGameStart_eq (E : Env) (clock : Int) (g : GameState) :
    broadcastGameStart E clock g = [.broadcast (gameStartFrame E clock g)] := rfl

theorem broadcastGameEnd_eq (E : Env) (clock : Int) (g : GameState) :
    broadcastGameEnd E clock g = [.broadcast (gameEndFrame E clock g)] := rfl

/-- A waiting tick whose decremented countdown is still positive. -/
theorem tick_waiting_stay (E : Env) (now clock : Int) (g : GameState) (hs : g.Status = 0)
    (hd : 0 < wrapInt32 (g.NextRoundIn - 1)) :
    updateGameState E now clock g =
      ({ g with LastUpdate := now, NextRoundIn := wrapInt32 (g.NextRoundIn - 1) },
       [.broadcast (statusFrame E
          { g with LastUpdate := now, NextRoundIn := wrapInt32 (g.NextRoundIn - 1) })]) := by
  have hd2 : ¬ wrapInt32 (g.NextRoundIn - 1) ≤ 0 := not_le.mpr hd
  simp [updateGameState, hs, hd2, broadcastGameStatusUpdate_eq]

/-- A waiting tick whose decremented countdown has reached zero. -/
theorem tick_waiting_start (E : Env) (now clock : Int) (g : GameState) (hs : g.Status = 0)
    (hd : wrapInt32 (g.NextRoundIn - 1) ≤ 0) :
    updateGameState E now clock g =
      ({ g with LastUpdate := now, Status := 1, CurrentMultiplier := 1, NextRoundIn := 30 },
       [.broadcast (gameStartFrame E clock
          { g with LastUpdate := now, Status := 1, CurrentMultiplier := 1, NextRoundIn := 30 }),
        .broadcast (statusFrame E
          { g with LastUpdate := now, Status := 1, CurrentMultiplier := 1,
                   NextRoundIn := 30 })]) := by
  simp [updateGameState, hs, hd, broadcastGameStatusUpdate_eq, broadcastGameStart_eq]

/-- A running tick whose decremented countdown is still positive. -/
theorem tick_running_stay (E : Env) (now clock : Int) (g : GameState) (hs : g.Status = 1)
    (hd : 0 < wrapInt32 (g.NextRoundIn - 1)) :
    updateGameState E now clock g =
      ({ g with LastUpdate := now, CurrentMultiplier := g.CurrentMultiplier + 1 / 100,
                NextRoundIn := wrapInt32 (g.NextRoundIn - 1) },
       [.broadcast (statusFrame E
          { g with LastUpdate := now, CurrentMultiplier := g.CurrentMultiplier + 1 / 100,
                   NextRoundIn := wrapInt32 (g.NextRoundIn - 1) })]) := by
  have hd2 : ¬ wrapInt32 (g.NextRoundIn - 1) ≤ 0 := not_le.mpr hd
  simp [updateGameState, hs, hd2, broadcastGameStatusUpdate_eq]

/-- A running tick whose decremented countdown has reached zero. -/
theorem tick_running_end (E : Env) (now clock : Int) (g : GameState) (hs : g.Status = 1)
    (hd : wrapInt32 (g.NextRoundIn - 1) ≤ 0) :
    updateGameState E now clock g =
      ({ g with LastUpdate := now, Status := 2,
                CurrentMultiplier := g.CurrentMultiplier + 1 / 100,
                NextRoundIn := wrapInt32 (g.NextRoundIn - 1) },
       [.broadcast (gameEndFrame E clock
          { g with LastUpdate := now, Status := 2,
                   CurrentMultiplier := g.CurrentMultiplier + 1 / 100,
                   NextRoundIn := wrapInt32 (g.NextRoundIn - 1) }),
        .broadcast (statusFrame E
          { g with LastUpdate := now, Status := 2,
                   CurrentMultiplier := g.CurrentMultiplier + 1 / 100,
                   NextRoundIn := wrapInt32 (g.NextRoundIn - 1) })]) := by
  simp [updateGameState, hs, hd, broadcastGameStatusUpdate_eq, broadcastGameEnd_eq]

/-- A tick taken in status Ended. -/
theorem tick_ended (E : Env) (now clock : Int) (g : GameState) (hs : g.Status = 2) :
    updateGameState E now clock g =
      ({ g with LastUpdate := now, Status := 0, CurrentMultiplier := 1, NextRoundIn := 10 },
       [.broadcast (statusFrame E
          { g with LastUpdate := now, Status := 0, CurrentMultiplier := 1,
                   NextRoundIn := 10 })]) := by
  simp [updateGameState, hs, broadcastGameStatusUpdate_eq]

/-- A tick taken in a status outside 0, 1, 2: no case of the switch applies. -/
theorem tick_other (E : Env) (now clock : Int) (g : GameState) (h0 : g.Status ≠ 0)
    (h1 : g.Status ≠ 1) (h2 : g.Status ≠ 2) :
    updateGameState E now clock g =
      ({ g with LastUpdate := now },
       [.broadcast (statusFrame E { g with LastUpdate := now })]) := by
  simp [updateGameState, h0, h1, h2, broadcastGameStatusUpdate_eq]

theorem get?_frame (t : MessageType) (p : List Byte) : (frame t p).get? 4 = some t := by
  simp [frame, putUint32]

/-! ## Round state machine: runs of ticks -/

/-- While the countdown has not run out, `k` running ticks lower it by `k` and raise
the multiplier by `k` increments. -/
theorem stateAfter_running (E : Env) (clk : Nat → Int × Int) (g : GameState) (n : Nat)
    (c : Int) (m : ℚ) (hs : (stateAfter E clk g n).Status = 1)
    (hc : (stateAfter E clk g n).NextRoundIn = c)
    (hm : (stateAfter E clk g n).CurrentMultiplier = m) (hmax : c < 2 ^ 31) (k : Nat)
    (hk : (k : Int) < c) :
    (stateAfter E clk g (n + k)).Status = 1 ∧
      (stateAfter E clk g (n + k)).NextRoundIn = c - k ∧
      (stateAfter E clk g (n + k)).CurrentMultiplier = m + k / 100 := by
  induction k with
  | zero => simp [hs, hc, hm]
  | succ k ih =>
    have hk2 : (k : Int) < c := by push_cast at hk; omega
    obtain ⟨h1, h2, h3⟩ := ih hk2
    have hw : wrapInt32 ((stateAfter E clk g (n + k)).NextRoundIn - 1) = c - k - 1 := by
      rw [h2]
      apply wrapInt32_pred <;> push_cast at hk <;> omega
    have hd : 0 < wrapInt32 ((stateAfter E clk g (n + k)).NextRoundIn - 1) := by
      rw [hw]; push_cast at hk; omega
    have hstep : stateAfter E clk g (n + (k + 1))
        = (updateGameState E (clk (n + k)).1 (clk (n + k)).2 (stateAfter E clk g (n + k))).1 :=
      rfl
    rw [hstep, tick_running_stay E _ _ _ h1 hd]
    refine ⟨h1, ?_, ?_⟩
    · show wrapInt32 ((stateAfter E clk g (n + k)).NextRoundIn - 1) = c - ((k + 1 : Nat) : Int)
      rw [hw]; push_cast; ring
    · show (stateAfter E clk g (n + k)).CurrentMultiplier + 1 / 100
        = m + ((k + 1 : Nat) : ℚ) / 100
      rw [h3]; push_cast; ring

/-- The states of a run that starts waiting with countdown 2. -/
theorem scenarioB_states (E : Env) (clk : Nat → Int × Int) (g : GameState)
    (hs : g.Status = 0) (hc : g.NextRoundIn = 2) :
    ((stateAfter E clk g 1).Status = 0 ∧ (stateAfter E clk g 1).NextRoundIn = 1 ∧
        (stateAfter E clk g 1).CurrentMultiplier = g.CurrentMultiplier) ∧
      ((stateAfter E clk g 2).Status = 1 ∧ (stateAfter E clk g 2).NextRoundIn = 30 ∧
        (stateAfter E clk g 2).CurrentMultiplier = 1) ∧
      (∀ k : Nat, k < 30 →
        (stateAfter E clk g (2 + k)).Status = 1 ∧
        (stateAfter E clk g (2 + k)).NextRoundIn = 30 - k ∧
        (stateAfter E clk g (2 + k)).CurrentMultiplier = 1 + k / 100) ∧
      ((stateAfter E clk g 32).Status = 2 ∧ (stateAfter E clk g 32).NextRoundIn = 0 ∧
        (stateAfter E clk g 32).CurrentMultiplier = 13 / 10) ∧
      ((stateAfter E clk g 33).Status = 0 ∧ (stateAfter E clk g 33).NextRoundIn = 10 ∧
        (stateAfter E clk g 33).CurrentMultiplier = 1) := by
  have e1 : stateAfter E clk g 1
      = { g with LastUpdate := (clk 0).1, NextRoundIn := wrapInt32 (g.NextRoundIn - 1) } := by
    show (updateGameState E (clk 0).1 (clk 0).2 g).1 = _
    rw [tick_waiting_stay E _ _ g hs (by rw [hc]; decide)]
  have a1 : (stateAfter E clk g 1).Status = 0 ∧ (stateAfter E clk g 1).NextRoundIn = 1 ∧
      (stateAfter E clk g 1).CurrentMultiplier = g.CurrentMultiplier := by
    rw [e1]
    refine ⟨hs, ?_, rfl⟩
    show wrapInt32 (g.NextRoundIn - 1) = 1
    rw [hc]; decide
  have e2 : stateAfter E clk g 2
      = { stateAfter E clk g 1 with
          LastUpdate := (clk 1).1, Status := 1, CurrentMultiplier := 1, NextRoundIn := 30 } := by
    show (updateGameState E (clk 1).1 (clk 1).2 (stateAfter E clk g 1)).1 = _
    rw [tick_waiting_start E _ _ _ a1.1 (by rw [a1.2.1]; decide)]
  have a2 : (stateAfter E clk g 2).Status = 1 ∧ (stateAfter E clk g 2).NextRoundIn = 30 ∧
      (stateAfter E clk g 2).CurrentMultiplier = 1 := by
    rw [e2]; exact ⟨rfl, rfl, rfl⟩
  have run := stateAfter_running E clk g 2 30 1 a2.1 a2.2.1 a2.2.2 (by norm_num)
  have a31 := run 29 (by norm_num)
  have hw : wrapInt32 ((stateAfter E clk g (2 + 29)).NextRoundIn - 1) = 0 := by
    rw [a31.2.1]; decide
  have e32 : stateAfter E clk g 32
      = (updateGameState E (clk 31).1 (clk 31).2 (stateAfter E clk g (2 + 29))).1 := rfl
  have a32 : (stateAfter E clk g 32).Status = 2 ∧ (stateAfter E clk g 32).NextRoundIn = 0 ∧
      (stateAfter E clk g 32).CurrentMultiplier = 13 / 10 := by
    rw [e32, tick_running_end E _ _ _ a31.1 (by rw [hw])]
    refine ⟨rfl, hw, ?_⟩
    show (stateAfter E clk g (2 + 29)).CurrentMultiplier + 1 / 100 = 13 / 10
    rw [a31.2.2]; norm_num
  have e33 : stateAfter E clk g 33
      = (updateGameState E (clk 32).1 (clk 32).2 (stateAfter E clk g 32)).1 := rfl
  have a33 : (stateAfter E clk g 33).Status = 0 ∧ (stateAfter E clk g 33).NextRoundIn = 10 ∧
      (stateAfter E clk g 33).CurrentMultiplier = 1 := by
    rw [e33, tick_ended E _ _ _ a32.1]; exact ⟨rfl, rfl, rfl⟩
  refine ⟨a1, a2, ?_, a32, a33⟩
  intro k hk
  exact run k (by exact_mod_cast hk)

/-! ## Round state machine: the claims -/

/-- C4 as stated fails: from waiting with countdown 2, the second tick sets the
countdown to 30, not 3, and after the fifth tick the round is still running, neither
ended nor reset to waiting. -/
theorem scenarioB_countdown_is_30 :
    (stateAfter sampleEnv sampleClock scenarioBStart 2).NextRoundIn = 30 ∧
      (stateAfter sampleEnv sampleClock scenarioBStart 2).NextRoundIn ≠ 3 ∧
      (stateAfter sampleEnv sampleClock scenarioBStart 5).Status = 1 ∧
      (stateAfter sampleEnv sampleClock scenarioBStart 5).Status ≠ 0 := by
  obtain ⟨_, a2, run, _, _⟩ := scenarioB_states sampleEnv sampleClock scenarioBStart rfl rfl
  have r3 := (run 3 (by norm_num)).1
  refine ⟨a2.2.1, ?_, r3, ?_⟩
  · rw [a2.2.1]; decide
  · rw [show (5 : Nat) = 2 + 3 from rfl, r3]; decide

/-- The waiting step of the pure part of `updateGameState`: the countdown is decremented
by one (in `int32` arithmetic, which is the plain predecessor above the least `int32`);
if the decremented countdown is still positive, nothing else but the update time changes
and the only call is the broadcast of the status frame; otherwise the status becomes
running, the multiplier is set to exactly 1, the countdown to 30, and the calls are the
broadcast of a `GameStart` frame and then of the status frame. -/
theorem waiting_step (E : Env) (now clock : Int) (g : GameState) (hs : g.Status = 0) :
    (-2 ^ 31 < g.NextRoundIn → g.NextRoundIn < 2 ^ 31 →
        wrapInt32 (g.NextRoundIn - 1) = g.NextRoundIn - 1) ∧
      (0 < wrapInt32 (g.NextRoundIn - 1) →
        (updateGameState E now clock g).1
          = { g with LastUpdate := now, NextRoundIn := wrapInt32 (g.NextRoundIn - 1) } ∧
        (updateGameState E now clock g).1.Status = 0 ∧
        (updateGameState E now clock g).1.CurrentMultiplier = g.CurrentMultiplier ∧
        (updateGameState E now clock g).2
          = [.broadcast (statusFrame E (updateGameState E now clock g).1)]) ∧
      (wrapInt32 (g.NextRoundIn - 1) ≤ 0 →
        (updateGameState E now clock g).1
          = { g with LastUpdate := now, Status := 1, CurrentMultiplier := 1,
                     NextRoundIn := 30 } ∧
        (updateGameState E now clock g).2
          = [.broadcast (gameStartFrame E clock (updateGameState E now clock g).1),
             .broadcast (statusFrame E (updateGameState E now clock g).1)] ∧
        (gameStartFrame E clock (updateGameState E now clock g).1).get? 4
          = some GameStart) := by
  refine ⟨fun h1 h2 => wrapInt32_pred _ h1 h2, fun hd => ?_, fun hd => ?_⟩
  · rw [tick_waiting_stay E now clock g hs hd]
    exact ⟨rfl, hs, rfl, rfl⟩
  · rw [tick_waiting_start E now clock g hs hd]
    exact ⟨rfl, rfl, get?_frame _ _⟩

/-- The last waiting tick of the Scenario B start moved to countdown 1. -/
theorem waiting_step_witness :
    (updateGameState sampleEnv 7 8 { scenarioBStart with NextRoundIn := 1 }).1
      = { scenarioBStart with LastUpdate := 7, Status := 1, CurrentMultiplier := 1,
                              NextRoundIn := 30 } :=
  ((waiting_step sampleEnv 7 8 { scenarioBStart with NextRoundIn := 1 } rfl).2.2
    (by decide)).1

/-- C6 (amended): the tick that moves the round from running to ended leaves status
ended (2) with the decremented countdown (0 from countdown 1), after broadcasting the
`GameEnd` frame and the status frame of the ended state; it is the next tick that resets
the round to waiting with countdown 10 and multiplier 1.0. -/
theorem ended_lasts_one_tick (E : Env) (now clock : Int) (g : GameState) :
    (g.Status = 1 → wrapInt32 (g.NextRoundIn - 1) ≤ 0 →
        (updateGameState E now clock g).1.Status = 2 ∧
        (updateGameState E now clock g).1.NextRoundIn = wrapInt32 (g.NextRoundIn - 1) ∧
        (g.NextRoundIn = 1 → (updateGameState E now clock g).1.NextRoundIn = 0) ∧
        (updateGameState E now clock g).2
          = [.broadcast (gameEndFrame E clock (updateGameState E now clock g).1),
             .broadcast (statusFrame E (updateGameState E now clock g).1)]) ∧
      (g.Status = 2 →
        (updateGameState E now clock g).1.Status = 0 ∧
        (updateGameState E now clock g).1.NextRoundIn = 10 ∧
        (updateGameState E now clock g).1.CurrentMultiplier = 1) := by
  refine ⟨fun hs hd => ?_, fun hs => ?_⟩
  · rw [tick_running_end E now clock g hs hd]
    refine ⟨rfl, rfl, fun h1 => ?_, rfl⟩
    show wrapInt32 (g.NextRoundIn - 1) = 0
    rw [h1]; decide
  · rw [tick_ended E now clock g hs]
    exact ⟨rfl, rfl, rfl⟩

/-- Witness of C6: the last running tick, and the tick after it. -/
theorem ended_lasts_one_tick_witness :
    (updateGameState sampleEnv 7 8 runningLastTick).1.NextRoundIn = 0 ∧
      (updateGameState sampleEnv 7 8 endedRound).1.Status = 0 :=
  ⟨((ended_lasts_one_tick sampleEnv 7 8 runningLastTick).1 rfl (by decide)).2.2.1 rfl,
   ((ended_lasts_one_tick sampleEnv 7 8 endedRound).2 rfl).1⟩

/-- C6 as stated fails: the tick that ends a running round leaves status ended (2) and
countdown 0, not status waiting and countdown 10. -/
theorem ending_tick_leaves_ended :
    runningLastTick.Status = 1 ∧
      (updateGameState sampleEnv 7 8 runningLastTick).1.Status = 2 ∧
      (updateGameState sampleEnv 7 8 runningLastTick).1.NextRoundIn = 0 := by
  rw [tick_running_end sampleEnv 7 8 runningLastTick rfl (by decide)]
  exact ⟨rfl, rfl, by decide⟩

/-- The multiplier left by one tick, case by case. -/
theorem multiplier_after_tick (E : Env) (now clock : Int) (g : GameState) :
    (g.Status = 0 → 0 < wrapInt32 (g.NextRoundIn - 1) →
        (updateGameState E now clock g).1.CurrentMultiplier = g.CurrentMultiplier) ∧
      (g.Status = 0 → wrapInt32 (g.NextRoundIn - 1) ≤ 0 →
        (updateGameState E now clock g).1.CurrentMultiplier = 1) ∧
      (g.Status = 1 →
        (updateGameState E now clock g).1.CurrentMultiplier
          = g.CurrentMultiplier + 1 / 100) ∧
      (g.Status = 2 → (updateGameState E now clock g).1.CurrentMultiplier = 1) ∧
      (g.Status ≠ 0 → g.Status ≠ 1 → g.Status ≠ 2 →
        (updateGameState E now clock g).1.CurrentMultiplier = g.CurrentMultiplier) := by
  refine ⟨fun hs hd => ?_, fun hs hd => ?_, fun hs => ?_, fun hs => ?_, fun h0 h1 h2 => ?_⟩
  · rw [tick_waiting_stay E now clock g hs hd]
  · rw [tick_waiting_start E now clock g hs hd]
  · rcases lt_or_le 0 (wrapInt32 (g.NextRoundIn - 1)) with hd | hd
    · rw [tick_running_stay E now clock g hs hd]
    · rw [tick_running_end E now clock g hs hd]
  · rw [tick_ended E now clock g hs]
  · rw [tick_other E now clock g h0 h1 h2]

/-- C7: in status running the multiplier after one tick is at least the multiplier
before it, so over any run of consecutive running ticks (ticks `n + 1` to `n + k`, each
taken in status running) the multiplier does not decrease. -/
theorem multiplier_monotone_while_running (E : Env) :
    (∀ (now clock : Int) (g : GameState), g.Status = 1 →
        g.CurrentMultiplier ≤ (updateGameState E now clock g).1.CurrentMultiplier) ∧
      (∀ (clk : Nat → Int × Int) (g : GameState) (n k : Nat),
        (∀ i, n ≤ i → i < n + k → (stateAfter E clk g i).Status = 1) →
        (stateAfter E clk g n).CurrentMultiplier
          ≤ (stateAfter E clk g (n + k)).CurrentMultiplier) := by
  have step : ∀ (now clock : Int) (g : GameState), g.Status = 1 →
      g.CurrentMultiplier ≤ (updateGameState E now clock g).1.CurrentMultiplier := by
    intro now clock g hs
    rw [(multiplier_after_tick E now clock g).2.2.1 hs]
    linarith
  refine ⟨step, ?_⟩
  intro clk g n k
  induction k with
  | zero => intro _; exact le_refl _
  | succ k ih =>
    intro h
    have h1 := ih (fun i hi1 hi2 => h i hi1 (by omega))
    have h2 := step (clk (n + k)).1 (clk (n + k)).2 (stateAfter E clk g (n + k))
      (h (n + k) (by omega) (by omega))
    exact le_trans h1 h2

/-- Witness of C7: a running tick in mid-round, and the run of ticks 3 to 5 of
Scenario B. -/
theorem multiplier_monotone_while_running_witness :
    runningMidRound.CurrentMultiplier
        ≤ (updateGameState sampleEnv 7 8 runningMidRound).1.CurrentMultiplier ∧
      (stateAfter sampleEnv sampleClock scenarioBStart 2).CurrentMultiplier
        ≤ (stateAfter sampleEnv sampleClock scenarioBStart (2 + 3)).CurrentMultiplier :=
  ⟨(multiplier_monotone_while_running sampleEnv).1 7 8 runningMidRound rfl,
   (multiplier_monotone_while_running sampleEnv).2 sampleClock scenarioBStart 2 3
     (fun i h1 h2 => by
        obtain ⟨j, rfl⟩ : ∃ j, i = 2 + j := ⟨i - 2, by omega⟩
        exact ((scenarioB_states sampleEnv sampleClock scenarioBStart rfl rfl).2.2.1 j
          (by omega)).1)⟩

/-- C8 (amended): a tick assigns 1.0 to the multiplier on the transition from waiting
to running and also on the tick taken in status ended (the reset to waiting); on every
other tick it leaves the multiplier unchanged (waiting without transition, or a status
outside 0, 1, 2) or raises it by the increment 0.01 (running). -/
theorem multiplier_reset_points (E : Env) (now clock : Int) (g : GameState) :
    (g.Status = 0 → 0 < wrapInt32 (g.NextRoundIn - 1) →
        (updateGameState E now clock g).1.Status = 0 ∧
        (updateGameState E now clock g).1.CurrentMultiplier = g.CurrentMultiplier) ∧
      (g.Status = 0 → wrapInt32 (g.NextRoundIn - 1) ≤ 0 →
        (updateGameState E now clock g).1.Status = 1 ∧
        (updateGameState E now clock g).1.CurrentMultiplier = 1) ∧
      (g.Status = 1 →
        (updateGameState E now clock g).1.CurrentMultiplier
          = g.CurrentMultiplier + 1 / 100) ∧
      (g.Status = 2 →
        (updateGameState E now clock g).1.Status = 0 ∧
        (updateGameState E now clock g).1.CurrentMultiplier = 1) ∧
      (g.Status ≠ 0 → g.Status ≠ 1 → g.Status ≠ 2 →
        (updateGameState E now clock g).1.CurrentMultiplier = g.CurrentMultiplier) := by
  obtain ⟨m1, m2, m3, m4, m5⟩ := multiplier_after_tick E now clock g
  refine ⟨fun hs hd => ⟨?_, m1 hs hd⟩, fun hs hd => ⟨?_, m2 hs hd⟩, m3,
    fun hs => ⟨?_, m4 hs⟩, m5⟩
  · rw [tick_waiting_stay E now clock g hs hd]; exact hs
  · rw [tick_waiting_start E now clock g hs hd]
  · rw [tick_ended E now clock g hs]

/-- Witness of C8: the tick taken in status ended, and a running tick. -/
theorem multiplier_reset_points_witness :
    ((updateGameState sampleEnv 7 8 endedRound).1.Status = 0 ∧
        (updateGameState sampleEnv 7 8 endedRound).1.CurrentMultiplier = 1) ∧
      (updateGameState sampleEnv 7 8 runningMidRound).1.CurrentMultiplier
        = runningMidRound.CurrentMultiplier + 1 / 100 :=
  ⟨(multiplier_reset_points sampleEnv 7 8 endedRound).2.2.2.1 rfl,
   (multiplier_reset_points sampleEnv 7 8 runningMidRound).2.2.1 rfl⟩

/-- C8 as stated fails: the tick taken in status ended is not a transition from waiting
to running, and it replaces the multiplier 1.30 by 1.0, which is neither the old value
nor the old value plus 0.01. -/
theorem ended_tick_resets_multiplier :
    endedRound.Status = 2 ∧
      (updateGameState sampleEnv 7 8 endedRound).1.Status = 0 ∧
      (updateGameState sampleEnv 7 8 endedRound).1.CurrentMultiplier = 1 ∧
      (updateGameState sampleEnv 7 8 endedRound).1.CurrentMultiplier
        ≠ endedRound.CurrentMultiplier ∧
      (updateGameState sampleEnv 7 8 endedRound).1.CurrentMultiplier
        ≠ endedRound.CurrentMultiplier + 1 / 100 := by
  rw [tick_ended sampleEnv 7 8 endedRound rfl]
  refine ⟨rfl, rfl, rfl, ?_, ?_⟩
  · show (1 : ℚ) ≠ 130 / 100
    norm_num
  · show (1 : ℚ) ≠ 130 / 100 + 1 / 100
    norm_num

/-- The calls that `updateGameState` makes on a tick, whatever the status and whether or
not the tick causes a transition: exactly one of them is the broadcast of a
`GameStatusUpdate` frame; it is the last call, after the broadcast of the `GameStart` or
`GameEnd` frame of that tick if there is one; the payload of the frame carries the round
id, status, multiplier, player count, countdown and server time of the round state that
the tick leaves. -/
theorem tick_broadcasts_status (E : Env) (now clock : Int) (g : GameState) :
    ∃ pre : List Effect,
      (updateGameState E now clock g).2
        = pre ++ [.broadcast (frame GameStatusUpdate (E.marshal (.statusUpdate
            { GameId := (updateGameState E now clock g).1.GameID,
              State := E.protoGameState (updateGameState E now clock g).1.Status,
              CurrentMultiplier := (updateGameState E now clock g).1.CurrentMultiplier,
              PlayersCount := (updateGameState E now clock g).1.PlayersCount,
              NextRoundIn := (updateGameState E now clock g).1.NextRoundIn,
              ServerTime := (updateGameState E now clock g).1.LastUpdate })))] ∧
      pre.length ≤ 1 ∧
      (∀ e ∈ pre, e.tag = some GameStart ∨ e.tag = some GameEnd) ∧
      ((updateGameState E now clock g).2.filter
          (fun e => decide (e.tag = some GameStatusUpdate))).length = 1 ∧
      (updateGameState E now clock g).1.LastUpdate = now ∧
      (updateGameState E now clock g).1.GameID = g.GameID ∧
      (updateGameState E now clock g).1.PlayersCount = g.PlayersCount := by
  have tS : ∀ s : GameState, (Effect.broadcast (statusFrame E s)).tag
      = some GameStatusUpdate := fun s => by
    simp only [Effect.tag, statusFrame, get?_frame]
  have tA : ∀ s : GameState, (Effect.broadcast (gameStartFrame E clock s)).tag
      = some GameStart := fun s => by
    simp only [Effect.tag, gameStartFrame, get?_frame]
  have tB : ∀ s : GameState, (Effect.broadcast (gameEndFrame E clock s)).tag
      = some GameEnd := fun s => by
    simp only [Effect.tag, gameEndFrame, get?_frame]
  have n31 : ¬ (some GameStart = some GameStatusUpdate) := by decide
  have n41 : ¬ (some GameEnd = some GameStatusUpdate) := by decide
  by_cases h0 : g.Status = 0
  · rcases lt_or_le 0 (wrapInt32 (g.NextRoundIn - 1)) with hd | hd
    · rw [tick_waiting_stay E now clock g h0 hd]
      exact ⟨[], rfl, by simp, by simp, by simp [List.filter, tS], rfl, rfl, rfl⟩
    · rw [tick_waiting_start E now clock g h0 hd]
      exact ⟨[.broadcast (gameStartFrame E clock _)], rfl, by simp, by simp [tA],
        by simp [List.filter, tS, tA, n31], rfl, rfl, rfl⟩
  · by_cases h1 : g.Status = 1
    · rcases lt_or_le 0 (wrapInt32 (g.NextRoundIn - 1)) with hd | hd
      · rw [tick_running_stay E now clock g h1 hd]
        exact ⟨[], rfl, by simp, by simp, by simp [List.filter, tS], rfl, rfl, rfl⟩
      · rw [tick_running_end E now clock g h1 hd]
        exact ⟨[.broadcast (gameEndFrame E clock _)], rfl, by simp, by simp [tB],
          by simp [List.filter, tS, tB, n41], rfl, rfl, rfl⟩
    · by_cases h2 : g.Status = 2
      · rw [tick_ended E now clock g h2]
        exact ⟨[], rfl, by simp, by simp, by simp [List.filter, tS], rfl, rfl, rfl⟩
      · rw [tick_other E now clock g h0 h1 h2]
        exact ⟨[], rfl, by simp, by simp, by simp [List.filter, tS], rfl, rfl, rfl⟩

/-- The calls of a tick are frame broadcasts only. -/
theorem tick_effects_are_broadcasts (E : Env) (now clock : Int) (g : GameState) :
    (updateGameState E now clock g).2.filter Effect.isSettlement = [] := by
  by_cases h0 : g.Status = 0
  · rcases lt_or_le 0 (wrapInt32 (g.NextRoundIn - 1)) with hd | hd
    · rw [tick_waiting_stay E now clock g h0 hd]; rfl
    · rw [tick_waiting_start E now clock g h0 hd]; rfl
  · by_cases h1 : g.Status = 1
    · rcases lt_or_le 0 (wrapInt32 (g.NextRoundIn - 1)) with hd | hd
      · rw [tick_running_stay E now clock g h1 hd]; rfl
      · rw [tick_running_end E now clock g h1 hd]; rfl
    · by_cases h2 : g.Status = 2
      · rw [tick_ended E now clock g h2]; rfl
      · rw [tick_other E now clock g h0 h1 h2]; rfl

/-- C10 on the failing inputs: on every tick, whatever the status, none of the calls of
`updateGameState` is `ProcessAutoCashouts` or `ProcessCrashedBets`; a running tick that
does not end the round makes one call, the broadcast of the status frame, and the tick
that moves the round to ended makes two, the broadcast of the `GameEnd` frame and then
of the status frame. -/
theorem tick_never_settles (E : Env) (now clock : Int) (g : GameState) :
    (updateGameState E now clock g).2.filter Effect.isSettlement = [] ∧
      (∀ m : ℚ, Effect.processAutoCashouts m ∉ (updateGameState E now clock g).2) ∧
      Effect.processCrashedBets ∉ (updateGameState E now clock g).2 ∧
      (g.Status = 1 → 0 < wrapInt32 (g.NextRoundIn - 1) →
        (updateGameState E now clock g).2
          = [.broadcast (statusFrame E (updateGameState E now clock g).1)]) ∧
      (g.Status = 1 → wrapInt32 (g.NextRoundIn - 1) ≤ 0 →
        (updateGameState E now clock g).2
          = [.broadcast (gameEndFrame E clock (updateGameState E now clock g).1),
             .broadcast (statusFrame E (updateGameState E now clock g).1)]) := by
  have hf := tick_effects_are_broadcasts E now clock g
  have hmem : ∀ e : Effect, e.isSettlement = true → e ∉ (updateGameState E now clock g).2 := by
    intro e he hin
    have : e ∈ (updateGameState E now clock g).2.filter Effect.isSettlement :=
      List.mem_filter.mpr ⟨hin, he⟩
    rw [hf] at this
    exact List.not_mem_nil _ this
  refine ⟨hf, fun m => hmem _ rfl, hmem _ rfl, fun hs hd => ?_, fun hs hd => ?_⟩
  · rw [tick_running_stay E now clock g hs hd]
  · rw [tick_running_end E now clock g hs hd]

/-- Witness of C10: a running tick in mid-round only broadcasts the status frame. -/
theorem tick_never_settles_witness :
    (updateGameState sampleEnv 7 8 runningMidRound).2
      = [.broadcast (statusFrame sampleEnv (updateGameState sampleEnv 7 8 runningMidRound).1)] :=
  (tick_never_settles sampleEnv 7 8 runningMidRound).2.2.2.1 rfl (by decide)

/-! ## Connection registry: channel statements -/

theorem Hub.ext_fields (h1 h2 : Hub) (hc : h1.clients = h2.clients)
    (hf : ∀ c, h1.client c = h2.client c) (hg : h1.gameState = h2.gameState) : h1 = h2 := by
  cases h1; cases h2
  simp only [Hub.mk.injEq]
  exact ⟨hc, funext hf, hg⟩

theorem sendOrEvict_closed (h : Hub) (c : Nat) (m : List Byte)
    (hcl : (h.client c).send.closed = true) :
    h.sendOrEvict c m = .error .sendOnClosedChannel := by
  simp [Hub.sendOrEvict, Chan.trySend, hcl]

theorem sendOrEvict_room (h : Hub) (c : Nat) (m : List Byte)
    (hop : (h.client c).send.closed = false)
    (hroom : (h.client c).send.buf.length < sendCapacity) :
    h.sendOrEvict c m
      = .ok (h.setSend c { (h.client c).send with buf := (h.client c).send.buf ++ [m] }) := by
  simp [Hub.sendOrEvict, Chan.trySend, hop, hroom]

theorem sendOrEvict_full (h : Hub) (c : Nat) (m : List Byte)
    (hop : (h.client c).send.closed = false)
    (hfull : ¬ (h.client c).send.buf.length < sendCapacity) :
    h.sendOrEvict c m
      = .ok { h.setSend c { (h.client c).send with closed := true } with
              clients := h.clients.erase c } := by
  simp [Hub.sendOrEvict, Chan.trySend, Chan.close, hop, hfull]

theorem sendOrClose_closed (h : Hub) (c : Nat) (m : List Byte)
    (hcl : (h.client c).send.closed = true) :
    h.sendOrClose c m = .error .sendOnClosedChannel := by
  simp [Hub.sendOrClose, Chan.trySend, hcl]

theorem sendOrClose_room (h : Hub) (c : Nat) (m : List Byte)
    (hop : (h.client c).send.closed = false)
    (hroom : (h.client c).send.buf.length < sendCapacity) :
    h.sendOrClose c m
      = .ok (h.setSend c { (h.client c).send with buf := (h.client c).send.buf ++ [m] }) := by
  simp [Hub.sendOrClose, Chan.trySend, hop, hroom]

theorem sendOrClose_full (h : Hub) (c : Nat) (m : List Byte)
    (hop : (h.client c).send.closed = false)
    (hfull : ¬ (h.client c).send.buf.length < sendCapacity) :
    h.sendOrClose c m = .ok (h.setSend c { (h.client c).send with closed := true }) := by
  simp [Hub.sendOrClose, Chan.trySend, Chan.close, hop, hfull]

theorem setSend_client_same (h : Hub) (c : Nat) (ch : Chan) :
    (h.setSend c ch).client c = { h.client c with send := ch } := by
  simp [Hub.setSend]

theorem setSend_client_other (h : Hub) (c d : Nat) (ch : Chan) (hd : d ≠ c) :
    (h.setSend c ch).client d = h.client d := by
  simp [Hub.setSend, Function.update, hd]

/-- One round of the broadcast loop on a session with an open channel. -/
theorem sendOrEvict_open (h : Hub) (c : Nat) (m : List Byte)
    (hop : (h.client c).send.closed = false) :
    h.sendOrEvict c m = .ok (h.afterVisits [c] m) := by
  by_cases hroom : (h.client c).send.buf.length < sendCapacity
  · rw [sendOrEvict_room h c m hop hroom]
    congr 1
    apply Hub.ext_fields
    · ext d
      simp only [Hub.afterVisits, Hub.setSend, Finset.mem_filter, List.mem_singleton]
      constructor
      · intro h1
        by_cases hd : d = c
        · exact ⟨h1, Or.inr (hd ▸ hroom)⟩
        · exact ⟨h1, Or.inl hd⟩
      · exact fun h1 => h1.1
    · intro d
      by_cases hd : d = c
      · subst hd
        simp [Hub.afterVisits, Hub.setSend, Client.afterBroadcast, hroom]
      · simp [Hub.afterVisits, Hub.setSend, Function.update, hd]
    · rfl
  · rw [sendOrEvict_full h c m hop hroom]
    congr 1
    apply Hub.ext_fields
    · ext d
      simp only [Hub.afterVisits, Hub.setSend, Finset.mem_erase, Finset.mem_filter,
        List.mem_singleton]
      constructor
      · rintro ⟨h1, h2⟩
        exact ⟨h2, Or.inl h1⟩
      · rintro ⟨h1, h2 | h2⟩
        · exact ⟨h2, h1⟩
        · refine ⟨fun hd => hroom (hd ▸ h2), h1⟩
    · intro d
      by_cases hd : d = c
      · subst hd
        simp [Hub.afterVisits, Hub.setSend, Client.afterBroadcast, hroom]
      · simp [Hub.afterVisits, Hub.setSend, Function.update, hd]
    · rfl

/-! ## Connection registry: the broadcast loop -/

theorem afterVisits_client_of_not_mem (h : Hub) (l : List Nat) (m : List Byte) (d : Nat)
    (hd : d ∉ l) : (h.afterVisits l m).client d = h.client d := by
  simp [Hub.afterVisits, hd]

theorem afterVisits_cons (h : Hub) (a : Nat) (l : List Nat) (m : List Byte) (ha : a ∉ l) :
    (h.afterVisits [a] m).afterVisits l m = h.afterVisits (a :: l) m := by
  apply Hub.ext_fields
  · ext d
    by_cases hd : d = a
    · subst hd
      simp [Hub.afterVisits, ha]
    · by_cases hl : d ∈ l
      · simp [Hub.afterVisits, hd, hl]
      · simp [Hub.afterVisits, hd, hl]
  · intro d
    by_cases hd : d = a
    · subst hd
      simp [Hub.afterVisits, ha]
    · by_cases hl : d ∈ l
      · simp [Hub.afterVisits, hd, hl]
      · simp [Hub.afterVisits, hd, hl]
  · rfl

/-- The loop of `broadcastMessage` over sessions with open channels. -/
theorem foldlM_sendOrEvict_open (m : List Byte) :
    ∀ (l : List Nat), l.Nodup → ∀ h : Hub, (∀ c ∈ l, (h.client c).send.closed = false) →
      l.foldlM (fun h c => h.sendOrEvict c m) h = .ok (h.afterVisits l m) := by
  intro l
  induction l with
  | nil =>
    intro _ h _
    show Except.ok h = Except.ok (h.afterVisits [] m)
    congr 1
    apply Hub.ext_fields
    · ext d; simp [Hub.afterVisits]
    · intro d; simp [Hub.afterVisits]
    · rfl
  | cons a l ih =>
    intro hnd h hop
    have ha : a ∉ l := (List.nodup_cons.mp hnd).1
    have hl : l.Nodup := (List.nodup_cons.mp hnd).2
    rw [List.foldlM_cons, sendOrEvict_open h a m (hop a (List.mem_cons_self a l))]
    show l.foldlM (fun h c => h.sendOrEvict c m) (h.afterVisits [a] m) = _
    rw [ih hl (h.afterVisits [a] m), afterVisits_cons h a l m ha]
    intro c hc
    have hca : c ∉ [a] := by
      simp only [List.mem_singleton]
      rintro rfl
      exact ha hc
    rw [afterVisits_client_of_not_mem h [a] m c hca]
    exact hop c (List.mem_cons_of_mem a hc)

/-- The loop of `broadcastMessage` panics when it meets a closed channel. -/
theorem foldlM_sendOrEvict_closed (m : List Byte) :
    ∀ (l : List Nat) (h : Hub), (∃ c ∈ l, (h.client c).send.closed = true) →
      l.foldlM (fun h c => h.sendOrEvict c m) h = .error .sendOnClosedChannel := by
  intro l
  induction l with
  | nil =>
    rintro h ⟨c, hc, _⟩
    exact absurd hc (List.not_mem_nil c)
  | cons a l ih =>
    rintro h ⟨c, hc, hcl⟩
    rw [List.foldlM_cons]
    by_cases hop : (h.client a).send.closed = true
    · rw [sendOrEvict_closed h a m hop]
      rfl
    · have hop2 : (h.client a).send.closed = false := by simpa using hop
      rw [sendOrEvict_open h a m hop2]
      show l.foldlM (fun h c => h.sendOrEvict c m) (h.afterVisits [a] m) = _
      have hca : c ≠ a := by
        rintro rfl
        rw [hcl] at hop2
        exact Bool.noConfusion hop2
      have hcl2 : c ∈ l := by
        rcases List.mem_cons.mp hc with h1 | h1
        · exact absurd h1 hca
        · exact h1
      apply ih
      refine ⟨c, hcl2, ?_⟩
      rw [afterVisits_client_of_not_mem h [a] m c (by simpa using hca)]
      exact hcl

/-- With every live channel open, `broadcastMessage` does not panic: it appends the frame
to every live session with room and closes and removes every live session whose buffer
is full. -/
theorem broadcastMessage_open (h : Hub) (m : List Byte)
    (hop : ∀ c ∈ h.clients, (h.client c).send.closed = false) :
    broadcastMessage h m = .ok (h.afterBroadcast m) := by
  unfold broadcastMessage
  rw [foldlM_sendOrEvict_open m _ (Finset.sort_nodup _ _) h
    (fun c hc => hop c ((Finset.mem_sort _).mp hc))]
  congr 1
  apply Hub.ext_fields
  · ext d
    simp only [Hub.afterVisits, Hub.afterBroadcast, Finset.mem_filter, Finset.mem_sort]
    constructor
    · rintro ⟨h1, h2 | h2⟩
      · exact absurd h1 h2
      · exact ⟨h1, h2⟩
    · rintro ⟨h1, h2⟩
      exact ⟨h1, Or.inr h2⟩
  · intro d
    simp [Hub.afterVisits, Hub.afterBroadcast]
  · rfl

/-- With a closed channel among the live sessions, `broadcastMessage` panics. -/
theorem broadcastMessage_closed (h : Hub) (m : List Byte)
    (hcl : ∃ c ∈ h.clients, (h.client c).send.closed = true) :
    broadcastMessage h m = .error .sendOnClosedChannel := by
  unfold broadcastMessage
  apply foldlM_sendOrEvict_closed
  obtain ⟨c, hc, h2⟩ := hcl
  exact ⟨c, (Finset.mem_sort _).mpr hc, h2⟩

/-! ## Connection registry: register and unregister -/

theorem sendGameStatusToClient_eq (E : Env) (h : Hub) (c : Nat) :
    sendGameStatusToClient E h c = h.sendOrEvict c (statusFrame E h.gameState) := rfl

theorem registerClient_eq (E : Env) (h : Hub) (c : Nat) :
    registerClient E h c
      = (h.entered c).sendOrEvict c (statusFrame E (h.entered c).gameState) := rfl

/-- Registration of a session whose channel is open and has room. -/
theorem registerClient_room (E : Env) (h : Hub) (c : Nat)
    (hop : (h.client c).send.closed = false)
    (hroom : (h.client c).send.buf.length < sendCapacity) :
    registerClient E h c
      = .ok ((h.entered c).setSend c
          { (h.client c).send with
            buf := (h.client c).send.buf ++ [statusFrame E (h.entered c).gameState] }) := by
  rw [registerClient_eq, sendOrEvict_room (h.entered c) c _ hop hroom]
  rfl

/-- Registration of a session whose channel is open and full: the session is closed and
removed again, the player count stays raised. -/
theorem registerClient_full (E : Env) (h : Hub) (c : Nat)
    (hop : (h.client c).send.closed = false)
    (hfull : ¬ (h.client c).send.buf.length < sendCapacity) :
    registerClient E h c
      = .ok { (h.entered c).setSend c { (h.client c).send with closed := true } with
              clients := (insert c h.clients).erase c } := by
  rw [registerClient_eq, sendOrEvict_full (h.entered c) c _ hop hfull]
  rfl

/-- Registration of a session whose channel is closed panics. -/
theorem registerClient_closed (E : Env) (h : Hub) (c : Nat)
    (hcl : (h.client c).send.closed = true) :
    registerClient E h c = .error .sendOnClosedChannel := by
  rw [registerClient_eq, sendOrEvict_closed (h.entered c) c _ hcl]

/-- Unregistration of a live session whose channel is open. -/
theorem unregisterClient_open (h : Hub) (c : Nat) (hc : c ∈ h.clients)
    (hop : (h.client c).send.closed = false) :
    unregisterClient h c
      = .ok { clients := h.clients.erase c,
              client := Function.update h.client c
                { h.client c with send := { (h.client c).send with closed := true } },
              gameState :=
                { h.gameState with
                  PlayersCount := wrapInt32 (h.gameState.PlayersCount - 1) } } := by
  simp [unregisterClient, hc, Chan.close, hop, Hub.setSend]

/-- Unregistration of a live session whose channel is already closed panics. -/
theorem unregisterClient_closed (h : Hub) (c : Nat) (hc : c ∈ h.clients)
    (hcl : (h.client c).send.closed = true) :
    unregisterClient h c = .error .closeOfClosedChannel := by
  simp [unregisterClient, hc, Chan.close, hcl]

/-- Unregistration of a session that is not in the set changes nothing. -/
theorem unregisterClient_absent (h : Hub) (c : Nat) (hc : c ∉ h.clients) :
    unregisterClient h c = .ok h := by
  simp [unregisterClient, hc]

/-! ## Connection registry: runs of operations -/

theorem run_cons_ok (E : Env) (op : Op) (rest : List Op) (h h1 : Hub)
    (hs : step E h op = .ok h1) : run E (op :: rest) h = run E rest h1 := by
  simp [run, hs]

theorem run_cons_error (E : Env) (op : Op) (rest : List Op) (h : Hub) (p : Panic)
    (hs : step E h op = .error p) : run E (op :: rest) h = .error p := by
  simp [run, hs]

theorem run_append_ok (E : Env) (l1 l2 : List Op) (h h1 : Hub)
    (hr : run E l1 h = .ok h1) : run E (l1 ++ l2) h = run E l2 h1 := by
  induction l1 generalizing h with
  | nil =>
    simp only [run, Except.ok.injEq] at hr
    subst hr
    rfl
  | cons op rest ih =>
    cases hs : step E h op with
    | error p => rw [run_cons_error E op rest h p hs] at hr; cases hr
    | ok h2 =>
      rw [run_cons_ok E op rest h h2 hs] at hr
      rw [List.cons_append, run_cons_ok E op _ h h2 hs]
      exact ih h2 hr

/-- While every live buffer has room for them, `k` broadcasts of `m` append `k` copies
of `m` to every live session and change nothing else. -/
theorem run_broadcasts (E : Env) (m : List Byte) (k : Nat) (h : Hub)
    (hop : ∀ c ∈ h.clients, (h.client c).send.closed = false)
    (hroom : ∀ c ∈ h.clients, (h.client c).send.buf.length + k ≤ sendCapacity) :
    run E (List.replicate k (Op.broadcast m)) h
      = .ok { clients := h.clients,
              client := fun c =>
                if c ∈ h.clients then
                  { h.client c with
                    send := { (h.client c).send with
                              buf := (h.client c).send.buf ++ List.replicate k m } }
                else h.client c,
              gameState := h.gameState } := by
  induction k generalizing h with
  | zero =>
    show Except.ok h = _
    congr 1
    apply Hub.ext_fields
    · rfl
    · intro d
      by_cases hd : d ∈ h.clients <;> simp [hd]
    · rfl
  | succ k ih =>
    have hstep : step E h (Op.broadcast m) = .ok (h.afterBroadcast m) :=
      broadcastMessage_open h m hop
    rw [List.replicate_succ, run_cons_ok E _ _ h (h.afterBroadcast m) hstep]
    have hcl : (h.afterBroadcast m).clients = h.clients := by
      ext d
      simp only [Hub.afterBroadcast, Finset.mem_filter, and_iff_left_iff_imp]
      intro hd
      have := hroom d hd
      omega
    have hcc : ∀ c ∈ h.clients, (h.afterBroadcast m).client c
        = { h.client c with
            send := { (h.client c).send with buf := (h.client c).send.buf ++ [m] } } := by
      intro c hc
      have := hroom c hc
      have hr : (h.client c).send.buf.length < sendCapacity := by omega
      simp [Hub.afterBroadcast, hc, Client.afterBroadcast, hr]
    rw [ih (h.afterBroadcast m)]
    · congr 1
      apply Hub.ext_fields
      · exact hcl
      · intro d
        by_cases hd : d ∈ h.clients
        · simp only [hcl, hd, if_true, hcc d hd, List.append_assoc, List.singleton_append,
            ← List.replicate_succ]
        · simp only [hcl, hd, if_false]
          simp [Hub.afterBroadcast, hd]
      · rfl
    · intro c hc
      rw [hcl] at hc
      rw [hcc c hc]
      exact hop c hc
    · intro c hc
      rw [hcl] at hc
      rw [hcc c hc]
      have := hroom c hc
      simp only [List.length_append, List.length_singleton]
      omega

/-! ## Client sessions: the reply functions -/

theorem sendErrorMessage_eq (E : Env) (clock : Int) (h : Hub) (c : Nat) (message : String) :
    sendErrorMessage E clock h c message = h.sendOrClose c (errorFrame E clock message) := rfl

theorem sendHandshakeResponse_eq (E : Env) (clock : Int) (h : Hub) (c : Nat)
    (status : String) (userID : Nat) (message : String) :
    sendHandshakeResponse E clock h c status userID message
      = h.sendOrClose c (handshakeFrame E clock status userID message) := rfl

theorem handleMessage_undecodable (E : Env) (t1 t2 : Int) (h : Hub) (c : Nat)
    (data : List Byte) (e : DecodeError) (hd : decodeMessage data = .error e) :
    handleMessage E t1 t2 h c data = h.sendOrClose c (errorFrame E t1 "消息格式错误") := by
  simp [handleMessage, hd, sendErrorMessage_eq]

/-! ## A session that takes no frame from its channel -/

theorem length_backlog_buf (E : Env) (now : Int) (m : List Byte) (k : Nat) (b : Bool) :
    ((backlogHub E now m k b).client 0).send.buf.length = k + 1 := by
  simp [backlogHub]

/-- Session 0 registers and `k` broadcasts follow, `k` below the capacity. -/
theorem run_register_broadcasts (E : Env) (now : Int) (m : List Byte) (k : Nat)
    (hk : k + 1 ≤ sendCapacity) :
    run E (.register 0 :: List.replicate k (.broadcast m)) (initialHub now)
      = .ok (backlogHub E now m k false) := by
  have hreg : step E (initialHub now) (Op.register 0)
      = .ok (((initialHub now).entered 0).setSend 0
          { ((initialHub now).client 0).send with
            buf := ((initialHub now).client 0).send.buf
              ++ [statusFrame E ((initialHub now).entered 0).gameState] }) :=
    registerClient_room E (initialHub now) 0 rfl (by simp [initialHub, newClient, sendCapacity])
  rw [run_cons_ok E _ _ _ _ hreg, run_broadcasts]
  · congr 1
    apply Hub.ext_fields
    · rfl
    · intro d
      by_cases hd : d = 0
      · subst hd
        simp [backlogHub, Hub.setSend, Hub.entered, initialHub, newClient, onePlayerState,
          NewHub]
        rfl
      · simp [backlogHub, Hub.setSend, Hub.entered, initialHub, hd, Function.update]
    · rfl
  · intro c hc
    have hc0 : c = 0 := by simpa [Hub.setSend, Hub.entered, initialHub] using hc
    subst hc0
    simp [Hub.setSend, Hub.entered, initialHub, newClient]
  · intro c hc
    have hc0 : c = 0 := by simpa [Hub.setSend, Hub.entered, initialHub] using hc
    subst hc0
    simpa [Hub.setSend, Hub.entered, initialHub, newClient, Nat.add_comm] using hk

/-- Session 0 registers and 255 broadcasts follow: its buffer is full. -/
theorem run_fillOps (E : Env) (now : Int) (m : List Byte) :
    run E (fillOps m) (initialHub now) = .ok (filledHub E now m false) :=
  run_register_broadcasts E now m 255 (le_refl _)

theorem setSend_backlog_closed (E : Env) (now : Int) (m : List Byte) (k : Nat) :
    (backlogHub E now m k false).setSend 0
        { ((backlogHub E now m k false).client 0).send with closed := true }
      = backlogHub E now m k true := by
  apply Hub.ext_fields
  · rfl
  · intro d
    by_cases hd : d = 0
    · subst hd
      simp [backlogHub, Hub.setSend]
    · simp [backlogHub, Hub.setSend, hd, Function.update]
  · rfl

/-- A message that does not decode, handled by the session with the full buffer: the
reply finds no room and closes the channel; the session stays in the set. -/
theorem handle_undecodable_filled (E : Env) (now t1 t2 : Int) (m : List Byte) :
    handleMessage E t1 t2 (filledHub E now m false) 0 [] = .ok (filledHub E now m true) := by
  have hfull : ¬ ((backlogHub E now m 255 false).client 0).send.buf.length < sendCapacity := by
    rw [length_backlog_buf]
    exact lt_irrefl _
  rw [handleMessage_undecodable E t1 t2 _ 0 [] .tooShort rfl]
  unfold filledHub
  rw [sendOrClose_full _ 0 _ rfl hfull, setSend_backlog_closed]

theorem run_singleton (E : Env) (op : Op) (h : Hub) : run E [op] h = step E h op := by
  cases hs : step E h op <;> simp [run, hs]

theorem backlog_clients (E : Env) (now : Int) (m : List Byte) (k : Nat) (b : Bool) :
    (backlogHub E now m k b).clients = {0} := rfl

theorem backlog_closed (E : Env) (now : Int) (m : List Byte) (k : Nat) (b : Bool) :
    ((backlogHub E now m k b).client 0).send.closed = b := rfl

theorem backlog_other (E : Env) (now : Int) (m : List Byte) (k : Nat) (b : Bool) (d : Nat)
    (hd : d ≠ 0) : (backlogHub E now m k b).client d = newClient := by
  simp [backlogHub, hd]

/-- The run that fills the buffer of session 0 and then lets it answer a message that
does not decode: the session is still registered and its channel is closed. -/
theorem run_fill_then_reply (E : Env) (now t1 t2 : Int) (m : List Byte) :
    run E (fillOps m ++ [.handle 0 t1 t2 []]) (initialHub now)
      = .ok (filledHub E now m true) := by
  rw [run_append_ok E _ _ _ _ (run_fillOps E now m), run_singleton]
  exact handle_undecodable_filled E now t1 t2 m

/-- The run that fills the buffer of session 0 and broadcasts once more: the session
is evicted. -/
theorem run_fill_then_broadcast (E : Env) (now : Int) (m : List Byte) :
    run E (fillOps m ++ [.broadcast m]) (initialHub now)
        = .ok ((filledHub E now m false).afterBroadcast m) ∧
      ((filledHub E now m false).afterBroadcast m).clients = ∅ := by
  constructor
  · rw [run_append_ok E _ _ _ _ (run_fillOps E now m), run_singleton]
    apply broadcastMessage_open
    intro c hc
    have hc0 : c = 0 := by simpa [filledHub, backlog_clients] using hc
    subst hc0
    rfl
  · have hfull : ¬ ((backlogHub E now m 255 false).client 0).send.buf.length
        < sendCapacity := by
      rw [length_backlog_buf]
      exact lt_irrefl _
    ext d
    simp only [Hub.afterBroadcast, filledHub, backlog_clients, Finset.mem_filter,
      Finset.mem_singleton, Finset.not_mem_empty, iff_false, not_and]
    rintro rfl
    exact hfull

theorem foldl_noteOp_broadcasts (S : Finset Nat) (m : List Byte) (k : Nat) :
    (List.replicate k (Op.broadcast m)).foldl noteOp S = S := by
  induction k with
  | zero => rfl
  | succ k ih => rw [List.replicate_succ, List.foldl_cons]; exact ih

theorem registeredNotUnregistered_fill (m : List Byte) :
    registeredNotUnregistered (fillOps m ++ [.broadcast m]) = {0} := by
  unfold registeredNotUnregistered fillOps
  rw [List.foldl_append, List.foldl_cons (l := List.replicate 255 (Op.broadcast m)),
    foldl_noteOp_broadcasts]
  rfl

/-- One request served by `Hub.Run` keeps the live set equal to the sessions registered,
not unregistered, and with an open channel. -/
theorem step_request_live (E : Env) (h h1 : Hub) (S : Finset Nat) (op : Op)
    (hreq : op.isHubRequest = true)
    (hinv : h.clients = S.filter (fun c => (h.client c).send.closed = false))
    (hs : step E h op = .ok h1) :
    h1.clients = (noteOp S op).filter (fun c => (h1.client c).send.closed = false) := by
  cases op with
  | register c =>
    have hs2 : registerClient E h c = .ok h1 := hs
    by_cases hop : (h.client c).send.closed = true
    · rw [registerClient_closed E h c hop] at hs2
      cases hs2
    · have hop2 : (h.client c).send.closed = false := by simpa using hop
      by_cases hroom : (h.client c).send.buf.length < sendCapacity
      · rw [registerClient_room E h c hop2 hroom] at hs2
        simp only [Except.ok.injEq] at hs2
        subst hs2
        ext d
        by_cases hd : d = c
        · subst hd
          simp [noteOp, Hub.setSend, Hub.entered, hop2]
        · simp [noteOp, Hub.setSend, Hub.entered, hd, Function.update, hinv]
      · rw [registerClient_full E h c hop2 hroom] at hs2
        simp only [Except.ok.injEq] at hs2
        subst hs2
        ext d
        by_cases hd : d = c
        · subst hd
          simp [noteOp, Hub.setSend, Hub.entered]
        · simp [noteOp, Hub.setSend, Hub.entered, hd, Function.update, hinv]
  | unregister c =>
    have hs2 : unregisterClient h c = .ok h1 := hs
    by_cases hc : c ∈ h.clients
    · have hop : (h.client c).send.closed = false := by
        rw [hinv] at hc
        exact (Finset.mem_filter.mp hc).2
      rw [unregisterClient_open h c hc hop] at hs2
      simp only [Except.ok.injEq] at hs2
      subst hs2
      ext d
      by_cases hd : d = c
      · subst hd
        simp [noteOp]
      · simp [noteOp, hd, Function.update, hinv]
    · rw [unregisterClient_absent h c hc] at hs2
      simp only [Except.ok.injEq] at hs2
      subst hs2
      rw [hinv] at hc ⊢
      ext d
      by_cases hd : d = c
      · subst hd
        simp only [noteOp, Finset.mem_filter, Finset.mem_erase, ne_eq, not_true_eq_false,
          false_and, iff_false]
        exact fun hh => hc (Finset.mem_filter.mpr hh)
      · simp [noteOp, hd]
  | broadcast m =>
    have hs2 : broadcastMessage h m = .ok h1 := hs
    have hop : ∀ c ∈ h.clients, (h.client c).send.closed = false := by
      intro c hc
      rw [hinv] at hc
      exact (Finset.mem_filter.mp hc).2
    rw [broadcastMessage_open h m hop] at hs2
    simp only [Except.ok.injEq] at hs2
    subst hs2
    ext d
    by_cases hd : d ∈ h.clients
    · have hdS : d ∈ S := by
        rw [hinv] at hd
        exact (Finset.mem_filter.mp hd).1
      by_cases hroom : (h.client d).send.buf.length < sendCapacity
      · simp [noteOp, Hub.afterBroadcast, hd, hdS, hroom, Client.afterBroadcast, hop d hd]
      · simp [noteOp, Hub.afterBroadcast, hd, hdS, hroom, Client.afterBroadcast]
    · have : ¬ (d ∈ S ∧ (h.client d).send.closed = false) := by
        intro hh
        apply hd
        rw [hinv]
        exact Finset.mem_filter.mpr hh
      simp only [noteOp, Hub.afterBroadcast, hd, if_false, Finset.mem_filter, false_and,
        false_iff]
      exact this
  | tick now clock => cases hreq
  | handle c t1 t2 data => cases hreq

/-- A run of requests served by `Hub.Run` keeps the live set equal to the sessions
registered, not unregistered, and with an open channel. -/
theorem run_requests_live (E : Env) (ops : List Op) :
    ∀ (h h1 : Hub) (S : Finset Nat), (∀ op ∈ ops, op.isHubRequest = true) →
      h.clients = S.filter (fun c => (h.client c).send.closed = false) →
      run E ops h = .ok h1 →
      h1.clients = (ops.foldl noteOp S).filter (fun c => (h1.client c).send.closed = false) := by
  induction ops with
  | nil =>
    intro h h1 S _ hinv hr
    simp only [run, Except.ok.injEq] at hr
    subst hr
    exact hinv
  | cons op rest ih =>
    intro h h1 S hreq hinv hr
    cases hs : step E h op with
    | error p => rw [run_cons_error E op rest h p hs] at hr; cases hr
    | ok h2 =>
      rw [run_cons_ok E op rest h h2 hs] at hr
      rw [List.foldl_cons]
      exact ih h2 h1 (noteOp S op) (fun o ho => hreq o (List.mem_cons_of_mem op ho))
        (step_request_live E h h2 S op (hreq op (List.mem_cons_self op rest)) hinv hs) hr

/-- A run of requests served by `Hub.Run` in which no session is registered twice does
not panic. `R` holds the sessions registered before the run. -/
theorem run_requests_ok (E : Env) (ops : List Op) :
    ∀ (h : Hub) (R : Finset Nat), (∀ op ∈ ops, op.isHubRequest = true) →
      (registrations ops).Nodup → (∀ c ∈ registrations ops, c ∉ R) →
      (∀ c ∈ h.clients, (h.client c).send.closed = false ∧ c ∈ R) →
      (∀ c, c ∉ R → h.client c = newClient) →
      ∃ h1, run E ops h = .ok h1 := by
  induction ops with
  | nil => intro h _ _ _ _ _ _; exact ⟨h, rfl⟩
  | cons op rest ih =>
    intro h R hreq hnd hnew hlive hfresh
    have hreq2 : ∀ o ∈ rest, o.isHubRequest = true :=
      fun o ho => hreq o (List.mem_cons_of_mem op ho)
    cases op with
    | register c =>
      have hnd2 : c ∉ registrations rest ∧ (registrations rest).Nodup :=
        List.nodup_cons.mp hnd
      have hcR : c ∉ R := hnew c (List.mem_cons_self c _)
      have hcl := hfresh c hcR
      have hop : (h.client c).send.closed = false := by rw [hcl]; rfl
      have hroom : (h.client c).send.buf.length < sendCapacity := by
        rw [hcl]; simp [newClient, sendCapacity]
      have hs : step E h (Op.register c) = _ := registerClient_room E h c hop hroom
      rw [run_cons_ok E _ rest h _ hs]
      apply ih _ (insert c R) hreq2 hnd2.2
      · intro d hd
        have hdR : d ∉ R := hnew d (List.mem_cons_of_mem c hd)
        have hdc : d ≠ c := fun e => hnd2.1 (e ▸ hd)
        simp [hdR, hdc]
      · intro d hd
        by_cases hdc : d = c
        · subst hdc
          simp [Hub.setSend, hop]
        · have hd2 : d ∈ h.clients := by
            simpa [Hub.setSend, Hub.entered, hdc] using hd
          have := hlive d hd2
          simp [Hub.setSend, Hub.entered, Function.update, hdc, this.1, this.2]
      · intro d hd
        have hdc : d ≠ c := fun e => hd (e ▸ Finset.mem_insert_self c R)
        have hdR : d ∉ R := fun e => hd (Finset.mem_insert_of_mem e)
        simp [Hub.setSend, Hub.entered, Function.update, hdc, hfresh d hdR]
    | unregister c =>
      have hnd2 : (registrations rest).Nodup := hnd
      have hnew2 : ∀ d ∈ registrations rest, d ∉ R := hnew
      by_cases hc : c ∈ h.clients
      · have hs : step E h (Op.unregister c) = _ :=
          unregisterClient_open h c hc (hlive c hc).1
        rw [run_cons_ok E _ rest h _ hs]
        apply ih _ R hreq2 hnd2 hnew2
        · intro d hd
          have hd2 : d ∈ h.clients ∧ d ≠ c := by
            have := Finset.mem_erase.mp hd
            exact ⟨this.2, this.1⟩
          have := hlive d hd2.1
          simp [Function.update, hd2.2, this.1, this.2]
        · intro d hd
          have hdc : d ≠ c := fun e => hd (e ▸ (hlive c hc).2)
          simp [Function.update, hdc, hfresh d hd]
      · have hs : step E h (Op.unregister c) = .ok h := unregisterClient_absent h c hc
        rw [run_cons_ok E _ rest h _ hs]
        exact ih h R hreq2 hnd2 hnew2 hlive hfresh
    | broadcast m =>
      have hnd2 : (registrations rest).Nodup := hnd
      have hnew2 : ∀ d ∈ registrations rest, d ∉ R := hnew
      have hs : step E h (Op.broadcast m) = _ :=
        broadcastMessage_open h m (fun c hc => (hlive c hc).1)
      rw [run_cons_ok E _ rest h _ hs]
      apply ih _ R hreq2 hnd2 hnew2
      · intro d hd
        have hd2 : d ∈ h.clients ∧ (h.client d).send.buf.length < sendCapacity := by
          simpa [Hub.afterBroadcast] using hd
        have := hlive d hd2.1
        simp [Hub.afterBroadcast, hd2.1, Client.afterBroadcast, hd2.2, this.1, this.2]
      · intro d hd
        have hdc : d ∉ h.clients := fun e => hd (hlive d e).2
        simp [Hub.afterBroadcast, hdc, hfresh d hd]
    | tick now clock => exact absurd (hreq _ (List.mem_cons_self _ _)) (by simp [Op.isHubRequest])
    | handle c t1 t2 data =>
      exact absurd (hreq _ (List.mem_cons_self _ _)) (by simp [Op.isHubRequest])

/-- Unregistering again after a successful `unregisterClient` changes nothing. -/
theorem unregisterClient_twice (h h1 : Hub) (c : Nat) (hs : unregisterClient h c = .ok h1) :
    unregisterClient h1 c = .ok h1 := by
  by_cases hc : c ∈ h.clients
  · by_cases hcl : (h.client c).send.closed = true
    · rw [unregisterClient_closed h c hc hcl] at hs
      cases hs
    · have hop : (h.client c).send.closed = false := by simpa using hcl
      rw [unregisterClient_open h c hc hop] at hs
      simp only [Except.ok.injEq] at hs
      subst hs
      apply unregisterClient_absent
      simp
  · rw [unregisterClient_absent h c hc] at hs
    simp only [Except.ok.injEq] at hs
    subst hs
    exact unregisterClient_absent h c hc

theorem decodeMessage_frame_small (t : MessageType) (p : List Byte) (hp : p.length < 2 ^ 32) :
    decodeMessage (frame t p) = .ok (t, p) := by
  rw [decodeMessage_frame]
  have h : p.length = uint32Sub (toUint32 (p.length + 1)) 1 := by
    unfold uint32Sub toUint32
    omega
  simp [← h]

/-- Registration of a session that is not in the set and whose channel is open with
room. -/
theorem registerClient_fresh (E : Env) (h : Hub) (c : Nat) (hc : c ∉ h.clients)
    (hop : (h.client c).send.closed = false)
    (hroom : (h.client c).send.buf.length < sendCapacity) :
    ∃ h1, registerClient E h c = .ok h1 ∧
      h1.clients = insert c h.clients ∧
      GetClientsCount h1 = GetClientsCount h + 1 ∧
      h1.gameState
        = { h.gameState with PlayersCount := wrapInt32 (h.gameState.PlayersCount + 1) } ∧
      (h1.client c).send.buf = (h.client c).send.buf ++ [statusFrame E h1.gameState] ∧
      (h1.client c).send.closed = false ∧
      (h1.client c).userID = (h.client c).userID ∧
      (∀ d, d ≠ c → h1.client d = h.client d) := by
  refine ⟨_, registerClient_room E h c hop hroom, rfl, ?_, rfl, ?_, ?_, ?_, ?_⟩
  · show (insert c h.clients).card = h.clients.card + 1
    exact Finset.card_insert_of_not_mem hc
  · rw [setSend_client_same]; rfl
  · rw [setSend_client_same]; exact hop
  · rw [setSend_client_same]; rfl
  · intro d hd
    rw [setSend_client_other _ c d _ hd]
    rfl

/-- Scenario A on a new hub: the live counts are 1, 2, 3, and 2 after the second session
is unregistered. -/
theorem scenarioA_counts (E : Env) (now : Int) :
    ∃ h1 h2 h3 h4,
      run E (scenarioAOps.take 1) (initialHub now) = .ok h1 ∧ GetClientsCount h1 = 1 ∧
      run E (scenarioAOps.take 2) (initialHub now) = .ok h2 ∧ GetClientsCount h2 = 2 ∧
      run E (scenarioAOps.take 3) (initialHub now) = .ok h3 ∧ GetClientsCount h3 = 3 ∧
      run E scenarioAOps (initialHub now) = .ok h4 ∧ GetClientsCount h4 = 2 := by
  have room0 : (newClient.send.buf.length < sendCapacity) := by simp [newClient, sendCapacity]
  obtain ⟨h1, r1, c1, n1, -, -, -, -, o1⟩ :=
    registerClient_fresh E (initialHub now) 0 (by simp [initialHub]) rfl room0
  have e11 : h1.client 1 = newClient := o1 1 (by decide)
  have e12 : h1.client 2 = newClient := o1 2 (by decide)
  obtain ⟨h2, r2, c2, n2, -, -, k2, -, o2⟩ :=
    registerClient_fresh E h1 1 (by rw [c1]; simp [initialHub]) (by rw [e11]; rfl)
      (by rw [e11]; exact room0)
  have e22 : h2.client 2 = newClient := by rw [o2 2 (by decide)]; exact e12
  obtain ⟨h3, r3, c3, n3, -, -, -, -, o3⟩ :=
    registerClient_fresh E h2 2 (by rw [c2, c1]; simp [initialHub]) (by rw [e22]; rfl)
      (by rw [e22]; exact room0)
  have m1 : 1 ∈ h3.clients := by rw [c3, c2]; simp
  have op1 : (h3.client 1).send.closed = false := by rw [o3 1 (by decide)]; exact k2
  obtain ⟨h4, r4, c4⟩ : ∃ h4, unregisterClient h3 1 = .ok h4 ∧
      h4.clients = h3.clients.erase 1 := ⟨_, unregisterClient_open h3 1 m1 op1, rfl⟩
  have s1 : step E (initialHub now) (Op.register 0) = .ok h1 := r1
  have s2 : step E h1 (Op.register 1) = .ok h2 := r2
  have s3 : step E h2 (Op.register 2) = .ok h3 := r3
  have s4 : step E h3 (Op.unregister 1) = .ok h4 := r4
  have g0 : GetClientsCount (initialHub now) = 0 := rfl
  refine ⟨h1, h2, h3, h4, ?_, ?_, ?_, ?_, ?_, ?_, ?_, ?_⟩
  · show run E [Op.register 0] (initialHub now) = _
    rw [run_singleton]; exact s1
  · rw [n1, g0]
  · show run E [Op.register 0, Op.register 1] (initialHub now) = _
    rw [run_cons_ok E _ _ _ _ s1, run_singleton]; exact s2
  · rw [n2, n1, g0]
  · show run E [Op.register 0, Op.register 1, Op.register 2] (initialHub now) = _
    rw [run_cons_ok E _ _ _ _ s1, run_cons_ok E _ _ _ _ s2, run_singleton]; exact s3
  · rw [n3, n2, n1, g0]
  · show run E [Op.register 0, Op.register 1, Op.register 2, Op.unregister 1]
        (initialHub now) = _
    rw [run_cons_ok E _ _ _ _ s1, run_cons_ok E _ _ _ _ s2, run_cons_ok E _ _ _ _ s3,
      run_singleton]
    exact s4
  · show h4.clients.card = 2
    rw [c4, Finset.card_erase_of_mem m1]
    have : h3.clients.card = 3 := by
      have := n3
      rw [n2, n1, g0] at this
      exact this
    rw [this]

/-! ## Connection registry: the claims -/

/-- C12 on the failing input: session 0 registers and takes no frame from its channel;
the 256th broadcast after its registration evicts it, and the hub then has no live
session while `PlayersCount` is still 1. -/
theorem players_count_outlives_eviction (E : Env) (now : Int) (m : List Byte) :
    ∃ h, run E (fillOps m ++ [.broadcast m]) (initialHub now) = .ok h ∧
      GetClientsCount h = 0 ∧ (GetGameState h).PlayersCount = 1 := by
  obtain ⟨hrun, hcl⟩ := run_fill_then_broadcast E now m
  refine ⟨(filledHub E now m false).afterBroadcast m, hrun, ?_, rfl⟩
  simp [GetClientsCount, hcl]

/-- C13 on the failing input: session 0 is registered, its buffer is full and its reply
to a message that does not decode has closed its channel; `unregisterClient` on this live
session panics when it closes the channel again, so it neither closes the queue once nor
lowers `PlayersCount`. -/
theorem unregister_panics_after_reply_close (E : Env) (now t1 t2 : Int) (m : List Byte) :
    ∃ h, run E (fillOps m ++ [.handle 0 t1 t2 []]) (initialHub now) = .ok h ∧
      0 ∈ h.clients ∧ unregisterClient h 0 = .error .closeOfClosedChannel := by
  refine ⟨filledHub E now m true, run_fill_then_reply E now t1 t2 m, ?_, ?_⟩
  · simp [filledHub, backlog_clients]
  · apply unregisterClient_closed
    · simp [filledHub, backlog_clients]
    · rfl

/-- C15 on the failing input: session 0 is live with a full buffer and a channel closed
by its own reply, session 1 is live with room in its buffer; `broadcastMessage` panics
on the closed channel, so session 1 does not receive the frame and session 0 is not
removed. -/
theorem broadcast_panics_after_reply_close (E : Env) (now t1 t2 : Int) (m : List Byte) :
    ∃ h, run E (fillOps m ++ [.register 1, .handle 0 t1 t2 []]) (initialHub now) = .ok h ∧
      0 ∈ h.clients ∧ 1 ∈ h.clients ∧
      (h.client 1).send.closed = false ∧
      (h.client 1).send.buf.length < sendCapacity ∧
      broadcastMessage h m = .error .sendOnClosedChannel := by
  have h1open : ((filledHub E now m false).client 1).send.closed = false := rfl
  have h1room : ((filledHub E now m false).client 1).send.buf.length < sendCapacity := by
    show (0 : Nat) < 256
    decide
  have hreg := registerClient_room E (filledHub E now m false) 1 h1open h1room
  generalize hh1 : ((filledHub E now m false).entered 1).setSend 1
      { ((filledHub E now m false).client 1).send with
        buf := ((filledHub E now m false).client 1).send.buf
          ++ [statusFrame E ((filledHub E now m false).entered 1).gameState] } = h1 at hreg
  have c0 : h1.client 0 = (filledHub E now m false).client 0 := by
    rw [← hh1]
    exact setSend_client_other _ 1 0 _ (by decide)
  have c1 : h1.client 1
      = { (filledHub E now m false).client 1 with
          send := { ((filledHub E now m false).client 1).send with
            buf := ((filledHub E now m false).client 1).send.buf
              ++ [statusFrame E ((filledHub E now m false).entered 1).gameState] } } := by
    rw [← hh1]
    exact setSend_client_same _ 1 _
  have hcl : h1.clients = {1, 0} := by
    rw [← hh1]
    rfl
  have hfull : ¬ (h1.client 0).send.buf.length < sendCapacity := by
    rw [c0]
    unfold filledHub
    rw [length_backlog_buf]
    exact lt_irrefl _
  have hop0 : (h1.client 0).send.closed = false := by rw [c0]; rfl
  have hrep : step E h1 (Op.handle 0 t1 t2 [])
      = .ok (h1.setSend 0 { (h1.client 0).send with closed := true }) := by
    show handleMessage E t1 t2 h1 0 [] = _
    rw [handleMessage_undecodable E t1 t2 _ 0 [] .tooShort rfl,
      sendOrClose_full _ 0 _ hop0 hfull]
  have hrun : run E (fillOps m ++ [.register 1, .handle 0 t1 t2 []]) (initialHub now)
      = .ok (h1.setSend 0 { (h1.client 0).send with closed := true }) := by
    have hreg2 : step E (filledHub E now m false) (Op.register 1) = .ok h1 := hreg
    rw [run_append_ok E _ _ _ _ (run_fillOps E now m),
      run_cons_ok E (Op.register 1) _ _ h1 hreg2, run_singleton, hrep]
  have k0 : 0 ∈ (h1.setSend 0 { (h1.client 0).send with closed := true }).clients := by
    show 0 ∈ h1.clients
    rw [hcl]; decide
  have k1 : 1 ∈ (h1.setSend 0 { (h1.client 0).send with closed := true }).clients := by
    show 1 ∈ h1.clients
    rw [hcl]; decide
  have e1 : (h1.setSend 0 { (h1.client 0).send with closed := true }).client 1
      = h1.client 1 := setSend_client_other _ 0 1 _ (by decide)
  refine ⟨_, hrun, k0, k1, ?_, ?_, ?_⟩
  · rw [e1, c1]; rfl
  · rw [e1, c1]
    show (([] : List (List Byte)) ++ [_]).length < 256
    simp
  · apply broadcastMessage_closed
    refine ⟨0, k0, ?_⟩
    rw [setSend_client_same]

/-- C16 on the failing input: session 0 registers, 255 broadcasts fill its buffer, its
reply to a message that does not decode closes its channel (first close), and the
`unregister` that follows closes it a second time: the run ends in the panic `close of
closed channel`. -/
theorem queue_closed_twice (E : Env) (now t1 t2 : Int) (m : List Byte) :
    (∃ h, run E (fillOps m ++ [.handle 0 t1 t2 []]) (initialHub now) = .ok h ∧
        0 ∈ h.clients ∧ (h.client 0).send.closed = true) ∧
      run E (fillOps m ++ [.handle 0 t1 t2 [], .unregister 0]) (initialHub now)
        = .error .closeOfClosedChannel := by
  have hin : 0 ∈ (filledHub E now m true).clients := by simp [filledHub, backlog_clients]
  refine ⟨⟨filledHub E now m true, run_fill_then_reply E now t1 t2 m, hin, rfl⟩, ?_⟩
  have hstep : step E (filledHub E now m false) (Op.handle 0 t1 t2 [])
      = .ok (filledHub E now m true) := handle_undecodable_filled E now t1 t2 m
  rw [run_append_ok E _ _ _ _ (run_fillOps E now m),
    run_cons_ok E _ _ _ _ hstep, run_singleton]
  exact unregisterClient_closed _ 0 hin rfl

/-- C11 (amended): after every sequence of register, unregister and broadcast requests
on a new hub, `GetClientsCount` equals the number of sessions that have been registered,
for which `unregister` has not been called since, and whose queue has not been closed by
an eviction; and a sequence that registers no session twice runs without panic. -/
theorem live_count_after_requests (E : Env) (now : Int) (ops : List Op)
    (hreq : ∀ op ∈ ops, op.isHubRequest = true) :
    (∀ h, run E ops (initialHub now) = .ok h →
        h.clients = (registeredNotUnregistered ops).filter
          (fun c => (h.client c).send.closed = false) ∧
        GetClientsCount h = ((registeredNotUnregistered ops).filter
          (fun c => (h.client c).send.closed = false)).card) ∧
      ((registrations ops).Nodup → ∃ h, run E ops (initialHub now) = .ok h) := by
  constructor
  · intro h hr
    have hcl := run_requests_live E ops (initialHub now) h ∅ hreq
      (by simp [initialHub]) hr
    exact ⟨hcl, congrArg Finset.card hcl⟩
  · intro hnd
    exact run_requests_ok E ops (initialHub now) ∅ hreq hnd (fun c _ => Finset.not_mem_empty c)
      (fun c hc => absurd hc (by simp [initialHub])) (fun c _ => rfl)

/-- Witness of C11: Scenario A runs without panic and its live count is the number of
sessions registered, not unregistered and not closed. -/
theorem live_count_after_requests_witness :
    ∃ h, run sampleEnv scenarioAOps (initialHub 0) = .ok h ∧
      GetClientsCount h = ((registeredNotUnregistered scenarioAOps).filter
        (fun c => (h.client c).send.closed = false)).card := by
  have hreq : ∀ op ∈ scenarioAOps, op.isHubRequest = true := by decide
  obtain ⟨h, hr⟩ := (live_count_after_requests sampleEnv 0 scenarioAOps hreq).2 (by decide)
  exact ⟨h, hr, ((live_count_after_requests sampleEnv 0 scenarioAOps hreq).1 h hr).2⟩

/-- C11 as stated fails: session 0 registers and takes no frame from its channel; after
the 256th broadcast the live count is 0, while one session has been registered and never
unregistered. -/
theorem live_count_drops_on_eviction :
    ∃ h, run sampleEnv (fillOps [] ++ [.broadcast []]) (initialHub 0) = .ok h ∧
      GetClientsCount h = 0 ∧
      (registeredNotUnregistered (fillOps [] ++ [.broadcast []])).card = 1 := by
  obtain ⟨hrun, hcl⟩ := run_fill_then_broadcast sampleEnv 0 []
  refine ⟨_, hrun, ?_, ?_⟩
  · simp [GetClientsCount, hcl]
  · rw [registeredNotUnregistered_fill]
    rfl

/-- C14: for every hub state and every session `c` that is not in the set and comes to
`registerClient` as `ServeWS` has made it (queue open, with room), the player counter
being an `int32` below its maximum and the status payload fitting the 32-bit length
field: `registerClient` adds `c` to the set (the live count rises by one), increments
`PlayersCount` by one, and appends to the queue of `c` exactly one frame, which decodes
to tag `GameStatusUpdate` with the payload built from the round state with the
incremented count, changing no other session; three registrations and one
unregistration on a new hub give the live counts 1, 2, 3, 2. -/
theorem register_new_session (E : Env) :
    (∀ (h : Hub) (c : Nat), c ∉ h.clients → (h.client c).send.closed = false →
        (h.client c).send.buf.length < sendCapacity →
        -2 ^ 31 ≤ h.gameState.PlayersCount → h.gameState.PlayersCount < 2 ^ 31 - 1 →
        (E.marshal (.statusUpdate (statusUpdateOf E
          { h.gameState with PlayersCount := h.gameState.PlayersCount + 1 }))).length + 1
            < 2 ^ 32 →
        ∃ h1, registerClient E h c = .ok h1 ∧
          h1.clients = insert c h.clients ∧
          GetClientsCount h1 = GetClientsCount h + 1 ∧
          h1.gameState = { h.gameState with
            PlayersCount := h.gameState.PlayersCount + 1 } ∧
          (h1.client c).send.buf
            = (h.client c).send.buf ++ [frame GameStatusUpdate (E.marshal (.statusUpdate
                { GameId := h1.gameState.GameID,
                  State := E.protoGameState h1.gameState.Status,
                  CurrentMultiplier := h1.gameState.CurrentMultiplier,
                  PlayersCount := h1.gameState.PlayersCount,
                  NextRoundIn := h1.gameState.NextRoundIn,
                  ServerTime := h1.gameState.LastUpdate }))] ∧
          (h1.client c).send.closed = false ∧
          decodeMessage (frame GameStatusUpdate (E.marshal (.statusUpdate
              (statusUpdateOf E h1.gameState))))
            = .ok (GameStatusUpdate,
                E.marshal (.statusUpdate (statusUpdateOf E h1.gameState))) ∧
          (∀ d, d ≠ c → h1.client d = h.client d)) ∧
      (∀ now : Int, ∃ h1 h2 h3 h4,
        run E (scenarioAOps.take 1) (initialHub now) = .ok h1 ∧ GetClientsCount h1 = 1 ∧
        run E (scenarioAOps.take 2) (initialHub now) = .ok h2 ∧ GetClientsCount h2 = 2 ∧
        run E (scenarioAOps.take 3) (initialHub now) = .ok h3 ∧ GetClientsCount h3 = 3 ∧
        run E scenarioAOps (initialHub now) = .ok h4 ∧ GetClientsCount h4 = 2) := by
  refine ⟨fun h c hc hop hroom hlo hhi hsize => ?_, scenarioA_counts E⟩
  obtain ⟨h1, r, c1, n1, g1, b1, k1, -, o1⟩ := registerClient_fresh E h c hc hop hroom
  have hw : wrapInt32 (h.gameState.PlayersCount + 1) = h.gameState.PlayersCount + 1 := by
    unfold wrapInt32
    omega
  rw [hw] at g1
  refine ⟨h1, r, c1, n1, g1, b1, k1, ?_, o1⟩
  apply decodeMessage_frame_small
  rw [g1]
  omega

/-- Witness of C14: the first registration on a new hub. -/
theorem register_new_session_witness :
    ∃ h1, registerClient sampleEnv (initialHub 0) 0 = .ok h1 ∧
      GetClientsCount h1 = GetClientsCount (initialHub 0) + 1 ∧
      h1.gameState.PlayersCount = 1 := by
  obtain ⟨h1, r, -, n1, g1, -⟩ := (register_new_session sampleEnv).1 (initialHub 0) 0
    (by simp [initialHub]) rfl (by simp [initialHub, newClient, sendCapacity])
    (by decide) (by decide) (by decide)
  refine ⟨h1, r, n1, ?_⟩
  rw [g1]
  rfl

/-! ## Client sessions: dispatch and handlers -/

theorem handleMessage_frame_bet (E : Env) (t1 t2 : Int) (h : Hub) (c : Nat)
    (payload : List Byte) (hp : payload.length < 2 ^ 32) :
    handleMessage E t1 t2 h c (frame PlayerBet payload)
      = handlePlayerBet E t1 t2 h c payload := by
  have h1 : ¬ (PlayerBet = HandshakeRequest) := by decide
  simp [handleMessage, decodeMessage_frame_small _ _ hp, h1]

theorem handleMessage_frame_cashout (E : Env) (t1 t2 : Int) (h : Hub) (c : Nat)
    (payload : List Byte) (hp : payload.length < 2 ^ 32) :
    handleMessage E t1 t2 h c (frame PlayerCashout payload)
      = handlePlayerCashout E t1 t2 h c payload := by
  have h1 : ¬ (PlayerCashout = HandshakeRequest) := by decide
  have h2 : ¬ (PlayerCashout = PlayerBet) := by decide
  simp [handleMessage, decodeMessage_frame_small _ _ hp, h1, h2]

theorem handleMessage_frame_handshake (E : Env) (t1 t2 : Int) (h : Hub) (c : Nat)
    (payload : List Byte) (hp : payload.length < 2 ^ 32) :
    handleMessage E t1 t2 h c (frame HandshakeRequest payload)
      = handleHandshake E t1 h c payload := by
  simp [handleMessage, decodeMessage_frame_small _ _ hp]

/-- A bet with a positive amount is broadcast, whoever sends it. -/
theorem handlePlayerBet_positive (E : Env) (t1 t2 : Int) (h : Hub) (c : Nat)
    (payload : List Byte) (req : BetReq) (hp : E.parseBet payload = some req)
    (ha : 0 < req.Amount) :
    handlePlayerBet E t1 t2 h c payload
      = broadcastMessage h (frame PlayerBet
          (E.marshal (.playerBet (playerBetEvent t1 t2 (h.client c) req)))) := by
  have ha2 : ¬ req.Amount ≤ 0 := not_le.mpr ha
  simp [handlePlayerBet, hp, ha2, encodeMessage, Env.jsonMarshal]

/-- A bet with a non-positive amount is answered with an error notification. -/
theorem handlePlayerBet_nonpositive (E : Env) (t1 t2 : Int) (h : Hub) (c : Nat)
    (payload : List Byte) (req : BetReq) (hp : E.parseBet payload = some req)
    (ha : req.Amount ≤ 0) :
    handlePlayerBet E t1 t2 h c payload
      = h.sendOrClose c (errorFrame E t1 "下注金额必须大于0") := by
  simp [handlePlayerBet, hp, ha, sendErrorMessage_eq]

/-- A cash-out with a non-empty bet id is broadcast, whoever sends it. -/
theorem handlePlayerCashout_named (E : Env) (t1 t2 : Int) (h : Hub) (c : Nat)
    (payload : List Byte) (req : CashoutReq) (hp : E.parseCashout payload = some req)
    (hid : req.BetID ≠ "") :
    handlePlayerCashout E t1 t2 h c payload
      = broadcastMessage h (frame PlayerCashout
          (E.marshal (.playerCashout (playerCashoutEvent t1 (h.client c) req)))) := by
  simp [handlePlayerCashout, hp, hid, encodeMessage, Env.jsonMarshal]

/-- A cash-out with an empty bet id is answered with an error notification. -/
theorem handlePlayerCashout_unnamed (E : Env) (t1 t2 : Int) (h : Hub) (c : Nat)
    (payload : List Byte) (req : CashoutReq) (hp : E.parseCashout payload = some req)
    (hid : req.BetID = "") :
    handlePlayerCashout E t1 t2 h c payload
      = h.sendOrClose c (errorFrame E t1 "下注ID不能为空") := by
  simp [handlePlayerCashout, hp, hid, sendErrorMessage_eq]

theorem handleHandshake_unparsed (E : Env) (clock : Int) (h : Hub) (c : Nat)
    (payload : List Byte) (hp : E.parseHandshake payload = none) :
    handleHandshake E clock h c payload
      = h.sendOrClose c (handshakeFrame E clock "error" 0 "握手请求格式错误") := by
  simp [handleHandshake, hp, sendHandshakeResponse_eq]

theorem handleHandshake_no_token (E : Env) (clock : Int) (h : Hub) (c : Nat)
    (payload : List Byte) (req : HandshakeReq) (hp : E.parseHandshake payload = some req)
    (ht : req.Token = "") :
    handleHandshake E clock h c payload
      = h.sendOrClose c (handshakeFrame E clock "error" 0 "Token不能为空") := by
  simp [handleHandshake, hp, ht, sendHandshakeResponse_eq]

theorem handleHandshake_token (E : Env) (clock : Int) (h : Hub) (c : Nat)
    (payload : List Byte) (req : HandshakeReq) (hp : E.parseHandshake payload = some req)
    (ht : req.Token ≠ "") :
    handleHandshake E clock h c payload
      = (h.bindUser c 12345 "player1").sendOrClose c
          (handshakeFrame E clock "success" 12345 "") := by
  simp [handleHandshake, hp, ht, sendHandshakeResponse_eq, Hub.bindUser]

theorem afterBroadcast_client_room (h : Hub) (m : List Byte) (d : Nat) (hd : d ∈ h.clients)
    (hroom : (h.client d).send.buf.length < sendCapacity) :
    (h.afterBroadcast m).client d
        = { h.client d with
            send := { (h.client d).send with buf := (h.client d).send.buf ++ [m] } } ∧
      d ∈ (h.afterBroadcast m).clients := by
  constructor
  · simp [Hub.afterBroadcast, hd, Client.afterBroadcast, hroom]
  · simp [Hub.afterBroadcast, hd, hroom]

theorem afterBroadcast_client_full (h : Hub) (m : List Byte) (d : Nat) (hd : d ∈ h.clients)
    (hfull : ¬ (h.client d).send.buf.length < sendCapacity) :
    (h.afterBroadcast m).client d
        = { h.client d with send := { (h.client d).send with closed := true } } ∧
      d ∉ (h.afterBroadcast m).clients := by
  constructor
  · simp [Hub.afterBroadcast, hd, Client.afterBroadcast, hfull]
  · simp [Hub.afterBroadcast, hfull]

theorem afterBroadcast_client_absent (h : Hub) (m : List Byte) (d : Nat) (hd : d ∉ h.clients) :
    (h.afterBroadcast m).client d = h.client d ∧ d ∉ (h.afterBroadcast m).clients := by
  constructor
  · simp [Hub.afterBroadcast, hd]
  · simp [Hub.afterBroadcast, hd]

/-- Two sessions registered on a new hub: both live, open, with room, and without a
user bound. -/
theorem two_sessions (E : Env) (now : Int) :
    ∃ h, run E [.register 0, .register 1] (initialHub now) = .ok h ∧
      h.clients = {1, 0} ∧
      (∀ c ∈ h.clients, (h.client c).send.closed = false ∧
        (h.client c).send.buf.length < sendCapacity ∧ (h.client c).userID = 0) ∧
      h.gameState.CurrentMultiplier = 1 := by
  have room0 : (newClient.send.buf.length < sendCapacity) := by simp [newClient, sendCapacity]
  obtain ⟨h1, r1, c1, -, g1, b1, k1, u1, o1⟩ :=
    registerClient_fresh E (initialHub now) 0 (by simp [initialHub]) rfl room0
  have e11 : h1.client 1 = newClient := o1 1 (by decide)
  obtain ⟨h2, r2, c2, -, g2, b2, k2, u2, o2⟩ :=
    registerClient_fresh E h1 1 (by rw [c1]; simp [initialHub]) (by rw [e11]; rfl)
      (by rw [e11]; exact room0)
  have s1 : step E (initialHub now) (Op.register 0) = .ok h1 := r1
  have s2 : step E h1 (Op.register 1) = .ok h2 := r2
  refine ⟨h2, ?_, ?_, ?_, ?_⟩
  · rw [run_cons_ok E _ _ _ _ s1, run_singleton]; exact s2
  · rw [c2, c1]; rfl
  · intro c hc
    rw [c2, c1] at hc
    have hc2 : c = 1 ∨ c = 0 := by simpa [initialHub] using hc
    rcases hc2 with rfl | rfl
    · refine ⟨k2, ?_, ?_⟩
      · rw [b2, e11]; simp [newClient, sendCapacity]
      · rw [u2, e11]; rfl
    · rw [o2 0 (by decide)]
      refine ⟨k1, ?_, ?_⟩
      · rw [b1]; simp [initialHub, newClient, sendCapacity]
      · rw [u1]; rfl
  · rw [g2, g1]; rfl

theorem uintToInt64_zero : uintToInt64 0 = 0 := by decide

theorem uintToInt64_player : uintToInt64 12345 = 12345 := by decide

theorem length_filled_full (E : Env) (now : Int) (m : List Byte) (b : Bool) :
    ¬ ((filledHub E now m b).client 0).send.buf.length < sendCapacity := by
  unfold filledHub
  rw [length_backlog_buf]
  exact lt_irrefl _

theorem mem_filled_clients (E : Env) (now : Int) (m : List Byte) (b : Bool) :
    0 ∈ (filledHub E now m b).clients := by
  simp [filledHub, backlog_clients]

/-- A reply sent to a session whose queue is open and has room: the frame is appended
and nothing else changes. -/
theorem sendOrClose_room_spec (h : Hub) (c : Nat) (m : List Byte)
    (hop : (h.client c).send.closed = false)
    (hroom : (h.client c).send.buf.length < sendCapacity) :
    ∃ h1 : Hub, h.sendOrClose c m = .ok h1 ∧
      h1.clients = h.clients ∧ h1.gameState = h.gameState ∧
      (∀ d, d ≠ c → h1.client d = h.client d) ∧
      (h1.client c).userID = (h.client c).userID ∧
      (h1.client c).username = (h.client c).username ∧
      (h1.client c).send.closed = false ∧
      (h1.client c).send.buf = (h.client c).send.buf ++ [m] := by
  refine ⟨h.setSend c { (h.client c).send with buf := (h.client c).send.buf ++ [m] },
    sendOrClose_room h c m hop hroom, rfl, rfl,
    fun d hd => setSend_client_other _ c d _ hd, ?_, ?_, ?_, ?_⟩
  · rw [setSend_client_same]
  · rw [setSend_client_same]
  · rw [setSend_client_same]; exact hop
  · rw [setSend_client_same]

theorem sample_amount_zero : ((0 : Byte).val : ℚ) ≤ 0 := by
  have h : ((0 : Byte).val) = 0 := rfl
  rw [h]
  norm_num

theorem sample_amount_pos : (0 : ℚ) < ((10 : Byte).val : ℚ) := by
  have h : ((10 : Byte).val) = 10 := rfl
  rw [h]
  norm_num

/-! ## Client sessions: the claims -/

/-- Dispatch of game messages: for every session, with or without a user id bound, a
well-formed `PlayerBet` frame with amount > 0 and a well-formed `PlayerCashout` frame
with a non-empty bet id go to `broadcastMessage`, carrying the user id of the session,
which is 0 when none is bound. -/
theorem game_messages_need_no_handshake (E : Env) (t1 t2 : Int) (h : Hub) (c : Nat)
    (payload : List Byte) (hlen : payload.length < 2 ^ 32) :
    (∀ req, E.parseBet payload = some req → 0 < req.Amount →
        handleMessage E t1 t2 h c (frame PlayerBet payload)
          = broadcastMessage h (frame PlayerBet (E.marshal (.playerBet
              { BetId := "bet_" ++ toString (h.client c).userID ++ "_" ++ toString t1,
                UserId := uintToInt64 (h.client c).userID,
                Amount := req.Amount, AutoCashout := req.AutoCashout,
                Timestamp := t2 })))) ∧
      (∀ req, E.parseCashout payload = some req → req.BetID ≠ "" →
        handleMessage E t1 t2 h c (frame PlayerCashout payload)
          = broadcastMessage h (frame PlayerCashout (E.marshal (.playerCashout
              { BetId := req.BetID, UserId := uintToInt64 (h.client c).userID,
                Multiplier := 25 / 10, Payout := 25, Timestamp := t1 })))) ∧
      ((h.client c).userID = 0 → uintToInt64 (h.client c).userID = 0) := by
  refine ⟨fun req hp ha => ?_, fun req hp hid => ?_, fun hu => ?_⟩
  · rw [handleMessage_frame_bet E t1 t2 h c payload hlen,
      handlePlayerBet_positive E t1 t2 h c payload req hp ha]
    rfl
  · rw [handleMessage_frame_cashout E t1 t2 h c payload hlen,
      handlePlayerCashout_named E t1 t2 h c payload req hp hid]
    rfl
  · rw [hu]; exact uintToInt64_zero

/-- A bet of 10 sent through a new hub by a session without a user. -/
theorem game_messages_need_no_handshake_witness :
    handleMessage sampleEnv 1 2 (initialHub 0) 0 (frame PlayerBet [10])
      = broadcastMessage (initialHub 0) (frame PlayerBet (sampleEnv.marshal (.playerBet
          { BetId := "bet_" ++ toString ((initialHub 0).client 0).userID ++ "_"
              ++ toString (1 : Int),
            UserId := uintToInt64 ((initialHub 0).client 0).userID,
            Amount := ((10 : Byte).val : ℚ), AutoCashout := 2, Timestamp := 2 }))) :=
  (game_messages_need_no_handshake sampleEnv 1 2 (initialHub 0) 0 [10] (by decide)).1
    { Amount := ((10 : Byte).val : ℚ), AutoCashout := 2 } rfl sample_amount_pos

/-- C17 on the failing input: sessions 0 and 1 are live and no handshake has bound a user
to session 0 (its user id is 0); its well-formed bet of 10 is not answered with an error
notification but broadcast: the `PlayerBet` frame reaches the queue of session 1 and its
own. -/
theorem unauthenticated_bet_is_broadcast :
    ∃ h h1, run sampleEnv [.register 0, .register 1] (initialHub 0) = .ok h ∧
      (h.client 0).userID = 0 ∧
      handleMessage sampleEnv 1 2 h 0 (frame PlayerBet [10]) = .ok h1 ∧
      (h1.client 1).send.buf = (h.client 1).send.buf ++ [frame PlayerBet [123, 125]] ∧
      (h1.client 0).send.buf = (h.client 0).send.buf ++ [frame PlayerBet [123, 125]] := by
  obtain ⟨h, hr, hc, hl, -⟩ := two_sessions sampleEnv 0
  have m0 : 0 ∈ h.clients := by rw [hc]; decide
  have m1 : 1 ∈ h.clients := by rw [hc]; decide
  have hb : handleMessage sampleEnv 1 2 h 0 (frame PlayerBet [10])
      = .ok (h.afterBroadcast (frame PlayerBet [123, 125])) := by
    rw [handleMessage_frame_bet sampleEnv 1 2 h 0 [10] (by decide),
      handlePlayerBet_positive sampleEnv 1 2 h 0 [10]
        { Amount := ((10 : Byte).val : ℚ), AutoCashout := 2 } rfl sample_amount_pos]
    exact broadcastMessage_open h _ (fun c hc => (hl c hc).1)
  refine ⟨h, _, hr, (hl 0 m0).2.2, hb, ?_, ?_⟩
  · rw [(afterBroadcast_client_room h _ 1 m1 (hl 1 m1).2.1).1]
  · rw [(afterBroadcast_client_room h _ 0 m0 (hl 0 m0).2.1).1]

/-- C18 (amended): on a session whose queue is open and not full, for every
`HandshakeRequest` payload: if the payload does not parse or its credential is missing or
empty, `handleHandshake` leaves the user id and name of the session unchanged and
enqueues one `HandshakeResponse` with status "error", user id 0 and a non-empty message;
otherwise it binds user id 12345 and name "player1" to the session and enqueues one
`HandshakeResponse` with status "success" carrying that same user id. Nothing else
changes. -/
theorem handshake_outcome (E : Env) (clock : Int) (h : Hub) (c : Nat) (payload : List Byte)
    (hop : (h.client c).send.closed = false)
    (hroom : (h.client c).send.buf.length < sendCapacity) :
    ((E.parseHandshake payload = none ∨
          ∃ req, E.parseHandshake payload = some req ∧ req.Token = "") →
        ∃ (message : String) (h1 : Hub), message ≠ "" ∧
          handleHandshake E clock h c payload = .ok h1 ∧
          h1.clients = h.clients ∧ h1.gameState = h.gameState ∧
          (∀ d, d ≠ c → h1.client d = h.client d) ∧
          (h1.client c).userID = (h.client c).userID ∧
          (h1.client c).username = (h.client c).username ∧
          (h1.client c).send.closed = false ∧
          (h1.client c).send.buf = (h.client c).send.buf ++
            [frame HandshakeResponse (E.marshal (.handshakeResponse
              { Status := "error", UserId := 0, ServerTime := clock,
                Message := message }))]) ∧
      (∀ req, E.parseHandshake payload = some req → req.Token ≠ "" →
        ∃ h1, handleHandshake E clock h c payload = .ok h1 ∧
          h1.clients = h.clients ∧ h1.gameState = h.gameState ∧
          (∀ d, d ≠ c → h1.client d = h.client d) ∧
          (h1.client c).userID = 12345 ∧ (h1.client c).username = "player1" ∧
          (h1.client c).send.closed = false ∧
          (h1.client c).send.buf = (h.client c).send.buf ++
            [frame HandshakeResponse (E.marshal (.handshakeResponse
              { Status := "success", UserId := 12345, ServerTime := clock,
                Message := "" }))]) := by
  constructor
  · have key : ∀ message : String, ∃ h1 : Hub,
        h.sendOrClose c (handshakeFrame E clock "error" 0 message) = .ok h1 ∧
        h1.clients = h.clients ∧ h1.gameState = h.gameState ∧
        (∀ d, d ≠ c → h1.client d = h.client d) ∧
        (h1.client c).userID = (h.client c).userID ∧
        (h1.client c).username = (h.client c).username ∧
        (h1.client c).send.closed = false ∧
        (h1.client c).send.buf = (h.client c).send.buf ++
          [frame HandshakeResponse (E.marshal (.handshakeResponse
            { Status := "error", UserId := 0, ServerTime := clock,
              Message := message }))] := by
      intro message
      obtain ⟨h1, r, p1, p2, p3, p4, p5, p6, p7⟩ :=
        sendOrClose_room_spec h c (handshakeFrame E clock "error" 0 message) hop hroom
      refine ⟨h1, r, p1, p2, p3, p4, p5, p6, ?_⟩
      rw [p7]
      simp only [handshakeFrame, uintToInt64_zero]
    rintro (hp | ⟨req, hp, ht⟩)
    · obtain ⟨h1, r, rest⟩ := key "握手请求格式错误"
      refine ⟨"握手请求格式错误", h1, by decide, ?_, rest⟩
      rw [handleHandshake_unparsed E clock h c payload hp, r]
    · obtain ⟨h1, r, rest⟩ := key "Token不能为空"
      refine ⟨"Token不能为空", h1, by decide, ?_, rest⟩
      rw [handleHandshake_no_token E clock h c payload req hp ht, r]
  · intro req hp ht
    have hcl : (h.bindUser c 12345 "player1").client c
        = { h.client c with userID := 12345, username := "player1" } := by
      simp [Hub.bindUser]
    have hop2 : ((h.bindUser c 12345 "player1").client c).send.closed = false := by
      rw [hcl]; exact hop
    have hroom2 : ((h.bindUser c 12345 "player1").client c).send.buf.length
        < sendCapacity := by
      rw [hcl]; exact hroom
    refine ⟨(h.bindUser c 12345 "player1").setSend c
        { ((h.bindUser c 12345 "player1").client c).send with
          buf := ((h.bindUser c 12345 "player1").client c).send.buf
            ++ [handshakeFrame E clock "success" 12345 ""] }, ?_, ?_, ?_, ?_, ?_, ?_, ?_, ?_⟩
    · rw [handleHandshake_token E clock h c payload req hp ht,
        sendOrClose_room _ c _ hop2 hroom2]
    · rfl
    · rfl
    · intro d hd
      rw [setSend_client_other _ c d _ hd]
      simp [Hub.bindUser, Function.update, hd]
    · rw [setSend_client_same, hcl]
    · rw [setSend_client_same, hcl]
    · rw [setSend_client_same, hcl]; exact hop
    · rw [setSend_client_same, hcl]
      simp only [handshakeFrame, uintToInt64_player]

/-- Witness of C18: a handshake with a token on a new session. -/
theorem handshake_outcome_witness :
    ∃ h1, handleHandshake sampleEnv 1 (initialHub 0) 0 [1] = .ok h1 ∧
      (h1.client 0).userID = 12345 ∧
      (h1.client 0).send.buf = ((initialHub 0).client 0).send.buf ++
        [frame HandshakeResponse (sampleEnv.marshal (.handshakeResponse
          { Status := "success", UserId := 12345, ServerTime := 1, Message := "" }))] := by
  obtain ⟨h1, r, -, -, -, u, -, -, b⟩ :=
    (handshake_outcome sampleEnv 1 (initialHub 0) 0 [1] rfl
      (by simp [initialHub, newClient, sendCapacity])).2
      { Token := "token", Version := "1" } rfl (by decide)
  exact ⟨h1, r, u, b⟩

/-- C18 as stated fails: on a session whose queue already holds 256 frames, a handshake
with a token binds the user but enqueues no `HandshakeResponse`; the queue is closed
instead. -/
theorem handshake_reply_dropped_on_full_queue :
    ∃ h1, handleHandshake sampleEnv 1 (filledHub sampleEnv 0 [] false) 0 [1] = .ok h1 ∧
      ((filledHub sampleEnv 0 [] false).client 0).send.closed = false ∧
      (h1.client 0).userID = 12345 ∧
      (h1.client 0).send.buf = ((filledHub sampleEnv 0 [] false).client 0).send.buf ∧
      (h1.client 0).send.closed = true := by
  have hcl : ((filledHub sampleEnv 0 [] false).bindUser 0 12345 "player1").client 0
      = { (filledHub sampleEnv 0 [] false).client 0 with
          userID := 12345, username := "player1" } := by
    simp [Hub.bindUser]
  have hfull : ¬ (((filledHub sampleEnv 0 [] false).bindUser 0 12345 "player1").client 0
      ).send.buf.length < sendCapacity := by
    rw [hcl]; exact length_filled_full sampleEnv 0 [] false
  have hop : ((((filledHub sampleEnv 0 [] false).bindUser 0 12345 "player1").client 0
      ).send.closed = false) := by
    rw [hcl]; rfl
  refine ⟨((filledHub sampleEnv 0 [] false).bindUser 0 12345 "player1").setSend 0
      { (((filledHub sampleEnv 0 [] false).bindUser 0 12345 "player1").client 0).send with
        closed := true }, ?_, rfl, ?_, ?_, ?_⟩
  · rw [handleHandshake_token sampleEnv 1 _ 0 [1] { Token := "token", Version := "1" } rfl
      (by decide), sendOrClose_full _ 0 _ hop hfull]
  · rw [setSend_client_same, hcl]
  · rw [setSend_client_same, hcl]
  · rw [setSend_client_same]

/-- C19 (amended): for every `PlayerBet` request that parses: if amount ≤ 0 and the
queue of the sender is open and not full, the sender gets one `SystemNotification` error
frame and nothing else changes, so nothing is broadcast; if amount > 0 and every live
queue is open, one `PlayerBet` frame carrying the user id of the sender and the requested
amount and autoCashout is broadcast: it is appended to the queue of every live session
that has room, the sender included when it is live, and every live session whose queue is
full is closed and removed instead. -/
theorem bet_validation_and_fanout (E : Env) (t1 t2 : Int) (h : Hub) (c : Nat)
    (payload : List Byte) (req : BetReq) (hp : E.parseBet payload = some req) :
    (req.Amount ≤ 0 → (h.client c).send.closed = false →
        (h.client c).send.buf.length < sendCapacity →
        ∃ h1, handlePlayerBet E t1 t2 h c payload = .ok h1 ∧
          h1.clients = h.clients ∧ h1.gameState = h.gameState ∧
          (∀ d, d ≠ c → h1.client d = h.client d) ∧
          (h1.client c).userID = (h.client c).userID ∧
          (h1.client c).username = (h.client c).username ∧
          (h1.client c).send.closed = false ∧
          (h1.client c).send.buf = (h.client c).send.buf ++
            [frame SystemNotification (E.marshal (.systemNotification
              { Type_ := "error", Message := "下注金额必须大于0", Timestamp := t1 }))]) ∧
      (0 < req.Amount → (∀ d ∈ h.clients, (h.client d).send.closed = false) →
        ∃ h1, handlePlayerBet E t1 t2 h c payload = .ok h1 ∧
          h1.gameState = h.gameState ∧
          (∀ d ∈ h.clients, (h.client d).send.buf.length < sendCapacity →
            d ∈ h1.clients ∧
            (h1.client d).send.closed = false ∧
            (h1.client d).send.buf = (h.client d).send.buf ++
              [frame PlayerBet (E.marshal (.playerBet
                { BetId := "bet_" ++ toString (h.client c).userID ++ "_" ++ toString t1,
                  UserId := uintToInt64 (h.client c).userID,
                  Amount := req.Amount, AutoCashout := req.AutoCashout,
                  Timestamp := t2 }))]) ∧
          (∀ d ∈ h.clients, ¬ (h.client d).send.buf.length < sendCapacity →
            d ∉ h1.clients ∧
            (h1.client d).send.closed = true ∧
            (h1.client d).send.buf = (h.client d).send.buf) ∧
          (∀ d, d ∉ h.clients → d ∉ h1.clients ∧ h1.client d = h.client d)) := by
  refine ⟨fun ha hop hroom => ?_, fun ha hop => ?_⟩
  · obtain ⟨h1, r, rest⟩ :=
      sendOrClose_room_spec h c (errorFrame E t1 "下注金额必须大于0") hop hroom
    refine ⟨h1, ?_, rest⟩
    rw [handlePlayerBet_nonpositive E t1 t2 h c payload req hp ha, r]
  · refine ⟨h.afterBroadcast (frame PlayerBet
        (E.marshal (.playerBet (playerBetEvent t1 t2 (h.client c) req)))), ?_, rfl, ?_, ?_, ?_⟩
    · rw [handlePlayerBet_positive E t1 t2 h c payload req hp ha]
      exact broadcastMessage_open h _ hop
    · intro d hd hroom
      obtain ⟨e1, e2⟩ := afterBroadcast_client_room h (frame PlayerBet
        (E.marshal (.playerBet (playerBetEvent t1 t2 (h.client c) req)))) d hd hroom
      refine ⟨e2, ?_, ?_⟩
      · rw [e1]; exact hop d hd
      · rw [e1]; rfl
    · intro d hd hfull
      obtain ⟨e1, e2⟩ := afterBroadcast_client_full h (frame PlayerBet
        (E.marshal (.playerBet (playerBetEvent t1 t2 (h.client c) req)))) d hd hfull
      refine ⟨e2, ?_, ?_⟩
      · rw [e1]
      · rw [e1]
    · intro d hd
      obtain ⟨e1, e2⟩ := afterBroadcast_client_absent h (frame PlayerBet
        (E.marshal (.playerBet (playerBetEvent t1 t2 (h.client c) req)))) d hd
      exact ⟨e2, e1⟩

/-- Witness of C19: a bet of amount 0 sent by a new session is answered with one error
frame. -/
theorem bet_validation_and_fanout_witness :
    ∃ h1, handlePlayerBet sampleEnv 1 2 (initialHub 0) 0 [0] = .ok h1 ∧
      (h1.client 0).send.buf = ((initialHub 0).client 0).send.buf ++
        [frame SystemNotification (sampleEnv.marshal (.systemNotification
          { Type_ := "error", Message := "下注金额必须大于0", Timestamp := 1 }))] := by
  obtain ⟨h1, r, -, -, -, -, -, -, b⟩ :=
    (bet_validation_and_fanout sampleEnv 1 2 (initialHub 0) 0 [0]
      { Amount := ((0 : Byte).val : ℚ), AutoCashout := 2 } rfl).1
      sample_amount_zero rfl (by simp [initialHub, newClient, sendCapacity])
  exact ⟨h1, r, b⟩

/-- C19 as stated fails: a live session whose queue already holds 256 frames sends a bet
of amount 0 and gets no error frame (its queue is closed instead); it sends a bet of
amount 10 and the `PlayerBet` frame is not enqueued to it: it is closed and removed. -/
theorem bet_replies_dropped_on_full_queue :
    (∃ h1, handlePlayerBet sampleEnv 1 2 (filledHub sampleEnv 0 [] false) 0 [0] = .ok h1 ∧
        (h1.client 0).send.buf = ((filledHub sampleEnv 0 [] false).client 0).send.buf ∧
        (h1.client 0).send.closed = true) ∧
      (∃ h1, handlePlayerBet sampleEnv 1 2 (filledHub sampleEnv 0 [] false) 0 [10] = .ok h1 ∧
        0 ∈ (filledHub sampleEnv 0 [] false).clients ∧
        0 ∉ h1.clients ∧
        (h1.client 0).send.buf = ((filledHub sampleEnv 0 [] false).client 0).send.buf) := by
  have hfull := length_filled_full sampleEnv 0 [] false
  have hin := mem_filled_clients sampleEnv 0 [] false
  constructor
  · refine ⟨(filledHub sampleEnv 0 [] false).setSend 0
        { ((filledHub sampleEnv 0 [] false).client 0).send with closed := true }, ?_, ?_, ?_⟩
    · rw [handlePlayerBet_nonpositive sampleEnv 1 2 _ 0 [0]
          { Amount := ((0 : Byte).val : ℚ), AutoCashout := 2 } rfl sample_amount_zero,
        sendOrClose_full _ 0 _ rfl hfull]
    · rw [setSend_client_same]
    · rw [setSend_client_same]
  · refine ⟨(filledHub sampleEnv 0 [] false).afterBroadcast (frame PlayerBet
        (sampleEnv.marshal (.playerBet (playerBetEvent 1 2
          ((filledHub sampleEnv 0 [] false).client 0)
          { Amount := ((10 : Byte).val : ℚ), AutoCashout := 2 })))), ?_, hin, ?_, ?_⟩
    · rw [handlePlayerBet_positive sampleEnv 1 2 _ 0 [10]
          { Amount := ((10 : Byte).val : ℚ), AutoCashout := 2 } rfl sample_amount_pos]
      apply broadcastMessage_open
      intro d hd
      have hd0 : d = 0 := by simpa [filledHub, backlog_clients] using hd
      subst hd0
      rfl
    · exact (afterBroadcast_client_full _ _ 0 hin hfull).2
    · rw [(afterBroadcast_client_full _ _ 0 hin hfull).1]

/-- C20 on the failing inputs: for every `PlayerCashout` request with a non-empty bet
id, whatever the round state of the hub, the event that is broadcast carries the fixed
multiplier 2.5 and the fixed payout 25.0, not the current multiplier of the round and
the payout at that multiplier. -/
theorem cashout_carries_fixed_multiplier (E : Env) (t1 t2 : Int) (h : Hub) (c : Nat)
    (payload : List Byte) (req : CashoutReq) (hp : E.parseCashout payload = some req)
    (hid : req.BetID ≠ "") :
    handlePlayerCashout E t1 t2 h c payload
        = broadcastMessage h (frame PlayerCashout (E.marshal (.playerCashout
            { BetId := req.BetID, UserId := uintToInt64 (h.client c).userID,
              Multiplier := 5 / 2, Payout := 25, Timestamp := t1 }))) ∧
      (h.gameState.CurrentMultiplier ≠ 5 / 2 →
        (playerCashoutEvent t1 (h.client c) req).Multiplier
          ≠ h.gameState.CurrentMultiplier) := by
  have hm : (25 / 10 : ℚ) = 5 / 2 := by norm_num
  constructor
  · rw [handlePlayerCashout_named E t1 t2 h c payload req hp hid]
    simp only [playerCashoutEvent, hm]
  · intro hne heq
    apply hne
    rw [← heq]
    exact hm

/-- Witness of C20: on a new hub the round multiplier is 1.0 and the cash-out event
carries 2.5. -/
theorem cashout_carries_fixed_multiplier_witness :
    (initialHub 0).gameState.CurrentMultiplier = 1 ∧
      (playerCashoutEvent 1 ((initialHub 0).client 0) { BetID := "bet_1" }).Multiplier
        ≠ (initialHub 0).gameState.CurrentMultiplier :=
  ⟨rfl, (cashout_carries_fixed_multiplier sampleEnv 1 2 (initialHub 0) 0 [1]
    { BetID := "bet_1" } rfl (by decide)).2
    (by show (1 : ℚ) ≠ 5 / 2
        norm_num)⟩

/-! ## Replies, reachable hubs and goroutines: the claims -/

/-- A tick on the hub whose only session has a full buffer: the status broadcast of the
tick finds no room, closes the channel and removes the session. -/
theorem tick_evicts_filled (E : Env) (now now1 clock : Int) (m : List Byte) :
    ∃ h1, gameLoopTick E now1 clock (filledHub E now m false) = .ok h1 ∧
      0 ∉ h1.clients ∧ (h1.client 0).send.closed = true := by
  have hs : (filledHub E now m false).gameState.Status = 0 := rfl
  have hd : 0 < wrapInt32 ((filledHub E now m false).gameState.NextRoundIn - 1) := by
    show 0 < wrapInt32 (10 - 1)
    decide
  have hin := mem_filled_clients E now m false
  have hfull := length_filled_full E now m false
  generalize hg : ({ (filledHub E now m false).gameState with
      LastUpdate := now1,
      NextRoundIn := wrapInt32 ((filledHub E now m false).gameState.NextRoundIn - 1) }
        : GameState) = g1
  have hop : ∀ c ∈ ({ filledHub E now m false with gameState := g1 } : Hub).clients,
      (({ filledHub E now m false with gameState := g1 } : Hub).client c).send.closed
        = false := by
    intro c hc
    have hc0 : c = 0 := by simpa [filledHub, backlog_clients] using hc
    subst hc0
    rfl
  refine ⟨({ filledHub E now m false with gameState := g1 } : Hub).afterBroadcast
      (statusFrame E g1), ?_, ?_, ?_⟩
  · unfold gameLoopTick
    rw [tick_waiting_stay E now1 clock _ hs hd, hg]
    simp only [applyEffects]
    rw [broadcastMessage_open _ _ hop]
  · exact (afterBroadcast_client_full
      ({ filledHub E now m false with gameState := g1 } : Hub) _ 0 hin hfull).2
  · rw [(afterBroadcast_client_full
      ({ filledHub E now m false with gameState := g1 } : Hub) _ 0 hin hfull).1]

/-- C21 (amended): for every inbound buffer on which `decodeMessage` fails and every
session whose outbound queue is open and holds fewer than 256 frames, `handleMessage`
appends exactly one `SystemNotification` error frame to the queue of that session, leaves
the queue open, and changes nothing else: the session set, the round state and every
other session are as before, so nothing is broadcast. -/
theorem decode_failure_is_answered (E : Env) (t1 t2 : Int) (h : Hub) (c : Nat)
    (data : List Byte) (e : DecodeError) (hd : decodeMessage data = .error e)
    (hop : (h.client c).send.closed = false)
    (hroom : (h.client c).send.buf.length < sendCapacity) :
    ∃ h1, handleMessage E t1 t2 h c data = .ok h1 ∧
      h1.clients = h.clients ∧ h1.gameState = h.gameState ∧
      (∀ d, d ≠ c → h1.client d = h.client d) ∧
      (h1.client c).userID = (h.client c).userID ∧
      (h1.client c).username = (h.client c).username ∧
      (h1.client c).send.closed = false ∧
      (h1.client c).send.buf = (h.client c).send.buf ++
        [frame SystemNotification (E.marshal (.systemNotification
          { Type_ := "error", Message := "消息格式错误", Timestamp := t1 }))] := by
  obtain ⟨h1, r, rest⟩ :=
    sendOrClose_room_spec h c (errorFrame E t1 "消息格式错误") hop hroom
  refine ⟨h1, ?_, rest⟩
  rw [handleMessage_undecodable E t1 t2 h c data e hd, r]

/-- Witness of C21: the empty buffer, received by a new session. -/
theorem decode_failure_is_answered_witness :
    decodeMessage [] = .error .tooShort ∧
      ∃ h1, handleMessage sampleEnv 1 2 (initialHub 0) 0 [] = .ok h1 ∧
        (h1.client 0).send.closed = false ∧
        (h1.client 0).send.buf = ((initialHub 0).client 0).send.buf ++
          [frame SystemNotification (sampleEnv.marshal (.systemNotification
            { Type_ := "error", Message := "消息格式错误", Timestamp := 1 }))] := by
  obtain ⟨h1, r, -, -, -, -, -, cl, b⟩ :=
    decode_failure_is_answered sampleEnv 1 2 (initialHub 0) 0 [] .tooShort rfl rfl
      (by simp [initialHub, newClient, sendCapacity])
  exact ⟨rfl, h1, r, cl, b⟩

/-- C21 as stated fails: the empty buffer does not decode, and the session whose queue
already holds 256 frames gets no error frame for it: its queue keeps the same 256 frames
and is closed. -/
theorem decode_failure_closes_full_queue :
    decodeMessage [] = .error .tooShort ∧
      ((filledHub sampleEnv 0 [] false).client 0).send.closed = false ∧
      ∃ h1, handleMessage sampleEnv 1 2 (filledHub sampleEnv 0 [] false) 0 [] = .ok h1 ∧
        (h1.client 0).send.buf = ((filledHub sampleEnv 0 [] false).client 0).send.buf ∧
        (h1.client 0).send.closed = true :=
  ⟨rfl, rfl, filledHub sampleEnv 0 [] true, handle_undecodable_filled sampleEnv 0 1 2 [],
    rfl, rfl⟩

/-- C27 on the failing inputs: the session set is also changed by operations that
`Hub.Run` does not carry out. A tick, carried out by the goroutine of `gameLoop`,
removes the session with the full buffer from the set; so does a bet handled by the
read loop of that session. -/
theorem session_set_changed_outside_run (E : Env) (now now1 clock : Int) (m : List Byte) :
    (Op.tick now1 clock).flow = .gameLoop ∧
      (Op.handle 0 1 2 (frame PlayerBet [10])).flow = .readPump 0 ∧
      0 ∈ (filledHub E now m false).clients ∧
      0 ∈ (filledHub sampleEnv 0 [] false).clients ∧
      (∃ h1, step E (filledHub E now m false) (.tick now1 clock) = .ok h1 ∧
        0 ∉ h1.clients) ∧
      (∃ h1, step sampleEnv (filledHub sampleEnv 0 [] false)
          (.handle 0 1 2 (frame PlayerBet [10])) = .ok h1 ∧ 0 ∉ h1.clients) := by
  have hfull := length_filled_full sampleEnv 0 [] false
  have hin := mem_filled_clients sampleEnv 0 [] false
  refine ⟨rfl, rfl, mem_filled_clients E now m false, hin, ?_, ?_⟩
  · obtain ⟨h1, r, hout, -⟩ := tick_evicts_filled E now now1 clock m
    exact ⟨h1, r, hout⟩
  · refine ⟨(filledHub sampleEnv 0 [] false).afterBroadcast (frame PlayerBet
        (sampleEnv.marshal (.playerBet (playerBetEvent 1 2
          ((filledHub sampleEnv 0 [] false).client 0)
          { Amount := ((10 : Byte).val : ℚ), AutoCashout := 2 })))), ?_, ?_⟩
    · show handleMessage sampleEnv 1 2 _ 0 (frame PlayerBet [10]) = _
      rw [handleMessage_frame_bet sampleEnv 1 2 _ 0 [10] (by decide),
        handlePlayerBet_positive sampleEnv 1 2 _ 0 [10]
          { Amount := ((10 : Byte).val : ℚ), AutoCashout := 2 } rfl sample_amount_pos]
      apply broadcastMessage_open
      intro d hd
      have hd0 : d = 0 := by simpa [filledHub, backlog_clients] using hd
      subst hd0
      rfl
    · exact (afterBroadcast_client_full _ _ 0 hin hfull).2

/-- C28 on the failing input: session 0 registers, 255 broadcasts fill its buffer, and
its reply to a message that does not decode closes its channel. The state reached has
session 0 in the session set with a closed queue; a broadcast that follows sends on the
closed channel and panics, and so does `sendGameStatusToClient` when session 0 is
registered again. -/
theorem registered_session_with_closed_queue (E : Env) (now t1 t2 : Int) (m : List Byte) :
    (∃ h, run E (fillOps m ++ [.handle 0 t1 t2 []]) (initialHub now) = .ok h ∧
        0 ∈ h.clients ∧ (h.client 0).send.closed = true ∧
        sendGameStatusToClient E h 0 = .error .sendOnClosedChannel) ∧
      run E (fillOps m ++ [.handle 0 t1 t2 [], .broadcast m]) (initialHub now)
        = .error .sendOnClosedChannel ∧
      run E (fillOps m ++ [.handle 0 t1 t2 [], .register 0]) (initialHub now)
        = .error .sendOnClosedChannel := by
  have hin : 0 ∈ (filledHub E now m true).clients := mem_filled_clients E now m true
  have hstep : step E (filledHub E now m false) (Op.handle 0 t1 t2 [])
      = .ok (filledHub E now m true) := handle_undecodable_filled E now t1 t2 m
  refine ⟨⟨filledHub E now m true, run_fill_then_reply E now t1 t2 m, hin, rfl, ?_⟩, ?_, ?_⟩
  · rw [sendGameStatusToClient_eq]
    exact sendOrEvict_closed _ 0 _ rfl
  · rw [run_append_ok E _ _ _ _ (run_fillOps E now m),
      run_cons_ok E _ _ _ _ hstep, run_singleton]
    exact broadcastMessage_closed _ m ⟨0, hin, rfl⟩
  · rw [run_append_ok E _ _ _ _ (run_fillOps E now m),
      run_cons_ok E _ _ _ _ hstep, run_singleton]
    exact registerClient_closed E (filledHub E now m true) 0 rfl

/-! ## Configuration: the claims -/

/-- The comparisons of `validateConfig` on a NaN amount are both false: the default
configuration with a NaN minimum bet amount is accepted. -/
theorem nan_min_bet_accepted :
    config.validateConfig
        { config.defaults with
          Game := { config.defaults.Game with MinBetAmount := .nan } } = .ok () := by
  simp [config.validateConfig, config.defaults, Float64.le]

/-- C25 (amended): `validateConfig` does not look at the waiting, betting and round
durations or at the update interval: for every configuration, whatever values these four
fields are given, the result of `validateConfig` is the same, so no configuration is
rejected on their account. -/
theorem validateConfig_ignores_timing (c : config.Config)
    (round betting waiting interval : Int) :
    config.validateConfig (c.withTiming round betting waiting interval)
        = config.validateConfig c ∧
      (config.validateConfig c = .ok () →
        config.validateConfig (c.withTiming round betting waiting interval) = .ok ()) := by
  have h : config.validateConfig (c.withTiming round betting waiting interval)
      = config.validateConfig c := rfl
  exact ⟨h, fun hc => h.trans hc⟩

/-- Witness of C25: the default configuration is accepted, and so is the default
configuration with every duration and the update interval set to 1. -/
theorem validateConfig_ignores_timing_witness :
    config.validateConfig config.defaults = .ok () ∧
      config.validateConfig (config.defaults.withTiming 1 1 1 1) = .ok () := by
  have h : config.validateConfig config.defaults = .ok () := by
    simp [config.validateConfig, config.defaults, Float64.le]
  exact ⟨h, (validateConfig_ignores_timing config.defaults 1 1 1 1).2 h⟩

/-- C25 as stated fails: the default configuration with round duration 0, betting
duration 0, waiting duration −5 and update interval 0 is accepted. -/
theorem zero_durations_accepted :
    (config.defaults.withTiming 0 0 (-5) 0).Game.RoundDuration = 0 ∧
      (config.defaults.withTiming 0 0 (-5) 0).Game.BettingDuration = 0 ∧
      (config.defaults.withTiming 0 0 (-5) 0).Game.WaitingDuration = -5 ∧
      (config.defaults.withTiming 0 0 (-5) 0).Game.UpdateInterval = 0 ∧
      config.validateConfig (config.defaults.withTiming 0 0 (-5) 0) = .ok () := by
  refine ⟨rfl, rfl, rfl, rfl, ?_⟩
  simp [config.validateConfig, config.Config.withTiming, config.defaults, Float64.le]

/-! ## The write loop: coalescing -/

/-- The loop over the `n` frames read from the length of the channel appends each of
them after a newline byte and empties the channel of them. -/
theorem drainQueued_all (closed : Bool) (q : List (List Byte)) (w : List Byte) :
    drainQueued q.length { buf := q, closed := closed } w
      = some ({ buf := [], closed := closed }, w ++ (q.map (fun m => [10] ++ m)).flatten) := by
  induction q generalizing w with
  | nil => simp [drainQueued]
  | cons m rest ih =>
    simp only [List.length_cons, drainQueued, List.map_cons, List.flatten_cons]
    rw [ih]
    simp [List.append_assoc]

theorem joinWithNewlines_cons (m : List Byte) (rest : List (List Byte)) :
    joinWithNewlines (m :: rest) = m ++ (rest.map (fun x => [10] ++ x)).flatten := by
  induction rest generalizing m with
  | nil => simp [joinWithNewlines]
  | cons a rest ih =>
    rw [joinWithNewlines, ih]
    simp [List.append_assoc]

/-- The bytes of `joinWithNewlines` are the frames in order with one newline byte
between neighbours. -/
theorem joinWithNewlines_eq_intercalate (l : List (List Byte)) :
    joinWithNewlines l = List.intercalate [10] l := by
  induction l with
  | nil => rfl
  | cons m rest ih =>
    cases rest with
    | nil => simp [joinWithNewlines, List.intercalate]
    | cons a rest =>
      rw [joinWithNewlines, ih]
      simp [List.intercalate, List.intersperse, List.append_assoc]

/-- C26 (amended): whenever the write loop takes a frame from an outbound queue that
holds `k` further frames: if the connection accepts the message (`NextWriter` and `Close`
of the writer return no error), the loop hands the connection exactly one message, whose
bytes are those `k + 1` frames in queue order joined by single newline bytes (0x0A), the
queue is left empty and the loop goes on; if `NextWriter` returns an error, nothing is
handed to the connection, the `k` further frames stay queued and the loop ends; if
`Close` returns an error, the `k + 1` frames have been taken from the queue, no message
is handed over and the loop ends. -/
theorem write_loop_coalesces (T : Transport) (closed : Bool) (message : List Byte)
    (rest : List (List Byte)) (out : List WsMessage) :
    (T.nextWriterFails = false → T.closeFails = false →
        writePumpSend T { buf := message :: rest, closed := closed } out
          = some ({ buf := [], closed := closed },
                  out ++ [.text (joinWithNewlines (message :: rest))], true)) ∧
      joinWithNewlines (message :: rest) = List.intercalate [10] (message :: rest) ∧
      (T.nextWriterFails = true →
        writePumpSend T { buf := message :: rest, closed := closed } out
          = some ({ buf := rest, closed := closed }, out, false)) ∧
      (T.nextWriterFails = false → T.closeFails = true →
        writePumpSend T { buf := message :: rest, closed := closed } out
          = some ({ buf := [], closed := closed }, out, false)) := by
  refine ⟨fun hw hc => ?_, joinWithNewlines_eq_intercalate _, fun hw => ?_, fun hw hc => ?_⟩
  · simp only [writePumpSend, hw, hc, Bool.false_eq_true, if_false]
    rw [drainQueued_all closed rest message, joinWithNewlines_cons]
  · simp only [writePumpSend, hw, if_true]
  · simp only [writePumpSend, hw, hc, Bool.false_eq_true, if_false, if_true]
    rw [drainQueued_all closed rest message]

/-- Witness of C26: three frames queued on an open channel are written as one message,
`1, 10, 2, 3, 10, 4`; with a writer whose `Close` fails they are taken and not written. -/
theorem write_loop_coalesces_witness :
    writePumpSend healthyTransport { buf := [[1], [2, 3], [4]], closed := false } []
        = some ({ buf := [], closed := false }, [.text [1, 10, 2, 3, 10, 4]], true) ∧
      writePumpSend closeFailingTransport { buf := [[1], [2, 3], [4]], closed := false } []
        = some ({ buf := [], closed := false }, [], false) := by
  have h := (write_loop_coalesces healthyTransport false [1] [[2, 3], [4]] []).1 rfl rfl
  have h2 := (write_loop_coalesces closeFailingTransport false [1] [[2, 3], [4]] []).2.2.2
    rfl rfl
  exact ⟨by simpa [joinWithNewlines] using h, h2⟩

/-- C26 as stated fails: when `NextWriter` returns an error, the frame taken from the
open queue is written nowhere: no message reaches the connection, the frame is gone
from the queue, the further frame stays queued, and the loop ends. -/
theorem frame_dropped_on_writer_error :
    writePumpSend brokenTransport { buf := [[1], [2]], closed := false } []
        = some ({ buf := [[2]], closed := false }, [], false) := by
  rfl

/-! ## Settlement: one round of the loop -/

theorem UpdateUserStats_cases (fails : Bool) (L : Ledger) (u : Nat) (a p m : ℚ) :
    ∃ L1 : Ledger,
      (UpdateUserStats fails L u a p m = .ok L1 ∨
        (UpdateUserStats fails L u a p m = .error .failed ∧ L1 = L)) ∧
      L1.bets = L.bets ∧ L1.balance = L.balance := by
  cases fails
  · cases hst : L.stats u with
    | none =>
      refine ⟨L.setStats u ⟨1, p, m, 1⟩, Or.inl ?_, rfl, rfl⟩
      simp only [UpdateUserStats, hst, Bool.false_eq_true, if_false]
    | some st =>
      refine ⟨L.setStats u ⟨st.TotalBets + 1, st.TotalWinnings + p,
        if m > st.BiggestMultiplier then m else st.BiggestMultiplier, st.GamesPlayed + 1⟩,
        Or.inl ?_, rfl, rfl⟩
      simp only [UpdateUserStats, hst, Bool.false_eq_true, if_false]
  · exact ⟨L, Or.inr ⟨by simp [UpdateUserStats], rfl⟩, rfl, rfl⟩

/-- One round of the loop: the statements it issues, the rows of `bets` it leaves and the
balances it leaves. -/
theorem settleOne_spec (D : DbRun) (m : ℚ) (b : model.Bet) (S : Settlement) :
    (settleOne D m b S).calls = S.calls ++ callsFor D m b ∧
      (settleOne D m b S).ledger.bets
        = (if D.updateFails b.BetID then S.ledger.bets
           else markRows b.BetID m (b.Amount * m) (D.clock b.BetID) S.ledger.bets) ∧
      ∀ u, (settleOne D m b S).ledger.balance u
        = S.ledger.balance u + (if D.credits b = true ∧ b.UserID = u then b.Amount * m else 0) := by
  cases hu : D.updateFails b.BetID
  · cases hc : D.creditFails b.BetID
    · obtain ⟨L1, e, hb, hbal⟩ := UpdateUserStats_cases (D.statsFails b.BetID)
        ((S.ledger.setBets (markRows b.BetID m (b.Amount * m) (D.clock b.BetID)
          S.ledger.bets)).setBalance b.UserID (S.ledger.balance b.UserID + b.Amount * m))
        b.UserID b.Amount (b.Amount * m) m
      have hso : (settleOne D m b S).calls = S.calls ++ callsFor D m b ∧
          (settleOne D m b S).ledger = L1 := by
        rcases e with e | ⟨e, rfl⟩
        · simp only [settleOne, UpdateBetCashout, AddUserBalance, hu, hc, Bool.false_eq_true,
            if_false]
          simp only [Ledger.setBets] at e ⊢
          rw [e]
          simp [callsFor, hu, hc]
        · simp only [settleOne, UpdateBetCashout, AddUserBalance, hu, hc, Bool.false_eq_true,
            if_false]
          simp only [Ledger.setBets] at e ⊢
          rw [e]
          simp [callsFor, hu, hc]
      obtain ⟨h1, h2⟩ := hso
      refine ⟨h1, ?_, ?_⟩
      · rw [h2, hb]
        simp [Ledger.setBalance, Ledger.setBets]
      · intro u
        rw [h2, hbal]
        simp only [DbRun.credits, hu, hc, Bool.not_false, Bool.and_self, true_and]
        simp only [Ledger.setBalance, Ledger.setBets, Function.update_apply]
        by_cases h : u = b.UserID
        · subst h
          simp
        · have h2 : ¬ b.UserID = u := fun e => h e.symm
          simp [h, h2]
    · refine ⟨?_, ?_, ?_⟩
      · simp [settleOne, UpdateBetCashout, AddUserBalance, hu, hc, callsFor]
      · simp [settleOne, UpdateBetCashout, AddUserBalance, hu, hc, Ledger.setBets]
      · intro u
        simp [settleOne, UpdateBetCashout, AddUserBalance, hu, hc, Ledger.setBets,
          DbRun.credits]
  · refine ⟨?_, ?_, ?_⟩
    · simp [settleOne, UpdateBetCashout, hu, callsFor]
    · simp [settleOne, UpdateBetCashout, hu]
    · intro u
      simp [settleOne, UpdateBetCashout, hu, DbRun.credits]

/-! ## Settlement: the loop -/

theorem settleBets_calls (D : DbRun) (m : ℚ) (bs : List model.Bet) (S : Settlement) :
    (settleBets D m bs S).calls = S.calls ++ (bs.map (callsFor D m)).flatten := by
  induction bs generalizing S with
  | nil => simp [settleBets]
  | cons b bs ih =>
    rw [settleBets, ih, (settleOne_spec D m b S).1]
    simp [List.append_assoc]

theorem settleBets_balance (D : DbRun) (m : ℚ) (bs : List model.Bet) (S : Settlement)
    (u : Nat) :
    (settleBets D m bs S).ledger.balance u
      = S.ledger.balance u + payoutsOf m u (bs.filter (fun b => D.credits b)) := by
  induction bs generalizing S with
  | nil => simp [settleBets, payoutsOf]
  | cons b bs ih =>
    rw [settleBets, ih, (settleOne_spec D m b S).2.2 u]
    unfold payoutsOf
    by_cases hc : D.credits b = true
    · by_cases hu : b.UserID = u
      · simp [hc, hu]
        ring
      · simp [hc, hu]
    · simp [hc]

theorem markRows_map_betID (betID : String) (m p : ℚ) (now : Int) (rows : List model.Bet) :
    (markRows betID m p now rows).map (fun b => b.BetID) = rows.map (fun b => b.BetID) := by
  unfold markRows
  rw [List.map_map]
  apply List.map_congr_left
  intro row _
  simp only [Function.comp]
  split_ifs <;> rfl

theorem rowAfter_not_mem (D : DbRun) (m : ℚ) (bs : List model.Bet) (row : model.Bet)
    (h : row.BetID ∉ bs.map (fun b => b.BetID)) : rowAfter D m bs row = row := by
  have hf : bs.find? (fun b => decide (b.BetID = row.BetID)) = none := by
    rw [List.find?_eq_none]
    intro b hb
    simp only [decide_eq_true_eq]
    intro e
    exact h (List.mem_map.mpr ⟨b, hb, e⟩)
  simp [rowAfter, hf]

theorem rowAfter_cons_same (D : DbRun) (m : ℚ) (b : model.Bet) (bs : List model.Bet)
    (row : model.Bet) (h : b.BetID = row.BetID) :
    rowAfter D m (b :: bs) row
      = if D.updateFails b.BetID then row
        else { row with Multiplier := m, Payout := b.Amount * m, Status := 1,
                        CashoutTime := some (D.clock b.BetID) } := by
  simp [rowAfter, List.find?, h]

theorem rowAfter_cons_other (D : DbRun) (m : ℚ) (b : model.Bet) (bs : List model.Bet)
    (row : model.Bet) (h : ¬ b.BetID = row.BetID) :
    rowAfter D m (b :: bs) row = rowAfter D m bs row := by
  simp [rowAfter, List.find?, h]

/-- The rows of `bets` after the loop over rows with distinct bet ids. -/
theorem settleBets_bets (D : DbRun) (m : ℚ) (bs : List model.Bet) (S : Settlement)
    (hN : (bs.map (fun b => b.BetID)).Nodup) :
    (settleBets D m bs S).ledger.bets = S.ledger.bets.map (rowAfter D m bs) := by
  induction bs generalizing S with
  | nil =>
    rw [settleBets]
    have : rowAfter D m [] = id := by
      funext row
      simp [rowAfter]
    rw [this, List.map_id]
  | cons b bs ih =>
    rw [List.map_cons, List.nodup_cons] at hN
    obtain ⟨hnot, hN2⟩ := hN
    rw [settleBets, ih _ hN2, (settleOne_spec D m b S).2.1]
    by_cases hu : D.updateFails b.BetID = true
    · rw [if_pos hu]
      apply List.map_congr_left
      intro row _
      by_cases e : b.BetID = row.BetID
      · rw [rowAfter_cons_same D m b bs row e, if_pos hu]
        apply rowAfter_not_mem
        rw [← e]
        exact hnot
      · rw [rowAfter_cons_other D m b bs row e]
    · rw [if_neg hu]
      unfold markRows
      rw [List.map_map]
      apply List.map_congr_left
      intro row _
      simp only [Function.comp]
      by_cases e : b.BetID = row.BetID
      · rw [rowAfter_cons_same D m b bs row e, if_neg hu, if_pos e.symm]
        apply rowAfter_not_mem
        show row.BetID ∉ _
        rw [← e]
        exact hnot
      · have e2 : ¬ row.BetID = b.BetID := fun x => e x.symm
        rw [rowAfter_cons_other D m b bs row e, if_neg e2]

theorem find?_filter_unique (p : model.Bet → Bool) (l : List model.Bet)
    (hN : (l.map (fun b => b.BetID)).Nodup) (row : model.Bet) (hr : row ∈ l) :
    (l.filter p).find? (fun b => decide (b.BetID = row.BetID))
      = if p row then some row else none := by
  induction l with
  | nil => cases hr
  | cons a l ih =>
    rw [List.map_cons, List.nodup_cons] at hN
    obtain ⟨hnot, hN2⟩ := hN
    rcases List.mem_cons.mp hr with rfl | hr2
    · by_cases hp : p row = true
      · simp [List.filter, hp, List.find?]
      · have hp2 : p row = false := by simpa using hp
        simp only [List.filter, hp2]
        rw [List.find?_eq_none.mpr]
        · simp
        · intro b hb
          simp only [decide_eq_true_eq]
          intro e
          apply hnot
          rw [← e]
          exact List.mem_map.mpr ⟨b, (List.mem_filter.mp hb).1, rfl⟩
    · have hne : ¬ a.BetID = row.BetID := by
        intro e
        apply hnot
        rw [e]
        exact List.mem_map.mpr ⟨row, hr2, rfl⟩
      by_cases hp : p a = true
      · simp only [List.filter, hp, List.find?, hne, decide_False]
        exact ih hN2 hr2
      · have hp2 : p a = false := by simpa using hp
        simp only [List.filter, hp2]
        exact ih hN2 hr2

/-- The ledger that `ProcessAutoCashouts` leaves when its query succeeds: the rows of
`bets`, under the unique index on the bet id. -/
theorem ProcessAutoCashouts_bets (D : DbRun) (m : ℚ) (L : Ledger) (hN : L.uniqueBetIDs)
    (hf : D.findFails = false) :
    (ProcessAutoCashouts D m L).2.ledger.bets
      = L.bets.map (fun row =>
          if autoCashoutDue m row = true ∧ D.marks row = true then
            row.cashedOut m (D.clock row.BetID)
          else row) := by
  have hN2 : ((L.bets.filter (autoCashoutDue m)).map (fun b => b.BetID)).Nodup :=
    List.Nodup.sublist (List.Sublist.map _ (List.filter_sublist _)) hN
  simp only [ProcessAutoCashouts, hf, Bool.false_eq_true, if_false]
  rw [settleBets_bets D m _ _ hN2]
  apply List.map_congr_left
  intro row hr
  unfold rowAfter
  rw [find?_filter_unique (autoCashoutDue m) L.bets hN row hr]
  by_cases hd : autoCashoutDue m row = true
  · by_cases hu : D.updateFails row.BetID = true
    · simp [hd, hu, DbRun.marks]
    · simp [hd, hu, DbRun.marks, model.Bet.cashedOut]
  · simp [hd]

theorem ProcessAutoCashouts_balance (D : DbRun) (m : ℚ) (L : Ledger)
    (hf : D.findFails = false) (u : Nat) :
    (ProcessAutoCashouts D m L).2.ledger.balance u
      = L.balance u + payoutsOf m u
          (L.bets.filter (fun b => autoCashoutDue m b && D.credits b)) := by
  simp only [ProcessAutoCashouts, hf, Bool.false_eq_true, if_false]
  rw [settleBets_balance, List.filter_filter]
  congr 3
  funext b
  exact Bool.and_comm _ _

theorem ProcessAutoCashouts_calls (D : DbRun) (m : ℚ) (L : Ledger)
    (hf : D.findFails = false) :
    (ProcessAutoCashouts D m L).2.calls
      = ((L.bets.filter (autoCashoutDue m)).map (callsFor D m)).flatten := by
  simp only [ProcessAutoCashouts, hf, Bool.false_eq_true, if_false]
  rw [settleBets_calls]
  rfl

/-! ## Settlement: two calls in a row, and the statements issued -/

theorem cashedOut_not_due (m m2 : ℚ) (now : Int) (b : model.Bet) :
    autoCashoutDue m2 (b.cashedOut m now) = false := by
  simp [autoCashoutDue, model.Bet.cashedOut]

theorem reliable_bets (clock : String → Int) (m : ℚ) (L : Ledger) (hN : L.uniqueBetIDs) :
    (ProcessAutoCashouts (reliableDb clock) m L).2.ledger.bets
      = L.bets.map (fun b =>
          if autoCashoutDue m b = true then b.cashedOut m (clock b.BetID) else b) := by
  rw [ProcessAutoCashouts_bets (reliableDb clock) m L hN rfl]
  apply List.map_congr_left
  intro row _
  simp [DbRun.marks, reliableDb]

theorem map_settled_betID (f : model.Bet → model.Bet) (l : List model.Bet)
    (hf : ∀ b, (f b).BetID = b.BetID) :
    (l.map f).map (fun b => b.BetID) = l.map (fun b => b.BetID) := by
  rw [List.map_map]
  apply List.map_congr_left
  intro b _
  exact hf b

theorem reliable_unique (clock : String → Int) (m : ℚ) (L : Ledger) (hN : L.uniqueBetIDs) :
    (ProcessAutoCashouts (reliableDb clock) m L).2.ledger.uniqueBetIDs := by
  unfold Ledger.uniqueBetIDs
  rw [reliable_bets clock m L hN, map_settled_betID]
  · exact hN
  · intro b
    split_ifs <;> rfl

theorem filter_due_after_settled (clock : String → Int) (m m2 : ℚ)
    (p : model.Bet → Bool)
    (hp : ∀ b : model.Bet, autoCashoutDue m b = false → p b = autoCashoutDue m2 b)
    (hq : ∀ (b : model.Bet) (now : Int), p (b.cashedOut m now) = false)
    (l : List model.Bet) :
    (l.map (fun b =>
        if autoCashoutDue m b = true then b.cashedOut m (clock b.BetID) else b)).filter p
      = l.filter (fun b => !autoCashoutDue m b && autoCashoutDue m2 b) := by
  induction l with
  | nil => rfl
  | cons a l ih =>
    rw [List.map_cons, List.filter_cons, List.filter_cons, ih]
    by_cases hd : autoCashoutDue m a = true
    · simp [hd, hq]
    · have hd2 : autoCashoutDue m a = false := by simpa using hd
      simp [hd2, hp a hd2]

theorem cashoutTargets_callsFor (D : DbRun) (m : ℚ) (bs : List model.Bet) :
    ((bs.map (callsFor D m)).flatten).filterMap DbCall.cashoutTarget
      = bs.map (fun b => b.BetID) := by
  induction bs with
  | nil => rfl
  | cons b bs ih =>
    rw [List.map_cons, List.flatten_cons, List.filterMap_append, ih]
    cases hu : D.updateFails b.BetID <;> cases hc : D.creditFails b.BetID <;>
      simp [callsFor, hu, hc, DbCall.cashoutTarget]

theorem credits_callsFor (D : DbRun) (m : ℚ) (bs : List model.Bet) :
    ((bs.map (callsFor D m)).flatten).filterMap DbCall.credit
      = (bs.filter (fun b => D.marks b)).map (fun b => (b.UserID, b.Amount * m)) := by
  induction bs with
  | nil => rfl
  | cons b bs ih =>
    rw [List.map_cons, List.flatten_cons, List.filterMap_append, ih]
    cases hu : D.updateFails b.BetID <;> cases hc : D.creditFails b.BetID <;>
      simp [callsFor, hu, hc, DbCall.credit, DbRun.marks]

/-! ## Settlement: the claims -/

/-- The rows of `bets` after a call in which no update fails. -/
theorem bets_when_updates_succeed (D : DbRun) (m : ℚ) (L : Ledger) (hN : L.uniqueBetIDs)
    (hf : D.findFails = false) (hu : ∀ betID, D.updateFails betID = false) :
    (ProcessAutoCashouts D m L).2.ledger.bets
      = L.bets.map (fun b =>
          if autoCashoutDue m b = true then b.cashedOut m (D.clock b.BetID) else b) := by
  rw [ProcessAutoCashouts_bets D m L hN hf]
  apply List.map_congr_left
  intro row _
  simp [DbRun.marks, hu]

/-- Two calls in a row on a database whose statements all succeed: the second call
leaves the bets settled by the first one as they are, and each settled bet has been
credited once. -/
theorem no_resettlement (clock1 clock2 : String → Int) (m m2 : ℚ) (L : Ledger)
    (hN : L.uniqueBetIDs) :
    (ProcessAutoCashouts (reliableDb clock1) m L).2.ledger.bets
        = L.bets.map (fun b =>
            if autoCashoutDue m b = true then b.cashedOut m (clock1 b.BetID) else b) ∧
      (ProcessAutoCashouts (reliableDb clock2) m2
          (ProcessAutoCashouts (reliableDb clock1) m L).2.ledger).2.ledger.bets
        = L.bets.map (fun b =>
            if autoCashoutDue m b = true then b.cashedOut m (clock1 b.BetID)
            else if autoCashoutDue m2 b = true then b.cashedOut m2 (clock2 b.BetID)
            else b) ∧
      ∀ u, (ProcessAutoCashouts (reliableDb clock2) m2
          (ProcessAutoCashouts (reliableDb clock1) m L).2.ledger).2.ledger.balance u
        = L.balance u + payoutsOf m u (L.bets.filter (autoCashoutDue m))
          + payoutsOf m2 u
              (L.bets.filter (fun b => !autoCashoutDue m b && autoCashoutDue m2 b)) := by
  have h1 := reliable_bets clock1 m L hN
  have hN1 := reliable_unique clock1 m L hN
  refine ⟨h1, ?_, ?_⟩
  · rw [reliable_bets clock2 m2 _ hN1, h1, List.map_map]
    apply List.map_congr_left
    intro b _
    simp only [Function.comp]
    by_cases hd : autoCashoutDue m b = true
    · simp only [hd, if_true, cashedOut_not_due, Bool.false_eq_true, if_false]
    · have hd2 : autoCashoutDue m b = false := by simpa using hd
      simp [hd2]
  · intro u
    rw [ProcessAutoCashouts_balance (reliableDb clock2) m2 _ rfl u,
      ProcessAutoCashouts_balance (reliableDb clock1) m L rfl u, h1,
      filter_due_after_settled clock1 m m2 _
        (fun b _ => by simp [DbRun.credits, reliableDb])
        (fun b now => by simp [DbRun.credits, reliableDb, cashedOut_not_due]) L.bets]
    congr 3
    apply List.filter_congr
    intro b _
    simp [DbRun.credits, reliableDb]

/-- C22 (amended): for every ledger state, every multiplier `m` and every outcome of the
ledger statements: when the query fails, `ProcessAutoCashouts(m)` returns the error and
settles nothing; otherwise it returns no error and settles exactly the open bets whose
auto cash-out threshold is at most `m` and whose update succeeds (a threshold is a
stored value greater than 0; a bet placed without one stores 0): each of them becomes
cashed out (status 1) with recorded multiplier `m` and payout `Amount × m`, and every
other bet is left as it was. Bet ids are distinct, as the unique index requires. -/
theorem auto_cashout_settles_due_bets (D : DbRun) (m : ℚ) (L : Ledger)
    (hN : L.uniqueBetIDs) :
    (D.findFails = true →
        (ProcessAutoCashouts D m L).1 = some .failed ∧
        (ProcessAutoCashouts D m L).2.ledger.bets = L.bets) ∧
      (D.findFails = false →
        (ProcessAutoCashouts D m L).1 = none ∧
        (ProcessAutoCashouts D m L).2.ledger.bets
          = L.bets.map (fun b =>
              if (b.Status = 0 ∧ 0 < b.AutoCashout ∧ b.AutoCashout ≤ m) ∧
                  D.updateFails b.BetID = false then
                { b with Status := 1, Multiplier := m, Payout := b.Amount * m,
                         CashoutTime := some (D.clock b.BetID) }
              else b)) := by
  refine ⟨fun hf => ?_, fun hf => ?_⟩
  · simp [ProcessAutoCashouts, hf]
  · refine ⟨by simp [ProcessAutoCashouts, hf], ?_⟩
    rw [ProcessAutoCashouts_bets D m L hN hf]
    apply List.map_congr_left
    intro b _
    simp only [autoCashoutDue, decide_eq_true_eq, gt_iff_lt, model.Bet.cashedOut,
      DbRun.marks, Bool.not_eq_true']

/-- Witness of C22, Scenario D: when no statement fails, the open bet with stake 10 and
threshold 2.00 is settled at `m = 2.01` with payout 20.10. -/
theorem auto_cashout_settles_due_bets_witness :
    scenarioDLedger.uniqueBetIDs ∧
      (ProcessAutoCashouts (reliableDb sampleTimes) (201 / 100) scenarioDLedger).2.ledger.bets
        = [{ scenarioDBet with Status := 1, Multiplier := 201 / 100, Payout := 201 / 10,
                               CashoutTime := some 1000 }] := by
  have hN : scenarioDLedger.uniqueBetIDs := by
    simp [Ledger.uniqueBetIDs, scenarioDLedger]
  refine ⟨hN, ?_⟩
  rw [((auto_cashout_settles_due_bets (reliableDb sampleTimes) (201 / 100) scenarioDLedger
    hN).2 rfl).2]
  simp only [scenarioDLedger, scenarioDBet, sampleTimes, reliableDb, List.map_cons,
    List.map_nil]
  norm_num

/-- C22 as stated fails: the bet of Scenario D is open with threshold 2.00, which is at
most `m = 2.01`; when its update fails, `ProcessAutoCashouts(2.01)` returns no error and
leaves it open, and when the query fails, `ProcessAutoCashouts(2.01)` returns the error
and leaves it open. -/
theorem due_bet_not_settled_on_failure :
    autoCashoutDue (201 / 100) scenarioDBet = true ∧
      (ProcessAutoCashouts firstUpdateFailingDb (201 / 100) scenarioDLedger).1 = none ∧
      (ProcessAutoCashouts firstUpdateFailingDb (201 / 100) scenarioDLedger).2.ledger.bets
        = [scenarioDBet] ∧
      (ProcessAutoCashouts queryFailingDb (201 / 100) scenarioDLedger).1 = some .failed ∧
      (ProcessAutoCashouts queryFailingDb (201 / 100) scenarioDLedger).2.ledger.bets
        = [scenarioDBet] := by
  have hd : autoCashoutDue (201 / 100) scenarioDBet = true := by
    simp only [autoCashoutDue, scenarioDBet, decide_eq_true_eq]
    norm_num
  refine ⟨hd, rfl, ?_, rfl, rfl⟩
  have hfil : scenarioDLedger.bets.filter (autoCashoutDue (201 / 100)) = [scenarioDBet] := by
    show List.filter _ [scenarioDBet] = _
    simp [List.filter, hd]
  simp only [ProcessAutoCashouts, firstUpdateFailingDb, Bool.false_eq_true, if_false, hfil,
    settleBets]
  rw [(settleOne_spec _ _ _ _).2.1]
  simp [scenarioDBet, scenarioDLedger]

/-- C23 on the failing inputs: when `AddUserBalance` fails during the first call, the
bets that the first call settles keep the status, multiplier and payout it gave them
through a second call on a database whose statements succeed, and neither call credits
their owners: the balance of every user after both calls is the balance before plus the
payouts of the bets settled by the second call only. -/
theorem settled_bet_never_credited (clock1 clock2 : String → Int) (m m2 : ℚ) (L : Ledger)
    (hN : L.uniqueBetIDs) :
    (ProcessAutoCashouts (creditFailingDb clock1) m L).1 = none ∧
      (ProcessAutoCashouts (reliableDb clock2) m2
          (ProcessAutoCashouts (creditFailingDb clock1) m L).2.ledger).1 = none ∧
      (ProcessAutoCashouts (reliableDb clock2) m2
          (ProcessAutoCashouts (creditFailingDb clock1) m L).2.ledger).2.ledger.bets
        = L.bets.map (fun b =>
            if autoCashoutDue m b = true then b.cashedOut m (clock1 b.BetID)
            else if autoCashoutDue m2 b = true then b.cashedOut m2 (clock2 b.BetID)
            else b) ∧
      ∀ u, (ProcessAutoCashouts (reliableDb clock2) m2
          (ProcessAutoCashouts (creditFailingDb clock1) m L).2.ledger).2.ledger.balance u
        = L.balance u + payoutsOf m2 u
            (L.bets.filter (fun b => !autoCashoutDue m b && autoCashoutDue m2 b)) := by
  have h1 : (ProcessAutoCashouts (creditFailingDb clock1) m L).2.ledger.bets
      = L.bets.map (fun b =>
          if autoCashoutDue m b = true then b.cashedOut m (clock1 b.BetID) else b) :=
    bets_when_updates_succeed (creditFailingDb clock1) m L hN rfl (fun _ => rfl)
  have hN1 : (ProcessAutoCashouts (creditFailingDb clock1) m L).2.ledger.uniqueBetIDs := by
    unfold Ledger.uniqueBetIDs
    rw [h1, map_settled_betID]
    · exact hN
    · intro b
      split_ifs <;> rfl
  refine ⟨rfl, rfl, ?_, ?_⟩
  · rw [reliable_bets clock2 m2 _ hN1, h1, List.map_map]
    apply List.map_congr_left
    intro b _
    simp only [Function.comp]
    by_cases hd : autoCashoutDue m b = true
    · simp only [hd, if_true, cashedOut_not_due, Bool.false_eq_true, if_false]
    · have hd2 : autoCashoutDue m b = false := by simpa using hd
      simp [hd2]
  · intro u
    rw [ProcessAutoCashouts_balance (reliableDb clock2) m2 _ rfl u,
      ProcessAutoCashouts_balance (creditFailingDb clock1) m L rfl u, h1,
      filter_due_after_settled clock1 m m2 _
        (fun b _ => by simp [DbRun.credits, reliableDb])
        (fun b now => by simp [DbRun.credits, reliableDb, cashedOut_not_due]) L.bets]
    have h0 : payoutsOf m u (L.bets.filter
        (fun b => autoCashoutDue m b && (creditFailingDb clock1).credits b)) = 0 := by
      simp [DbRun.credits, creditFailingDb, payoutsOf]
    rw [h0, add_zero]

/-- Witness of C23, Scenario D: `AddUserBalance` fails in the call at 2.01; after the
call at 2.02 the bet is cashed out at 2.01 with payout 20.10 and the balance of its
owner is still 100. -/
theorem settled_bet_never_credited_witness :
    scenarioDLedger.uniqueBetIDs ∧
      (ProcessAutoCashouts (reliableDb sampleTimes) (202 / 100)
          (ProcessAutoCashouts (creditFailingDb sampleTimes) (201 / 100)
            scenarioDLedger).2.ledger).2.ledger.bets
        = [{ scenarioDBet with Status := 1, Multiplier := 201 / 100, Payout := 201 / 10,
                               CashoutTime := some 1000 }] ∧
      (ProcessAutoCashouts (reliableDb sampleTimes) (202 / 100)
          (ProcessAutoCashouts (creditFailingDb sampleTimes) (201 / 100)
            scenarioDLedger).2.ledger).2.ledger.balance 7 = 100 ∧
      scenarioDLedger.balance 7 = 100 := by
  have hN : scenarioDLedger.uniqueBetIDs := by
    simp [Ledger.uniqueBetIDs, scenarioDLedger]
  obtain ⟨-, -, h2, h3⟩ :=
    settled_bet_never_credited sampleTimes sampleTimes (201 / 100) (202 / 100)
      scenarioDLedger hN
  refine ⟨hN, ?_, ?_, rfl⟩
  · rw [h2]
    simp only [scenarioDLedger, scenarioDBet, sampleTimes, List.map_cons, List.map_nil,
      autoCashoutDue, model.Bet.cashedOut]
    norm_num
  · rw [h3]
    simp only [scenarioDLedger, scenarioDBet, payoutsOf, autoCashoutDue, List.filter]
    norm_num

/-- C24: for every ledger with distinct bet ids, every multiplier and every pattern of
failures of the statements issued for the bets, when the query has returned the due
bets, `ProcessAutoCashouts` returns no error; it calls `UpdateBetCashout` exactly once
for each due bet, in order, and `AddUserBalance` exactly once for each due bet whose
update succeeded, so that no failed bet is tried again; each due bet is cashed out
exactly when its own update succeeds, whatever happens to the other bets; and the
balance of each user rises by the payouts of the user's due bets whose own update and
credit both succeed. -/
theorem settlement_failures_are_isolated (D : DbRun) (m : ℚ) (L : Ledger)
    (hN : L.uniqueBetIDs) (hf : D.findFails = false) :
    (ProcessAutoCashouts D m L).1 = none ∧
      (ProcessAutoCashouts D m L).2.calls.filterMap DbCall.cashoutTarget
        = (L.bets.filter (autoCashoutDue m)).map (fun b => b.BetID) ∧
      (ProcessAutoCashouts D m L).2.calls.filterMap DbCall.credit
        = ((L.bets.filter (autoCashoutDue m)).filter
            (fun b => !D.updateFails b.BetID)).map (fun b => (b.UserID, b.Amount * m)) ∧
      (ProcessAutoCashouts D m L).2.ledger.bets
        = L.bets.map (fun b =>
            if autoCashoutDue m b = true ∧ D.updateFails b.BetID = false then
              b.cashedOut m (D.clock b.BetID)
            else b) ∧
      ∀ u, (ProcessAutoCashouts D m L).2.ledger.balance u
        = L.balance u + payoutsOf m u (L.bets.filter (fun b =>
            autoCashoutDue m b && (!D.updateFails b.BetID && !D.creditFails b.BetID))) := by
  refine ⟨by simp [ProcessAutoCashouts, hf], ?_, ?_, ?_, ?_⟩
  · rw [ProcessAutoCashouts_calls D m L hf, cashoutTargets_callsFor]
  · rw [ProcessAutoCashouts_calls D m L hf, credits_callsFor]
    rfl
  · rw [ProcessAutoCashouts_bets D m L hN hf]
    apply List.map_congr_left
    intro b _
    simp [DbRun.marks]
  · intro u
    rw [ProcessAutoCashouts_balance D m L hf u]
    rfl

/-- Witness of C24: of two due bets, the update of the first one fails; the call returns
no error, `UpdateBetCashout` has been called once for each bet, the first bet is still
open and its owner's balance is still 100, and the second bet is cashed out at 2.01
with payout 8.04, which its owner has received. -/
theorem settlement_failures_are_isolated_witness :
    twoBetsLedger.uniqueBetIDs ∧ firstUpdateFailingDb.findFails = false ∧
      (ProcessAutoCashouts firstUpdateFailingDb (201 / 100) twoBetsLedger).1 = none ∧
      (ProcessAutoCashouts firstUpdateFailingDb (201 / 100) twoBetsLedger).2.calls.filterMap
          DbCall.cashoutTarget = ["bet_7_100", "bet_9_100"] ∧
      (ProcessAutoCashouts firstUpdateFailingDb (201 / 100) twoBetsLedger).2.ledger.bets
        = [scenarioDBet,
            { BetID := "bet_9_100", UserID := 9, GameID := "crash_001", RoundID := "",
              Amount := 4, AutoCashout := 3 / 2, Multiplier := 201 / 100,
              Payout := 804 / 100, Status := 1, CashoutTime := some 1000 }] ∧
      (ProcessAutoCashouts firstUpdateFailingDb (201 / 100) twoBetsLedger).2.ledger.balance 7
        = 100 ∧
      (ProcessAutoCashouts firstUpdateFailingDb (201 / 100) twoBetsLedger).2.ledger.balance 9
        = 100 + 804 / 100 := by
  have hN : twoBetsLedger.uniqueBetIDs := by
    simp [Ledger.uniqueBetIDs, twoBetsLedger, scenarioDBet]
  obtain ⟨h1, h2, -, h4, h5⟩ :=
    settlement_failures_are_isolated firstUpdateFailingDb (201 / 100) twoBetsLedger hN rfl
  have hne : ¬ ("bet_9_100" = "bet_7_100") := by decide
  refine ⟨hN, rfl, h1, ?_, ?_, ?_, ?_⟩
  · rw [h2]
    simp only [twoBetsLedger, scenarioDBet, autoCashoutDue, List.filter]
    norm_num
  · rw [h4]
    simp only [twoBetsLedger, scenarioDBet, firstUpdateFailingDb, autoCashoutDue,
      model.Bet.cashedOut, List.map_cons, List.map_nil]
    norm_num [hne]
  · rw [h5 7]
    simp only [twoBetsLedger, scenarioDBet, firstUpdateFailingDb, autoCashoutDue, payoutsOf,
      List.filter]
    norm_num [hne]
  · rw [h5 9]
    simp only [twoBetsLedger, scenarioDBet, firstUpdateFailingDb, autoCashoutDue, payoutsOf,
      List.filter]
    norm_num [hne]

/-- C30 on the failing inputs: on a database on which `AddUserBalance` fails and the
other statements succeed, for every ledger with distinct bet ids, `ProcessAutoCashouts`
returns no error, marks every due bet cashed out with payout `Amount × m`, and leaves
every balance as it was: each of these bets is cashed out without the matching
credit. -/
theorem cashed_out_without_credit (clock : String → Int) (m : ℚ) (L : Ledger)
    (hN : L.uniqueBetIDs) :
    (ProcessAutoCashouts (creditFailingDb clock) m L).1 = none ∧
      (ProcessAutoCashouts (creditFailingDb clock) m L).2.ledger.bets
        = L.bets.map (fun b =>
            if autoCashoutDue m b = true then b.cashedOut m (clock b.BetID) else b) ∧
      ∀ u, (ProcessAutoCashouts (creditFailingDb clock) m L).2.ledger.balance u
        = L.balance u := by
  refine ⟨rfl, ?_, ?_⟩
  · rw [ProcessAutoCashouts_bets (creditFailingDb clock) m L hN rfl]
    apply List.map_congr_left
    intro b _
    simp [DbRun.marks, creditFailingDb]
  · intro u
    rw [ProcessAutoCashouts_balance (creditFailingDb clock) m L rfl u]
    simp [DbRun.credits, creditFailingDb, payoutsOf]

/-- Witness of C30, on Scenario D: the bet with stake 10 is marked cashed out at 2.01
with payout 20.10 while the balance of its owner is still 100. -/
theorem cashed_out_without_credit_witness :
    scenarioDLedger.uniqueBetIDs ∧
      (ProcessAutoCashouts (creditFailingDb sampleTimes) (201 / 100)
          scenarioDLedger).2.ledger.bets
        = [{ scenarioDBet with Status := 1, Multiplier := 201 / 100, Payout := 201 / 10,
                               CashoutTime := some 1000 }] ∧
      (ProcessAutoCashouts (creditFailingDb sampleTimes) (201 / 100)
          scenarioDLedger).2.ledger.balance 7 = 100 ∧
      scenarioDLedger.balance 7 = 100 := by
  have hN : scenarioDLedger.uniqueBetIDs := by
    simp [Ledger.uniqueBetIDs, scenarioDLedger]
  obtain ⟨-, h2, h3⟩ := cashed_out_without_credit sampleTimes (201 / 100) scenarioDLedger hN
  refine ⟨hN, ?_, ?_, rfl⟩
  · rw [h2]
    simp only [scenarioDLedger, scenarioDBet, sampleTimes, List.map_cons, List.map_nil,
      autoCashoutDue, model.Bet.cashedOut]
    norm_num
  · rw [h3 7]
    rfl

/-! ## The tick on the hub -/

/-- The calls of a tick are broadcasts: one or two frames, the last of which is the status
frame of the state the tick leaves. -/
theorem tick_effects_frames (E : Env) (now clock : Int) (g : GameState) :
    ∃ pre : List (List Byte),
      (updateGameState E now clock g).2
        = (pre ++ [statusFrame E (updateGameState E now clock g).1]).map Effect.broadcast ∧
      pre.length ≤ 1 := by
  by_cases h0 : g.Status = 0
  · rcases lt_or_le 0 (wrapInt32 (g.NextRoundIn - 1)) with hd | hd
    · rw [tick_waiting_stay E now clock g h0 hd]
      exact ⟨[], rfl, by simp⟩
    · rw [tick_waiting_start E now clock g h0 hd]
      exact ⟨[gameStartFrame E clock _], rfl, by simp⟩
  · by_cases h1 : g.Status = 1
    · rcases lt_or_le 0 (wrapInt32 (g.NextRoundIn - 1)) with hd | hd
      · rw [tick_running_stay E now clock g h1 hd]
        exact ⟨[], rfl, by simp⟩
      · rw [tick_running_end E now clock g h1 hd]
        exact ⟨[gameEndFrame E clock _], rfl, by simp⟩
    · by_cases h2 : g.Status = 2
      · rw [tick_ended E now clock g h2]
        exact ⟨[], rfl, by simp⟩
      · rw [tick_other E now clock g h0 h1 h2]
        exact ⟨[], rfl, by simp⟩

/-- A tick on a hub in which a live session has a closed queue panics in its first
broadcast. -/
theorem gameLoopTick_closed (E : Env) (now clock : Int) (h : Hub)
    (hcl : ∃ c ∈ h.clients, (h.client c).send.closed = true) :
    gameLoopTick E now clock h = .error .sendOnClosedChannel := by
  obtain ⟨pre, he, -⟩ := tick_effects_frames E now clock h.gameState
  unfold gameLoopTick
  rw [he]
  cases pre with
  | nil =>
    simp only [List.nil_append, List.map_cons, List.map_nil, applyEffects]
    rw [broadcastMessage_closed
      ({ h with gameState := (updateGameState E now clock h.gameState).1 } : Hub) _ hcl]
  | cons f rest =>
    simp only [List.cons_append, List.map_cons, applyEffects]
    rw [broadcastMessage_closed
      ({ h with gameState := (updateGameState E now clock h.gameState).1 } : Hub) _ hcl]

theorem afterBroadcast_open (h : Hub) (m : List Byte)
    (hop : ∀ c ∈ h.clients, (h.client c).send.closed = false) :
    ∀ c ∈ (h.afterBroadcast m).clients, ((h.afterBroadcast m).client c).send.closed = false := by
  intro c hc
  have hc2 : c ∈ h.clients ∧ (h.client c).send.buf.length < sendCapacity := by
    simpa [Hub.afterBroadcast] using hc
  rw [(afterBroadcast_client_room h m c hc2.1 hc2.2).1]
  exact hop c hc2.1

/-- A list of broadcasts on a hub whose live queues are all open: every live session
with room for all the frames receives them in order and stays live; no session is added;
every live queue is open afterwards. -/
theorem applyEffects_open (fs : List (List Byte)) :
    ∀ h : Hub, (∀ c ∈ h.clients, (h.client c).send.closed = false) →
      ∃ h1, applyEffects (fs.map Effect.broadcast) h = .ok h1 ∧
        h1.gameState = h.gameState ∧
        (∀ c ∈ h1.clients, (h1.client c).send.closed = false) ∧
        (∀ c ∈ h1.clients, c ∈ h.clients) ∧
        ∀ c ∈ h.clients, (h.client c).send.buf.length + fs.length ≤ sendCapacity →
          c ∈ h1.clients ∧ (h1.client c).send.buf = (h.client c).send.buf ++ fs := by
  induction fs with
  | nil =>
    intro h hop
    exact ⟨h, rfl, rfl, hop, fun c hc => hc, fun c hc _ => ⟨hc, by simp⟩⟩
  | cons f fs ih =>
    intro h hop
    obtain ⟨h1, r, g1, o1, s1, b1⟩ := ih (h.afterBroadcast f) (afterBroadcast_open h f hop)
    refine ⟨h1, ?_, ?_, o1, ?_, ?_⟩
    · simp only [List.map_cons, applyEffects]
      rw [broadcastMessage_open h f hop]
      exact r
    · rw [g1]; rfl
    · intro c hc
      have hc2 : c ∈ h.clients ∧ (h.client c).send.buf.length < sendCapacity := by
        simpa [Hub.afterBroadcast] using s1 c hc
      exact hc2.1
    · intro c hc hroom
      have hr1 : (h.client c).send.buf.length < sendCapacity := by
        simp only [List.length_cons] at hroom
        omega
      obtain ⟨e1, e2⟩ := afterBroadcast_client_room h f c hc hr1
      have hroom2 : ((h.afterBroadcast f).client c).send.buf.length + fs.length
          ≤ sendCapacity := by
        rw [e1]
        simp only [List.length_append, List.length_cons, List.length_nil] at hroom ⊢
        omega
      obtain ⟨k1, k2⟩ := b1 c e2 hroom2
      refine ⟨k1, ?_⟩
      rw [k2, e1]
      simp

/-- A tick on a hub whose live queues are all open: the round state becomes the state
that `updateGameState` leaves, and every live session with room for two more frames
receives the frames of the tick, in order, the status frame of the new state last. -/
theorem gameLoopTick_open (E : Env) (now clock : Int) (h : Hub)
    (hop : ∀ c ∈ h.clients, (h.client c).send.closed = false) :
    ∃ (h1 : Hub) (pre : List (List Byte)),
      gameLoopTick E now clock h = .ok h1 ∧ pre.length ≤ 1 ∧
      (updateGameState E now clock h.gameState).2
        = (pre ++ [statusFrame E (updateGameState E now clock h.gameState).1]).map
            Effect.broadcast ∧
      h1.gameState = (updateGameState E now clock h.gameState).1 ∧
      (∀ c ∈ h1.clients, (h1.client c).send.closed = false) ∧
      (∀ c ∈ h1.clients, c ∈ h.clients) ∧
      ∀ c ∈ h.clients, (h.client c).send.buf.length + 2 ≤ sendCapacity →
        c ∈ h1.clients ∧
        (h1.client c).send.buf = (h.client c).send.buf ++ pre
          ++ [statusFrame E (updateGameState E now clock h.gameState).1] := by
  obtain ⟨pre, he, hl⟩ := tick_effects_frames E now clock h.gameState
  obtain ⟨h1, r, g1, o1, s1, b1⟩ :=
    applyEffects_open (pre ++ [statusFrame E (updateGameState E now clock h.gameState).1])
      ({ h with gameState := (updateGameState E now clock h.gameState).1 } : Hub) hop
  refine ⟨h1, pre, ?_, hl, he, g1, o1, s1, ?_⟩
  · unfold gameLoopTick
    rw [he]
    exact r
  · intro c hc hroom
    have hroom2 : (h.client c).send.buf.length
        + (pre ++ [statusFrame E (updateGameState E now clock h.gameState).1]).length
          ≤ sendCapacity := by
      simp only [List.length_append, List.length_cons, List.length_nil]
      omega
    obtain ⟨k1, k2⟩ := b1 c hc hroom2
    refine ⟨k1, ?_⟩
    rw [k2]
    simp [List.append_assoc]

/-- A waiting tick that does not end the wait, on a hub whose only session has room:
the session receives one frame and the countdown goes down by one. -/
theorem tick_sole (E : Env) (now clock : Int) (h : Hub) (n : Nat) (cd : Int)
    (hs : h.soleSession n cd) (hn : n < sendCapacity) (h1 : 1 < cd) (h2 : cd < 2 ^ 31) :
    ∃ h1, gameLoopTick E now clock h = .ok h1 ∧ h1.soleSession (n + 1) (cd - 1) := by
  obtain ⟨hc, hop, hlen, hst, hcd⟩ := hs
  have hw : wrapInt32 (h.gameState.NextRoundIn - 1) = cd - 1 := by
    rw [hcd]
    apply wrapInt32_pred <;> omega
  have hd : 0 < wrapInt32 (h.gameState.NextRoundIn - 1) := by
    rw [hw]
    omega
  have hin : (0 : Nat) ∈ h.clients := by rw [hc]; exact Finset.mem_singleton_self 0
  have hroom : (h.client 0).send.buf.length < sendCapacity := by rw [hlen]; exact hn
  generalize hg : ({ h.gameState with
      LastUpdate := now,
      NextRoundIn := wrapInt32 (h.gameState.NextRoundIn - 1) } : GameState) = g1
  have hg1s : g1.Status = 0 := by rw [← hg]; exact hst
  have hg1c : g1.NextRoundIn = cd - 1 := by rw [← hg]; exact hw
  have hopall : ∀ c ∈ ({ h with gameState := g1 } : Hub).clients,
      (({ h with gameState := g1 } : Hub).client c).send.closed = false := by
    intro c hcm
    have hc0 : c = 0 := by
      have : c ∈ h.clients := hcm
      rw [hc] at this
      exact Finset.mem_singleton.mp this
    subst hc0
    exact hop
  obtain ⟨e1, e2⟩ := afterBroadcast_client_room ({ h with gameState := g1 } : Hub)
    (statusFrame E g1) 0 hin hroom
  refine ⟨({ h with gameState := g1 } : Hub).afterBroadcast (statusFrame E g1), ?_, ?_, ?_,
    ?_, hg1s, hg1c⟩
  · unfold gameLoopTick
    rw [tick_waiting_stay E now clock _ hst hd, hg]
    simp only [applyEffects]
    rw [broadcastMessage_open _ _ hopall]
  · ext c
    constructor
    · intro hcm
      have hcm2 : c ∈ h.clients ∧ (h.client c).send.buf.length < sendCapacity := by
        simpa [Hub.afterBroadcast] using hcm
      rw [hc] at hcm2
      exact hcm2.1
    · intro hcm
      have hc0 : c = 0 := Finset.mem_singleton.mp hcm
      subst hc0
      exact e2
  · rw [e1]
    exact hop
  · rw [e1]
    show ((h.client 0).send.buf ++ [statusFrame E g1]).length = n + 1
    rw [List.length_append, hlen]
    rfl

/-- A run of `j` waiting ticks on a hub whose only session has room for them. -/
theorem ticks_sole (E : Env) (now clock : Int) (j : Nat) :
    ∀ (h : Hub) (n : Nat) (cd : Int), h.soleSession n cd → n + j ≤ sendCapacity →
      (j : Int) < cd → cd < 2 ^ 31 →
      ∃ h1, run E (List.replicate j (Op.tick now clock)) h = .ok h1 ∧
        h1.soleSession (n + j) (cd - j) := by
  induction j with
  | zero =>
    intro h n cd hs _ _ _
    refine ⟨h, rfl, ?_⟩
    simpa using hs
  | succ j ih =>
    intro h n cd hs hn hj hcd
    push_cast at hj
    obtain ⟨h1, r1, s1⟩ := tick_sole E now clock h n cd hs (by omega) (by omega) hcd
    obtain ⟨h2, r2, s2⟩ := ih h1 (n + 1) (cd - 1) s1 (by omega) (by omega) (by omega)
    have hstep : step E h (Op.tick now clock) = .ok h1 := r1
    refine ⟨h2, ?_, ?_⟩
    · rw [List.replicate_succ, run_cons_ok E _ _ h h1 hstep]
      exact r2
    · have e1 : n + (j + 1) = n + 1 + j := by omega
      have e2 : cd - ((j + 1 : Nat) : Int) = cd - 1 - (j : Int) := by push_cast; ring
      rw [e1, e2]
      exact s2

/-- The run of `waitingFillOps`: session 0 is the only live session, its queue is open and
holds 256 frames, and the round is waiting with countdown 1. -/
theorem run_waitingFillOps (E : Env) (now0 now clock : Int) (m : List Byte) :
    ∃ h, run E (waitingFillOps m now clock) (initialHub now0) = .ok h ∧
      h.soleSession 256 1 := by
  have hs : (backlogHub E now0 m 246 false).soleSession 247 10 :=
    ⟨rfl, rfl, length_backlog_buf E now0 m 246 false, rfl, rfl⟩
  obtain ⟨h1, r1, s1⟩ := ticks_sole E now clock 9 (backlogHub E now0 m 246 false) 247 10 hs
    (by unfold sendCapacity; omega) (by norm_num) (by norm_num)
  refine ⟨h1, ?_, ?_⟩
  · unfold waitingFillOps
    rw [run_append_ok E _ _ _ _
      (run_register_broadcasts E now0 m 246 (by unfold sendCapacity; omega))]
    exact r1
  · have e : (10 : Int) - ((9 : Nat) : Int) = 1 := by norm_num
    rw [← e]
    exact s1

/-! ## The tick on the hub: the claims -/

/-- C5 on the failing input: session 0 registers and takes no frame from its channel;
246 broadcasts and 9 ticks fill its queue and bring the waiting round to countdown 1; its
reply to a message that does not decode closes its queue while it stays registered. The
next tick decrements the countdown to zero and sets the round running, but its
`GameStart` broadcast sends on the closed channel and panics: no `GameStart` frame is
broadcast and the tick does not complete. -/
theorem start_tick_panics_after_reply_close (E : Env) (now0 now clock t1 t2 : Int)
    (m : List Byte) :
    ∃ h, run E (waitingFillOps m now clock ++ [.handle 0 t1 t2 []]) (initialHub now0)
        = .ok h ∧
      0 ∈ h.clients ∧ (h.client 0).send.closed = true ∧
      h.gameState.Status = 0 ∧ h.gameState.NextRoundIn = 1 ∧
      (updateGameState E now clock h.gameState).1.Status = 1 ∧
      (updateGameState E now clock h.gameState).2
        = [.broadcast (gameStartFrame E clock (updateGameState E now clock h.gameState).1),
           .broadcast (statusFrame E (updateGameState E now clock h.gameState).1)] ∧
      gameLoopTick E now clock h = .error .sendOnClosedChannel ∧
      run E (waitingFillOps m now clock ++ [.handle 0 t1 t2 [], .tick now clock])
          (initialHub now0) = .error .sendOnClosedChannel := by
  obtain ⟨h1, r1, hc, hop, hlen, hst, hcd⟩ := run_waitingFillOps E now0 now clock m
  have hfull : ¬ (h1.client 0).send.buf.length < sendCapacity := by
    rw [hlen]
    exact lt_irrefl _
  have hrep : step E h1 (Op.handle 0 t1 t2 [])
      = .ok (h1.setSend 0 { (h1.client 0).send with closed := true }) := by
    show handleMessage E t1 t2 h1 0 [] = _
    rw [handleMessage_undecodable E t1 t2 _ 0 [] .tooShort rfl,
      sendOrClose_full _ 0 _ hop hfull]
  have hin : 0 ∈ (h1.setSend 0 { (h1.client 0).send with closed := true }).clients := by
    show 0 ∈ h1.clients
    rw [hc]
    exact Finset.mem_singleton_self 0
  have hclosed : ((h1.setSend 0 { (h1.client 0).send with closed := true }).client 0).send.closed
      = true := by
    rw [setSend_client_same]
  have hd : wrapInt32
      ((h1.setSend 0 { (h1.client 0).send with closed := true }).gameState.NextRoundIn - 1)
        ≤ 0 := by
    show wrapInt32 (h1.gameState.NextRoundIn - 1) ≤ 0
    rw [hcd]
    decide
  have hpanic : gameLoopTick E now clock
      (h1.setSend 0 { (h1.client 0).send with closed := true })
        = .error .sendOnClosedChannel :=
    gameLoopTick_closed E now clock _ ⟨0, hin, hclosed⟩
  have hrun : run E (waitingFillOps m now clock ++ [.handle 0 t1 t2 []]) (initialHub now0)
      = .ok (h1.setSend 0 { (h1.client 0).send with closed := true }) := by
    rw [run_append_ok E _ _ _ _ r1, run_singleton]
    exact hrep
  refine ⟨_, hrun, hin, hclosed, hst, hcd, ?_, ?_, hpanic, ?_⟩
  · show (updateGameState E now clock h1.gameState).1.Status = 1
    rw [tick_waiting_start E now clock _ hst hd]
  · show (updateGameState E now clock h1.gameState).2
      = [.broadcast (gameStartFrame E clock (updateGameState E now clock h1.gameState).1),
         .broadcast (statusFrame E (updateGameState E now clock h1.gameState).1)]
    rw [tick_waiting_start E now clock _ hst hd]
  · rw [run_append_ok E _ _ _ _ r1, run_cons_ok E _ _ _ _ hrep, run_singleton]
    exact hpanic

/-- C9 on the failing input: session 0 registers, 255 broadcasts fill its queue, and its
reply to a message that does not decode closes its queue while it stays registered. The
next tick panics when its first broadcast sends on the closed channel: no
`GameStatusUpdate` frame is broadcast by that tick. -/
theorem tick_panics_after_reply_close (E : Env) (now0 now clock t1 t2 : Int)
    (m : List Byte) :
    ∃ h, run E (fillOps m ++ [.handle 0 t1 t2 []]) (initialHub now0) = .ok h ∧
      0 ∈ h.clients ∧ (h.client 0).send.closed = true ∧
      gameLoopTick E now clock h = .error .sendOnClosedChannel ∧
      run E (fillOps m ++ [.handle 0 t1 t2 [], .tick now clock]) (initialHub now0)
        = .error .sendOnClosedChannel := by
  have hin : 0 ∈ (filledHub E now0 m true).clients := mem_filled_clients E now0 m true
  have hstep : step E (filledHub E now0 m false) (Op.handle 0 t1 t2 [])
      = .ok (filledHub E now0 m true) := handle_undecodable_filled E now0 t1 t2 m
  have hpanic : gameLoopTick E now clock (filledHub E now0 m true)
      = .error .sendOnClosedChannel :=
    gameLoopTick_closed E now clock _ ⟨0, hin, rfl⟩
  refine ⟨filledHub E now0 m true, run_fill_then_reply E now0 t1 t2 m, hin, rfl, hpanic, ?_⟩
  rw [run_append_ok E _ _ _ _ (run_fillOps E now0 m),
    run_cons_ok E _ _ _ _ hstep, run_singleton]
  exact hpanic

/-! ## The multiplier in `float64` arithmetic: rounding -/

theorem float_log_eq (x : ℚ) (k : ℤ) (hx : 0 < x) (h1 : (2 : ℚ) ^ k ≤ x)
    (h2 : x < (2 : ℚ) ^ (k + 1)) : Int.log 2 x = k := by
  apply le_antisymm
  · have := (Int.lt_zpow_iff_log_lt (b := 2) (by norm_num) hx (x := k + 1)).mp
      (by exact_mod_cast h2)
    omega
  · exact (Int.zpow_le_iff_le_log (b := 2) (by norm_num) hx).mp (by exact_mod_cast h1)

theorem roundHalfEven_up (q : ℚ) (z : ℤ) (h1 : (z : ℚ) + 1 / 2 < q) (h2 : q < (z : ℚ) + 1) :
    roundHalfEven q = z + 1 := by
  have hf : ⌊q⌋ = z := by
    rw [Int.floor_eq_iff]
    constructor <;> linarith
  unfold roundHalfEven
  rw [hf]
  have a : ¬ (q - (z : ℚ) < 1 / 2) := by linarith
  have b : (1 : ℚ) / 2 < q - (z : ℚ) := by linarith
  rw [if_neg a, if_pos b]

/-- Rounding in the binade `[2^k, 2^(k+1))`: the unit in the last place is `2^(k-52)`. -/
theorem roundFloat64_binade (x : ℚ) (k : ℤ) (hk : -1022 ≤ k) (h1 : (2 : ℚ) ^ k ≤ x)
    (h2 : x < (2 : ℚ) ^ (k + 1)) :
    roundFloat64 x = (roundHalfEven (x / (2 : ℚ) ^ (k - 52)) : ℚ) * (2 : ℚ) ^ (k - 52) := by
  have hpos : (0 : ℚ) < (2 : ℚ) ^ k := by positivity
  have hx : 0 < x := lt_of_lt_of_le hpos h1
  have hne : x ≠ 0 := ne_of_gt hx
  have habs : |x| = x := abs_of_pos hx
  have hlog : Int.log 2 x = k := float_log_eq x k hx h1 h2
  have hnl : ¬ x < 0 := not_lt.mpr (le_of_lt hx)
  unfold roundFloat64
  simp only [hne, if_false, habs, hlog, max_eq_left hk, hnl, one_mul]

/-- The `float64` constant `0.01` is 5764607523034235 × 2^(-59). -/
theorem float64Cent_eq : float64Cent = 5764607523034235 / 2 ^ 59 := by
  unfold float64Cent
  rw [roundFloat64_binade (1 / 100) (-7) (by norm_num) (by norm_num) (by norm_num)]
  rw [roundHalfEven_up _ 5764607523034234 (by norm_num) (by norm_num)]
  norm_num

/-- Rounding between 1 and 2: the unit in the last place is `2^(-52)`. -/
theorem roundFloat64_unit (x : ℚ) (h1 : 1 ≤ x) (h2 : x < 2) :
    roundFloat64 x = (roundHalfEven (x * 2 ^ 52) : ℚ) / 2 ^ 52 := by
  rw [roundFloat64_binade x 0 (by norm_num) (by simpa using h1) (by simpa using h2)]
  have e : ((2 : ℚ) ^ ((0 : ℤ) - 52)) = 1 / 2 ^ 52 := by
    rw [zero_sub, zpow_neg, one_div]
    norm_cast
  rw [e]
  simp only [div_div_eq_mul_div, div_one, one_div]
  ring_nf

/-- The `float64` sum of a value between 1 and 2 and the constant `0.01`: the value is a
multiple `X` of `2^(-52)` and the sum is `X + 45035996273705` such units. -/
theorem float64Add_cent (X : ℕ) (h1 : 2 ^ 52 ≤ X) (h2 : X + 45035996273705 < 2 ^ 53) :
    float64Add ((X : ℚ) / 2 ^ 52) float64Cent = ((X : ℚ) + 45035996273705) / 2 ^ 52 := by
  have hX1 : (4503599627370496 : ℚ) ≤ (X : ℚ) := by exact_mod_cast h1
  have hX2 : (X : ℚ) + 45035996273705 < 9007199254740992 := by exact_mod_cast h2
  have hs : (X : ℚ) / 2 ^ 52 + 5764607523034235 / 2 ^ 59
      = ((X : ℚ) + 5764607523034235 / 128) / 4503599627370496 := by ring
  have hm : ((X : ℚ) + 5764607523034235 / 128) / 4503599627370496 * 2 ^ 52
      = (X : ℚ) + 5764607523034235 / 128 := by ring
  unfold float64Add
  rw [float64Cent_eq, hs,
    roundFloat64_unit _
      (by rw [le_div_iff₀ (by norm_num)]; linarith)
      (by rw [div_lt_iff₀ (by norm_num)]; linarith),
    hm,
    roundHalfEven_up _ ((X : ℤ) + 45035996273704)
      (by push_cast; linarith) (by push_cast; linarith)]
  push_cast
  ring

/-- The `k + 1`-th addition of `0.01` to 1.0, for the sums that stay below 2. -/
theorem float64Add_cent_step (k : ℕ) (hk : k < 99) :
    float64Add (1 + (k : ℚ) * centStep) float64Cent = 1 + ((k + 1 : ℕ) : ℚ) * centStep := by
  have h := float64Add_cent (2 ^ 52 + k * 45035996273705) (by omega) (by omega)
  have e1 : (((2 ^ 52 + k * 45035996273705 : ℕ) : ℚ)) / 2 ^ 52 = 1 + (k : ℚ) * centStep := by
    unfold centStep
    push_cast
    ring
  rw [e1] at h
  rw [h]
  unfold centStep
  push_cast
  ring

/-- The `float64` numbers nearest to 1.01, 1.02, 1.03 and 1.30: the first three are 1.0
raised by one, two and three additions of 0.01; the last is one unit in the last place
below 1.0 raised by thirty additions. -/
theorem roundFloat64_hundredths :
    roundFloat64 (101 / 100) = 1 + 1 * centStep ∧
      roundFloat64 (102 / 100) = 1 + 2 * centStep ∧
      roundFloat64 (103 / 100) = 1 + 3 * centStep ∧
      roundFloat64 (130 / 100) = 1 + 30 * centStep - 1 / 2 ^ 52 := by
  refine ⟨?_, ?_, ?_, ?_⟩
  · rw [roundFloat64_unit _ (by norm_num) (by norm_num),
      roundHalfEven_up _ 4548635623644200 (by norm_num) (by norm_num)]
    unfold centStep
    norm_num
  · rw [roundFloat64_unit _ (by norm_num) (by norm_num),
      roundHalfEven_up _ 4593671619917905 (by norm_num) (by norm_num)]
    unfold centStep
    norm_num
  · rw [roundFloat64_unit _ (by norm_num) (by norm_num),
      roundHalfEven_up _ 4638707616191610 (by norm_num) (by norm_num)]
    unfold centStep
    norm_num
  · rw [roundFloat64_unit _ (by norm_num) (by norm_num),
      roundHalfEven_up _ 5854679515581644 (by norm_num) (by norm_num)]
    unfold centStep
    norm_num

/-! ## The round state machine in `float64` arithmetic -/

theorem tick64_waiting_stay (E : Env) (now clock : Int) (g : GameState) (hs : g.Status = 0)
    (hd : 0 < wrapInt32 (g.NextRoundIn - 1)) :
    (updateGameState64 E now clock g).1
      = { g with LastUpdate := now, NextRoundIn := wrapInt32 (g.NextRoundIn - 1) } := by
  have hd2 : ¬ wrapInt32 (g.NextRoundIn - 1) ≤ 0 := not_le.mpr hd
  simp [updateGameState64, hs, hd2]

theorem tick64_waiting_start (E : Env) (now clock : Int) (g : GameState) (hs : g.Status = 0)
    (hd : wrapInt32 (g.NextRoundIn - 1) ≤ 0) :
    (updateGameState64 E now clock g).1
      = { g with LastUpdate := now, Status := 1, CurrentMultiplier := 1,
                 NextRoundIn := 30 } := by
  simp [updateGameState64, hs, hd]

theorem tick64_running_stay (E : Env) (now clock : Int) (g : GameState) (hs : g.Status = 1)
    (hd : 0 < wrapInt32 (g.NextRoundIn - 1)) :
    (updateGameState64 E now clock g).1
      = { g with LastUpdate := now,
                 CurrentMultiplier := float64Add g.CurrentMultiplier float64Cent,
                 NextRoundIn := wrapInt32 (g.NextRoundIn - 1) } := by
  have hd2 : ¬ wrapInt32 (g.NextRoundIn - 1) ≤ 0 := not_le.mpr hd
  simp [updateGameState64, hs, hd2]

theorem tick64_running_end (E : Env) (now clock : Int) (g : GameState) (hs : g.Status = 1)
    (hd : wrapInt32 (g.NextRoundIn - 1) ≤ 0) :
    (updateGameState64 E now clock g).1
      = { g with LastUpdate := now, Status := 2,
                 CurrentMultiplier := float64Add g.CurrentMultiplier float64Cent,
                 NextRoundIn := wrapInt32 (g.NextRoundIn - 1) } := by
  simp [updateGameState64, hs, hd]

theorem tick64_ended (E : Env) (now clock : Int) (g : GameState) (hs : g.Status = 2) :
    (updateGameState64 E now clock g).1
      = { g with LastUpdate := now, Status := 0, CurrentMultiplier := 1,
                 NextRoundIn := 10 } := by
  simp [updateGameState64, hs]

theorem tick64_other (E : Env) (now clock : Int) (g : GameState) (h0 : g.Status ≠ 0)
    (h1 : g.Status ≠ 1) (h2 : g.Status ≠ 2) :
    (updateGameState64 E now clock g).1 = { g with LastUpdate := now } := by
  simp [updateGameState64, h0, h1, h2]

/-- The two renderings of `updateGameState` leave the same status, countdown, update
time, player count and round id, and the same state altogether on every tick that is not
taken in status running. -/
theorem updateGameState64_agrees (E : Env) (now clock : Int) (g : GameState) :
    (updateGameState64 E now clock g).1.Status = (updateGameState E now clock g).1.Status ∧
      (updateGameState64 E now clock g).1.NextRoundIn
        = (updateGameState E now clock g).1.NextRoundIn ∧
      (updateGameState64 E now clock g).1.LastUpdate
        = (updateGameState E now clock g).1.LastUpdate ∧
      (updateGameState64 E now clock g).1.PlayersCount
        = (updateGameState E now clock g).1.PlayersCount ∧
      (updateGameState64 E now clock g).1.GameID = (updateGameState E now clock g).1.GameID ∧
      (g.Status ≠ 1 →
        (updateGameState64 E now clock g).1 = (updateGameState E now clock g).1) := by
  by_cases h0 : g.Status = 0
  · have h01 : g.Status ≠ 1 := by rw [h0]; decide
    rcases lt_or_le 0 (wrapInt32 (g.NextRoundIn - 1)) with hd | hd
    · rw [tick64_waiting_stay E now clock g h0 hd, tick_waiting_stay E now clock g h0 hd]
      exact ⟨rfl, rfl, rfl, rfl, rfl, fun _ => rfl⟩
    · rw [tick64_waiting_start E now clock g h0 hd, tick_waiting_start E now clock g h0 hd]
      exact ⟨rfl, rfl, rfl, rfl, rfl, fun _ => rfl⟩
  · by_cases h1 : g.Status = 1
    · rcases lt_or_le 0 (wrapInt32 (g.NextRoundIn - 1)) with hd | hd
      · rw [tick64_running_stay E now clock g h1 hd, tick_running_stay E now clock g h1 hd]
        exact ⟨rfl, rfl, rfl, rfl, rfl, fun h => absurd h1 h⟩
      · rw [tick64_running_end E now clock g h1 hd, tick_running_end E now clock g h1 hd]
        exact ⟨rfl, rfl, rfl, rfl, rfl, fun h => absurd h1 h⟩
    · by_cases h2 : g.Status = 2
      · rw [tick64_ended E now clock g h2, tick_ended E now clock g h2]
        exact ⟨rfl, rfl, rfl, rfl, rfl, fun _ => rfl⟩
      · rw [tick64_other E now clock g h0 h1 h2, tick_other E now clock g h0 h1 h2]
        exact ⟨rfl, rfl, rfl, rfl, rfl, fun _ => rfl⟩

/-- One tick moves a state at position `r` of the cycle to position `r + 1`, and from the
last position back to the first, where the multiplier is 1.0 again. -/
theorem phase64_step (E : Env) (now clock : Int) (g : GameState) (r : Nat) (w : ℚ)
    (hr : r < 41) (hg : g.atPhase64 r w) :
    (updateGameState64 E now clock g).1.atPhase64 ((r + 1) % 41)
      (if r = 40 then 1 else w) := by
  obtain ⟨hs, hc, hm⟩ := hg
  by_cases h1 : r < 10
  · have e1 : (roundPhase64 r) = (0, 1, 10 - (r : Int)) := by simp [roundPhase64, h1]
    rw [e1] at hs hc
    simp only at hs hc
    rw [if_pos h1] at hm
    have hw : wrapInt32 (g.NextRoundIn - 1) = 9 - (r : Int) := by
      rw [hc, wrapInt32_pred] <;> omega
    have hmod : (r + 1) % 41 = r + 1 := Nat.mod_eq_of_lt (by omega)
    have hne : ¬ r = 40 := by omega
    rw [hmod, if_neg hne]
    by_cases h9 : r = 9
    · subst h9
      rw [tick64_waiting_start E now clock g hs (by rw [hw]; norm_num)]
      refine ⟨?_, ?_, ?_⟩ <;> simp [roundPhase64]
    · have hlt : r + 1 < 10 := by omega
      rw [tick64_waiting_stay E now clock g hs (by rw [hw]; omega)]
      refine ⟨?_, ?_, ?_⟩
      · simp [roundPhase64, hlt, hs]
      · simp only [roundPhase64, hlt, if_true, hw]
        push_cast
        ring
      · simp only [hlt, if_true]
        exact hm
  · by_cases h2 : r < 40
    · have e1 : (roundPhase64 r) = (1, 1 + ((r : ℚ) - 10) * centStep, 40 - (r : Int)) := by
        simp [roundPhase64, h1, h2]
      rw [e1] at hs hc hm
      simp only at hs hc hm
      rw [if_neg h1] at hm
      have hw : wrapInt32 (g.NextRoundIn - 1) = 39 - (r : Int) := by
        rw [hc, wrapInt32_pred] <;> omega
      have hmod : (r + 1) % 41 = r + 1 := Nat.mod_eq_of_lt (by omega)
      have hne : ¬ r = 40 := by omega
      have hk : ((r : ℚ) - 10) = ((r - 10 : ℕ) : ℚ) := by
        rw [Nat.cast_sub (by omega)]
        norm_num
      have hadd : float64Add g.CurrentMultiplier float64Cent
          = 1 + (((r - 10 + 1 : ℕ)) : ℚ) * centStep := by
        rw [hm, hk]
        exact float64Add_cent_step (r - 10) (by omega)
      have hk2 : (((r - 10 + 1 : ℕ)) : ℚ) = ((r + 1 : ℕ) : ℚ) - 10 := by
        have : r - 10 + 1 = r + 1 - 10 := by omega
        rw [this, Nat.cast_sub (by omega)]
        norm_num
      have hge : ¬ r + 1 < 10 := by omega
      rw [hmod, if_neg hne]
      by_cases h39 : r = 39
      · subst h39
        rw [tick64_running_end E now clock g hs (by rw [hw]; norm_num)]
        refine ⟨?_, ?_, ?_⟩
        · simp [roundPhase64]
        · simp only [roundPhase64, hw]
          norm_num
        · simp only [roundPhase64, hadd]
          norm_num
      · have hlt : r + 1 < 40 := by omega
        rw [tick64_running_stay E now clock g hs (by rw [hw]; omega)]
        refine ⟨?_, ?_, ?_⟩
        · simp [roundPhase64, hlt, hge, hs]
        · simp only [roundPhase64, hlt, hge, if_true, if_false, hw]
          push_cast
          ring
        · simp only [roundPhase64, hlt, hge, if_true, if_false, hadd, hk2]
    · have h40 : r = 40 := by omega
      subst h40
      have e1 : (roundPhase64 40) = (2, 1 + 30 * centStep, 0) := by simp [roundPhase64]
      rw [e1] at hs
      simp only at hs
      rw [tick64_ended E now clock g hs]
      refine ⟨?_, ?_, ?_⟩ <;> simp [roundPhase64]

/-- After `n` ticks from a state at position `r0` of the cycle, the round is at position
`(r0 + n) mod 41`; while waiting it holds the multiplier it started with until the first
round has ended, and 1.0 from then on. -/
theorem stateAfter64_phase (E : Env) (clk : Nat → Int × Int) (g : GameState) (r0 : Nat)
    (w0 : ℚ) (hr : r0 < 41) (hg : g.atPhase64 r0 w0) (n : Nat) :
    (stateAfter64 E clk g n).atPhase64 ((r0 + n) % 41) (if 41 ≤ r0 + n then 1 else w0) := by
  induction n with
  | zero =>
    have h1 : ¬ 41 ≤ r0 + 0 := by omega
    rw [Nat.add_zero, Nat.mod_eq_of_lt hr]
    rw [Nat.add_zero] at h1
    rw [if_neg h1]
    exact hg
  | succ n ih =>
    have hstep : stateAfter64 E clk g (n + 1)
        = (updateGameState64 E (clk n).1 (clk n).2 (stateAfter64 E clk g n)).1 := rfl
    have h := phase64_step E (clk n).1 (clk n).2 _ ((r0 + n) % 41) _
      (Nat.mod_lt _ (by decide)) ih
    have e1 : ((r0 + n) % 41 + 1) % 41 = (r0 + (n + 1)) % 41 := by omega
    have e2 : (if (r0 + n) % 41 = 40 then (1 : ℚ) else (if 41 ≤ r0 + n then 1 else w0))
        = if 41 ≤ r0 + (n + 1) then 1 else w0 := by
      by_cases a : (r0 + n) % 41 = 40
      · have b : 41 ≤ r0 + (n + 1) := by omega
        rw [if_pos a, if_pos b]
      · rw [if_neg a]
        by_cases b : 41 ≤ r0 + n
        · have c : 41 ≤ r0 + (n + 1) := by omega
          rw [if_pos b, if_pos c]
        · have c : ¬ 41 ≤ r0 + (n + 1) := by omega
          rw [if_neg b, if_neg c]
    rw [hstep, ← e1, ← e2]
    exact h

theorem newHub_atPhase64 (now : Int) : (NewHub now).atPhase64 0 1 := by
  refine ⟨?_, ?_, ?_⟩ <;> simp [roundPhase64, NewHub]

theorem centStep_bounds : 1 + 30 * centStep = 5854679515581646 / 4503599627370496 ∧
    (130 : ℚ) / 100 < 1 + 30 * centStep ∧ 1 + 30 * centStep < 131 / 100 := by
  unfold centStep
  refine ⟨?_, ?_, ?_⟩ <;> norm_num

/-! ## The round state machine in `float64` arithmetic: the claims -/

/-- C29 (amended): every round state reached from the state of `NewHub` (waiting,
multiplier 1.0, countdown 10) by any number of ticks has status 0, 1 or 2; when waiting
its multiplier is 1.0 and its countdown lies between 1 and 10; when running its
countdown lies between 1 and 30 and its multiplier is 1.0 raised by (30 − countdown)
`float64` additions of 0.01, each of which adds `centStep` = 45035996273705 × 2^(-52);
when ended its countdown is 0 and its multiplier is 1.0 raised by 30 such additions,
1.3000000000000003; the multiplier never exceeds that value, which is greater than 1.30
and less than 1.31; and status, multiplier and countdown repeat with period 41 ticks, 41
being the least such period. -/
theorem reachable_round_states (E : Env) (clk : Nat → Int × Int) (now : Int) (n : Nat) :
    ((stateAfter64 E clk (NewHub now) n).Status = 0 ∨
        (stateAfter64 E clk (NewHub now) n).Status = 1 ∨
        (stateAfter64 E clk (NewHub now) n).Status = 2) ∧
      ((stateAfter64 E clk (NewHub now) n).Status = 0 →
        (stateAfter64 E clk (NewHub now) n).CurrentMultiplier = 1 ∧
        1 ≤ (stateAfter64 E clk (NewHub now) n).NextRoundIn ∧
        (stateAfter64 E clk (NewHub now) n).NextRoundIn ≤ 10) ∧
      ((stateAfter64 E clk (NewHub now) n).Status = 1 →
        1 ≤ (stateAfter64 E clk (NewHub now) n).NextRoundIn ∧
        (stateAfter64 E clk (NewHub now) n).NextRoundIn ≤ 30 ∧
        (stateAfter64 E clk (NewHub now) n).CurrentMultiplier
          = 1 + (30 - ((stateAfter64 E clk (NewHub now) n).NextRoundIn : ℚ)) * centStep) ∧
      ((stateAfter64 E clk (NewHub now) n).Status = 2 →
        (stateAfter64 E clk (NewHub now) n).NextRoundIn = 0 ∧
        (stateAfter64 E clk (NewHub now) n).CurrentMultiplier = 1 + 30 * centStep) ∧
      (stateAfter64 E clk (NewHub now) n).CurrentMultiplier ≤ 1 + 30 * centStep ∧
      (1 + 30 * centStep = 5854679515581646 / 4503599627370496 ∧
        (130 : ℚ) / 100 < 1 + 30 * centStep ∧ 1 + 30 * centStep < 131 / 100) ∧
      (stateAfter64 E clk (NewHub now) (n + 41)).Status
        = (stateAfter64 E clk (NewHub now) n).Status ∧
      (stateAfter64 E clk (NewHub now) (n + 41)).CurrentMultiplier
        = (stateAfter64 E clk (NewHub now) n).CurrentMultiplier ∧
      (stateAfter64 E clk (NewHub now) (n + 41)).NextRoundIn
        = (stateAfter64 E clk (NewHub now) n).NextRoundIn ∧
      (∀ p, 0 < p → p < 41 →
        ¬ ((stateAfter64 E clk (NewHub now) p).Status = (NewHub now).Status ∧
          (stateAfter64 E clk (NewHub now) p).NextRoundIn = (NewHub now).NextRoundIn)) := by
  have hw : ∀ k : Nat, (if 41 ≤ 0 + k then (1 : ℚ) else 1) = 1 := fun k => by
    split_ifs <;> rfl
  have hph : ∀ k : Nat, (stateAfter64 E clk (NewHub now) k).atPhase64 (k % 41) 1 := by
    intro k
    have h := stateAfter64_phase E clk (NewHub now) 0 1 (by decide) (newHub_atPhase64 now) k
    rw [hw k, Nat.zero_add] at h
    exact h
  have cs0 : (0 : ℚ) < centStep := by unfold centStep; norm_num
  obtain ⟨hs, hc, hm⟩ := hph n
  obtain ⟨hs41, hc41, hm41⟩ := hph (n + 41)
  rw [Nat.add_mod_right] at hs41 hc41 hm41
  have hr : n % 41 < 41 := Nat.mod_lt _ (by decide)
  refine ⟨?_, ?_, ?_, ?_, ?_, centStep_bounds, hs41.trans hs.symm, hm41.trans hm.symm,
    hc41.trans hc.symm, ?_⟩ <;> clear hs41 hc41 hm41
  all_goals generalize n % 41 = r at hs hc hm hr
  · rw [hs]
    unfold roundPhase64
    split_ifs <;> simp
  · intro h0
    rw [hs] at h0
    rw [hm, hc]
    unfold roundPhase64 at h0 ⊢
    split_ifs at h0 ⊢ with a b
    · simp only
      refine ⟨trivial, ?_, ?_⟩ <;> omega
    · simp at h0
    · simp at h0
  · intro h0
    rw [hs] at h0
    rw [hm, hc]
    unfold roundPhase64 at h0 ⊢
    split_ifs at h0 ⊢ with a b
    · simp at h0
    · simp only
      refine ⟨by omega, by omega, ?_⟩
      push_cast
      ring
    · simp at h0
  · intro h0
    rw [hs] at h0
    rw [hm, hc]
    unfold roundPhase64 at h0 ⊢
    split_ifs at h0 ⊢ with a b
    · simp at h0
    · simp at h0
    · simp only
      exact ⟨trivial, trivial⟩
  · rw [hm]
    unfold roundPhase64
    split_ifs with a b
    · linarith
    · simp only
      have hb : r ≤ 39 := Nat.le_of_lt_succ b
      have hb2 : (r : ℚ) ≤ 39 := by exact_mod_cast hb
      have hb3 : ((r : ℚ) - 10) * centStep ≤ 30 * centStep :=
        mul_le_mul_of_nonneg_right (by linarith) (le_of_lt cs0)
      linarith
    · exact le_refl _
  · intro p hp0 hp41 ⟨e1, e2⟩
    obtain ⟨ps, pc, -⟩ := hph p
    rw [Nat.mod_eq_of_lt hp41] at ps pc
    rw [ps] at e1
    rw [pc] at e2
    have i1 : (NewHub now).Status = 0 := rfl
    have i2 : (NewHub now).NextRoundIn = 10 := rfl
    rw [i1] at e1
    rw [i2] at e2
    unfold roundPhase64 at e1 e2
    split_ifs at e1 e2 with a b
    · simp at e2
      omega
    · simp at e1
    · simp at e1

/-- C29 as stated fails: after 40 ticks from the state of `NewHub` the round has ended
and its multiplier, 1.0 raised by thirty `float64` additions of 0.01, is
5854679515581646 × 2^(-52) = 1.3000000000000003: greater than 1.30, and one unit in the
last place above the `float64` nearest to 1.30. -/
theorem multiplier_exceeds_130 :
    (stateAfter64 sampleEnv sampleClock (NewHub 0) 40).Status = 2 ∧
      (stateAfter64 sampleEnv sampleClock (NewHub 0) 40).CurrentMultiplier
        = 5854679515581646 / 4503599627370496 ∧
      (130 : ℚ) / 100
        < (stateAfter64 sampleEnv sampleClock (NewHub 0) 40).CurrentMultiplier ∧
      roundFloat64 (130 / 100)
        < (stateAfter64 sampleEnv sampleClock (NewHub 0) 40).CurrentMultiplier := by
  obtain ⟨hs, -, hm⟩ := stateAfter64_phase sampleEnv sampleClock (NewHub 0) 0 1 (by decide)
    (newHub_atPhase64 0) 40
  have e : roundPhase64 ((0 + 40) % 41) = (2, 1 + 30 * centStep, 0) := by
    simp [roundPhase64]
  rw [e] at hs hm
  have hm2 : (stateAfter64 sampleEnv sampleClock (NewHub 0) 40).CurrentMultiplier
      = 1 + 30 * centStep := by
    rw [hm]
    simp
  obtain ⟨b1, b2, -⟩ := centStep_bounds
  refine ⟨hs, hm2.trans b1, ?_, ?_⟩
  · rw [hm2]
    exact b2
  · rw [hm2, roundFloat64_hundredths.2.2.2]
    norm_num

/-- C4 (amended): with the engine's fixed durations (waiting 10, running 30) and the
`float64` increment 0.01, a run that starts waiting with countdown 2 gives: tick 1
waiting with countdown 1; tick 2 running with multiplier 1.00 and countdown 30; tick 3
running with multiplier 1.01 and countdown 29; tick 4 running with 1.02 and 28; tick 5
still running with 1.03 and 27, these three multipliers being the `float64` numbers
nearest to 1.01, 1.02 and 1.03; tick 32 ends the round (status 2, countdown 0) with
multiplier 1.3000000000000003, one unit in the last place above the `float64` nearest to
1.30; tick 33 resets it to waiting with countdown 10 and multiplier 1.0. -/
theorem scenarioB_trajectory (E : Env) (clk : Nat → Int × Int) (g : GameState)
    (hs : g.Status = 0) (hc : g.NextRoundIn = 2) :
    ((stateAfter64 E clk g 1).Status = 0 ∧ (stateAfter64 E clk g 1).NextRoundIn = 1 ∧
        (stateAfter64 E clk g 1).CurrentMultiplier = g.CurrentMultiplier) ∧
      ((stateAfter64 E clk g 2).Status = 1 ∧ (stateAfter64 E clk g 2).CurrentMultiplier = 1 ∧
        (stateAfter64 E clk g 2).NextRoundIn = 30) ∧
      ((stateAfter64 E clk g 3).Status = 1 ∧
        (stateAfter64 E clk g 3).CurrentMultiplier = roundFloat64 (101 / 100) ∧
        (stateAfter64 E clk g 3).NextRoundIn = 29) ∧
      ((stateAfter64 E clk g 4).Status = 1 ∧
        (stateAfter64 E clk g 4).CurrentMultiplier = roundFloat64 (102 / 100) ∧
        (stateAfter64 E clk g 4).NextRoundIn = 28) ∧
      ((stateAfter64 E clk g 5).Status = 1 ∧
        (stateAfter64 E clk g 5).CurrentMultiplier = roundFloat64 (103 / 100) ∧
        (stateAfter64 E clk g 5).NextRoundIn = 27) ∧
      ((stateAfter64 E clk g 32).Status = 2 ∧
        (stateAfter64 E clk g 32).CurrentMultiplier
          = roundFloat64 (130 / 100) + 1 / 2 ^ 52 ∧
        (stateAfter64 E clk g 32).CurrentMultiplier
          = 5854679515581646 / 4503599627370496 ∧
        (stateAfter64 E clk g 32).NextRoundIn = 0) ∧
      ((stateAfter64 E clk g 33).Status = 0 ∧ (stateAfter64 E clk g 33).CurrentMultiplier = 1 ∧
        (stateAfter64 E clk g 33).NextRoundIn = 10) := by
  have hg : g.atPhase64 8 g.CurrentMultiplier := by
    refine ⟨?_, ?_, ?_⟩
    · rw [hs]; simp [roundPhase64]
    · rw [hc]; simp [roundPhase64]
    · simp
  have hph := stateAfter64_phase E clk g 8 g.CurrentMultiplier (by decide) hg
  obtain ⟨f1, f2, f3, f30⟩ := roundFloat64_hundredths
  obtain ⟨b1, -, -⟩ := centStep_bounds
  obtain ⟨s1, c1, m1⟩ := hph 1
  obtain ⟨s2, c2, m2⟩ := hph 2
  obtain ⟨s3, c3, m3⟩ := hph 3
  obtain ⟨s4, c4, m4⟩ := hph 4
  obtain ⟨s5, c5, m5⟩ := hph 5
  obtain ⟨s32, c32, m32⟩ := hph 32
  obtain ⟨s33, c33, m33⟩ := hph 33
  refine ⟨⟨?_, ?_, ?_⟩, ⟨?_, ?_, ?_⟩, ⟨?_, ?_, ?_⟩, ⟨?_, ?_, ?_⟩, ⟨?_, ?_, ?_⟩,
    ⟨?_, ?_, ?_, ?_⟩, ⟨?_, ?_, ?_⟩⟩
  · rw [s1]; simp [roundPhase64]
  · rw [c1]; simp [roundPhase64]
  · rw [m1]; simp
  · rw [s2]; simp [roundPhase64]
  · rw [m2]; simp [roundPhase64]
  · rw [c2]; simp [roundPhase64]
  · rw [s3]; simp [roundPhase64]
  · rw [m3, f1]; simp [roundPhase64]; norm_num
  · rw [c3]; simp [roundPhase64]
  · rw [s4]; simp [roundPhase64]
  · rw [m4, f2]; simp [roundPhase64]; norm_num
  · rw [c4]; simp [roundPhase64]
  · rw [s5]; simp [roundPhase64]
  · rw [m5, f3]; simp [roundPhase64]; norm_num
  · rw [c5]; simp [roundPhase64]
  · rw [s32]; simp [roundPhase64]
  · rw [m32, f30]; simp [roundPhase64]
  · rw [m32, ← b1]; simp [roundPhase64]
  · rw [c32]; simp [roundPhase64]
  · rw [s33]; simp [roundPhase64]
  · rw [m33]; simp [roundPhase64]
  · rw [c33]; simp [roundPhase64]

/-- Witness of C4: the run from the Scenario B start state. -/
theorem scenarioB_trajectory_witness :
    (stateAfter64 sampleEnv sampleClock scenarioBStart 3).Status = 1 ∧
      (stateAfter64 sampleEnv sampleClock scenarioBStart 3).CurrentMultiplier
        = roundFloat64 (101 / 100) ∧
      (stateAfter64 sampleEnv sampleClock scenarioBStart 3).NextRoundIn = 29 :=
  (scenarioB_trajectory sampleEnv sampleClock scenarioBStart rfl rfl).2.2.1

end GameBackend
